import Mathlib

set_option allowUnsafeReducibility true
attribute [semireducible] Rat.add Rat.sub Rat.mul Rat.inv Rat.ofScientific

/-!
Verification of the budget-execution backend ("Sistema Contabil").

This file shallowly embeds the data model and the operations of the
backend (SQLAlchemy models, CRUD layer, rubrica hierarchy service,
despesa confirmation services, global-allocation API, importer) as pure
Lean functions over explicit database states, and proves properties of
those functions.

Conventions:
- exact decimal money amounts are modelled as rationals (`Money := ℚ`);
  the source uses Python `Decimal`, whose additions/subtractions are
  exact; division by 12 appears once and is modelled exactly;
- database tables are lists of records; ORM mutation of a loaded row is
  modelled by mapping an id-directed update over the list; `db.add` of a
  new row appends; autoincrement primary keys are modelled as
  (max id + 1);
- Python truthiness tests on nullable integer columns (`if x:`) are
  modelled by `isTruthy` (none and 0 are falsy);
- raised exceptions that abort an HTTP request are modelled with
  `Except`/explicit error results; a transaction that aborts rolls back,
  so error outcomes are paired with the unchanged input state;
- unbounded recursion over parent pointers / the tree (which the source
  performs on database rows) is modelled with an explicit fuel argument
  large enough for every well-formed state (the well-formedness
  hypotheses of the theorems guarantee that the fuel-exhaustion branch
  is never reached).
-/

namespace SistemaContabil

/-- Exact decimal money amounts (Python `Decimal`). -/
abbrev Money := ℚ

/-- `StatusRubrica` enumeration of the data model. -/
inductive StatusRubrica
  | ativa
  | provisoria
  | inativa
deriving DecidableEq, Repr

/-- `StatusDespesa` enumeration of the data model. -/
inductive StatusDespesa
  | pendente
  | confirmada
  | cancelada
deriving DecidableEq, Repr

/-- `TipoRubrica` enumeration of the data model. -/
inductive TipoRubrica
  | receita
  | despesa
deriving DecidableEq, Repr

/-- `TipoDotacaoGlobalMov` enumeration of the data model. -/
inductive TipoMov
  | ajuste
  | despesaConfirmada
  | despesaCancelada
  | reserva
  | reservaCancelada
deriving DecidableEq, Repr

/-- A row of the `rubrica` table.  `anoFiscal` models the fiscal-year
column (`exercicio`) of the source. -/
structure Rubrica where
  id : Nat
  codigo : String
  designacao : String
  parent_id : Option Nat
  nivel : Nat
  dotacao_inicial : Option Money
  dotacao_calculada : Option Money
  anoFiscal : Int
  status : StatusRubrica
deriving DecidableEq, Repr

/-- Python truthiness of a nullable integer column: `None` and `0` are
falsy. -/
def isTruthy : Option Nat → Bool
  | none => false
  | some n => n != 0

/-- Autoincrement primary key for a new `rubrica` row. -/
def nextRubricaId (s : List Rubrica) : Nat :=
  (s.map (fun r => r.id)).foldl max 0 + 1

/-- `session.query(Rubrica).filter(Rubrica.id == rid).first()`. -/
def findRubrica : List Rubrica → Nat → Option Rubrica
  | [], _ => none
  | r :: rest, rid => if r.id = rid then some r else findRubrica rest rid

/-- The direct, same-fiscal-year, active children of a node, as filtered
inside `recalculate_dotacao_chain` (`rubrica_service.py`). -/
def activeChildren (all : List Rubrica) (node : Rubrica) : List Rubrica :=
  all.filter (fun r =>
    decide (r.parent_id = some node.id ∧ r.anoFiscal = node.anoFiscal ∧
      r.status = StatusRubrica.ativa))

/-- Association-list cache of already recomputed allocations
(`calculated_cache` in `recalculate_dotacao_chain`). -/
def clook : List (Nat × Money) → Nat → Option Money
  | [], _ => none
  | e :: rest, k => if e.1 = k then some e.2 else clook rest k

/-- `calculate_node` of `rubrica_service.recalculate_dotacao_chain`:
computes the allocation of one node, memoising every computed node in
the cache (each cache entry corresponds to an assignment of
`dotacao_calculada` staged on the session); a node with direct, active,
same-fiscal-year children first recomputes each child (the fold), then
stores the children's sum; a node with none stores its initial
allocation (0.00 when absent).  The fuel argument bounds the recursion
depth; the top-level call supplies `all.length + 1`, which suffices for
every well-formed (level-consistent) state. -/
def calcNode (all : List Rubrica) : Nat → List (Nat × Money) → Nat →
    Money × List (Nat × Money)
  | 0, cache, _ => (0, cache)
  | fuel + 1, cache, nid =>
    match clook cache nid with
    | some v => (v, cache)
    | none =>
      match findRubrica all nid with
      | none => (0, cache)
      | some node =>
        match activeChildren all node with
        | [] =>
          ((node.dotacao_inicial).getD 0,
            (nid, (node.dotacao_inicial).getD 0) :: cache)
        | c :: cs =>
          let r := (c :: cs).foldl
            (fun (acc : Money × List (Nat × Money)) ch =>
              let q := calcNode all fuel acc.2 ch.id
              (acc.1 + q.1, q.2)) ((0 : Money), cache)
          (r.1, (nid, r.1) :: r.2)

/-- The iterative parent walk of `get_ancestors` (inclusive of the
starting rubrica), with explicit fuel; the `p = 0` test models Python's
`while current_id:` truthiness loop condition. -/
def ancWalk (s : List Rubrica) : Nat → Nat → List Rubrica
  | 0, _ => []
  | fuel + 1, cid =>
    match findRubrica s cid with
    | none => []
    | some r =>
      match r.parent_id with
      | none => [r]
      | some p => if p = 0 then [r] else r :: ancWalk s fuel p

/-- `get_ancestors` (`rubrica_service.py`): ancestors of a rubrica,
including the rubrica itself, starting at the rubrica and walking up. -/
def get_ancestors (s : List Rubrica) (rid : Nat) : List Rubrica :=
  if rid = 0 then [] else ancWalk s (s.length + 1) rid

/-- Stable insertion used to model Python's
`sorted(ancestors, key=lambda r: r.nivel, reverse=True)`. -/
def insertDescNivel (x : Rubrica) : List Rubrica → List Rubrica
  | [] => [x]
  | y :: ys => if y.nivel < x.nivel then x :: y :: ys else y :: insertDescNivel x ys

/-- Sort by descending `nivel` (deepest first). -/
def sortDescNivel : List Rubrica → List Rubrica
  | [] => []
  | x :: xs => insertDescNivel x (sortDescNivel xs)

/-- The ancestor list used by `recalculate_dotacao_chain`: the inclusive
ancestor chain, falling back to just the rubrica itself when the chain
lookup yields nothing (and to nothing at all when the rubrica is
missing). -/
def chainAnc (s : List Rubrica) (rid : Nat) : List Rubrica :=
  let anc0 := get_ancestors s rid
  if anc0.isEmpty then
    match findRubrica s rid with
    | none => []
    | some r => [r]
  else anc0

/-- The rubricas of the chain's fiscal year, all statuses included
(`all_rubricas` in the source). -/
def chainAll (s : List Rubrica) (a : Rubrica) : List Rubrica :=
  s.filter (fun r => decide (r.anoFiscal = a.anoFiscal))

/-- The memo cache produced by running `calculate_node` over the sorted
(deepest-first) ancestors; its entries are exactly the
`dotacao_calculada` assignments staged on the session. -/
def chainCache (all : List Rubrica) (anc : List Rubrica) :
    List (Nat × Money) :=
  (sortDescNivel anc).foldl
    (fun c an => (calcNode all (all.length + 1) c an.id).2) []

/-- Apply the staged assignments to the table. -/
def applyCache (cache : List (Nat × Money)) (s : List Rubrica) :
    List Rubrica :=
  s.map (fun r =>
    match clook cache r.id with
    | some v => { r with dotacao_calculada := some v }
    | none => r)

/-- `recalculate_dotacao_chain` (`rubrica_service.py`): recompute
`dotacao_calculada` along the inclusive ancestor chain of `rid`,
deepest level first, over all rubricas of the chain's fiscal year; every
node staged on the session (i.e. every cache entry) receives its
recomputed allocation. -/
def recalculate_dotacao_chain (s : List Rubrica) (rid : Nat) : List Rubrica :=
  match chainAnc s rid with
  | [] => s
  | a :: rest =>
    applyCache (chainCache (chainAll s a) (a :: rest)) s

/-- `is_leaf_rubrica` (`rubrica_service.py`): a rubrica is a leaf iff it
has zero direct children, independent of fiscal year or status. -/
def is_leaf_rubrica (s : List Rubrica) (rid : Nat) : Bool :=
  (s.filter (fun r => decide (r.parent_id = some rid))).isEmpty

/-- Validation errors raised by the CRUD layer / API layer; constructors
name the raised condition instead of carrying the Portuguese message
text of the source. -/
inductive CrudErr
  | rootComDotacao        -- "Rubricas pai não podem ter dotação inicial ..."
  | dotacaoNegativa       -- "Dotação inicial deve ser maior ou igual a zero."
  | rubricaNaoEncontrada  -- rubrica lookup returned nothing (404 at the API)
  | valorNaoPositivo      -- "Valor da despesa deve ser maior que zero"
  | rubricaObrigatoria    -- "Rubrica é obrigatória"
  | rubricaNaoAtiva       -- "Rubrica deve estar ativa"
  | rubricaNaoFolha       -- "Apenas rubricas folha podem receber despesas"
  | fornecedorNaoEncontrado -- "Fornecedor não encontrado"
  | fornecedorInativo     -- "Fornecedor deve estar ativo"
  | dataFutura            -- "Data de emissão não pode ser futura"
  | dataForaDoAno         -- "Data de emissão ... deve estar dentro do exercício ..."
  | despesaNaoEncontrada  -- despesa lookup returned nothing
  | despesaConfirmadaBloqueada -- "Não é possível editar despesa confirmada"
  | remocaoConfirmadaBloqueada -- "Não pode remover despesas confirmadas"
  | semRubrica            -- "Despesa deve ter rubrica associada para ser confirmada"
  | colunaNula            -- NOT NULL column violated at commit time (500)
deriving DecidableEq, Repr

/-- The creation payload `RubricaCreate` of the validation layer; field
defaults follow the schema (`nivel = 1`, `dotacao_inicial = 0.00`,
`status = ativa`). -/
structure RubricaCreate where
  codigo : String
  designacao : String
  tipo : TipoRubrica
  parent_id : Option Nat := none
  nivel : Nat := 1
  dotacao_inicial : Option Money := some 0
  anoFiscal : Int
  status : StatusRubrica := StatusRubrica.ativa
deriving DecidableEq, Repr

/-- `crud.create_rubrica`: computes the level from the parent (default 1,
also when a supplied parent id does not resolve), forbids a positive
initial allocation on a parentless rubrica and a negative initial
allocation anywhere, forces the initial allocation of a parentless
rubrica to 0, initializes the computed allocation (0 for a root, the
initial allocation for a child), inserts the row, and recalculates the
ancestor chain of the new row.  The (codigo, exercicio) uniqueness
constraint of the table is enforced by the API route and the database,
not by this function.  On a raised validation error the transaction is
rolled back, so the error outcome carries no state. -/
def create_rubrica (s : List Rubrica) (data : RubricaCreate) :
    Except CrudErr (List Rubrica × Nat) :=
  let nivel :=
    if isTruthy data.parent_id then
      match data.parent_id with
      | some pid =>
        match findRubrica s pid with
        | some parent => parent.nivel + 1
        | none => 1
      | none => 1
    else 1
  -- `if rubrica.parent_id is None and dotacao_inicial and dotacao_inicial > 0`
  if decide (data.parent_id = none) &&
      (match data.dotacao_inicial with
       | some v => decide (v ≠ 0) && decide (0 < v)
       | none => false) then
    Except.error CrudErr.rootComDotacao
  else if (match data.dotacao_inicial with
      | some v => decide (v < 0)
      | none => false) then
    Except.error CrudErr.dotacaoNegativa
  else
    let inicial : Money :=
      if data.parent_id = none then 0
      else (data.dotacao_inicial).getD 0
    let newId := nextRubricaId s
    let novo : Rubrica :=
      { id := newId
        codigo := data.codigo
        designacao := data.designacao
        parent_id := data.parent_id
        nivel := nivel
        dotacao_inicial := some inicial
        dotacao_calculada :=
          if data.parent_id = none then some 0 else some inicial
        anoFiscal := data.anoFiscal
        status := data.status }
    Except.ok (recalculate_dotacao_chain (s ++ [novo]) newId, newId)

/-- The partial-update payload `RubricaUpdate` of the validation layer;
outer `Option` models field presence (`exclude_unset`), and the inner
`Option` of `dotacao_inicial` models an explicit null value. -/
structure RubricaUpdate where
  designacao : Option String := none
  dotacao_inicial : Option (Option Money) := none
  status : Option StatusRubrica := none
deriving DecidableEq, Repr

/-- `crud.update_rubrica`: returns nothing when the rubrica does not
exist (404 at the API); when the payload carries `dotacao_inicial`,
rejects it on a parentless rubrica and rejects a negative value; applies
the supplied fields; when `dotacao_inicial` was supplied on a child,
also sets `dotacao_calculada` to it directly; finally recalculates the
ancestor chain. -/
def update_rubrica (s : List Rubrica) (rid : Nat) (upd : RubricaUpdate) :
    Except CrudErr (List Rubrica) :=
  match findRubrica s rid with
  | none => Except.error CrudErr.rubricaNaoEncontrada
  | some r =>
    if upd.dotacao_inicial.isSome ∧ r.parent_id = none then
      Except.error CrudErr.rootComDotacao
    else if (match upd.dotacao_inicial with
        | some (some v) => decide (v < 0)
        | _ => false) then
      Except.error CrudErr.dotacaoNegativa
    else
      let r2 : Rubrica :=
        { r with
          designacao := (upd.designacao).getD r.designacao
          dotacao_inicial :=
            match upd.dotacao_inicial with
            | some v => v
            | none => r.dotacao_inicial
          status := (upd.status).getD r.status }
      let r3 : Rubrica :=
        if upd.dotacao_inicial.isSome ∧ r.parent_id ≠ none then
          { r2 with dotacao_calculada := some ((r2.dotacao_inicial).getD 0) }
        else r2
      let s1 := s.map (fun x => if x.id = rid then r3 else x)
      Except.ok (recalculate_dotacao_chain s1 rid)

/-- The soft-delete endpoint (`DELETE /rubricas/{id}`): 404 when absent;
otherwise flips the status to `inativa` and, when the rubrica has a
(truthy) parent, recalculates the former parent's chain. -/
def delete_rubrica (s : List Rubrica) (rid : Nat) :
    Except CrudErr (List Rubrica) :=
  match findRubrica s rid with
  | none => Except.error CrudErr.rubricaNaoEncontrada
  | some r =>
    let s1 := s.map (fun x =>
      if x.id = rid then { x with status := StatusRubrica.inativa } else x)
    if isTruthy r.parent_id then
      match r.parent_id with
      | some p => Except.ok (recalculate_dotacao_chain s1 p)
      | none => Except.ok s1
    else
      Except.ok s1

/-- One item of the batch-creation endpoint (`POST /rubricas/batch`). -/
structure BatchItem where
  codigo : String
  designacao : String
deriving DecidableEq, Repr

/-- `get_rubrica_by_codigo_exercicio` (`crud.py`). -/
def findRubricaByCodigo (s : List Rubrica) (codigo : String) (ano : Int) :
    Option Rubrica :=
  s.find? (fun r => decide (r.codigo = codigo ∧ r.anoFiscal = ano))

/-- The loop body of the batch-creation endpoint: per item, skip (count
an error) if the (codigo, exercicio) pair already exists, otherwise
create the item as an active leaf child of the batch parent with initial
allocation 0; a failing item never aborts the remaining items. -/
def batch_create_rubricas (s : List Rubrica) (parent_id : Nat) (ano : Int)
    (tipo : TipoRubrica) : List BatchItem → List Rubrica
  | [] => s
  | item :: rest =>
    match findRubricaByCodigo s item.codigo ano with
    | some _ => batch_create_rubricas s parent_id ano tipo rest
    | none =>
      let payload : RubricaCreate :=
        { codigo := item.codigo
          designacao := item.designacao
          tipo := tipo
          parent_id := some parent_id
          anoFiscal := ano
          dotacao_inicial := some 0
          status := StatusRubrica.ativa }
      match create_rubrica s payload with
      | Except.ok (s', _) => batch_create_rubricas s' parent_id ano tipo rest
      | Except.error _ => batch_create_rubricas s parent_id ano tipo rest

/-- The rubrica mutations of the claim: create, update, batch-create of
children, soft-delete.  The batch carries the endpoint's parent
existence check (404 before any item is processed). -/
inductive RubricaMutation
  | create (data : RubricaCreate)
  | update (rid : Nat) (upd : RubricaUpdate)
  | batchCreate (parent_id : Nat) (ano : Int) (tipo : TipoRubrica)
      (items : List BatchItem)
  | softDelete (rid : Nat)
deriving DecidableEq, Repr

/-- Apply one mutation; a raised validation / not-found error aborts the
transaction, leaving the state unchanged. -/
def applyRubricaMutation (s : List Rubrica) : RubricaMutation → List Rubrica
  | RubricaMutation.create data =>
    match create_rubrica s data with
    | Except.ok (s', _) => s'
    | Except.error _ => s
  | RubricaMutation.update rid upd =>
    match update_rubrica s rid upd with
    | Except.ok s' => s'
    | Except.error _ => s
  | RubricaMutation.batchCreate pid ano tipo items =>
    match findRubrica s pid with
    | none => s
    | some _ => batch_create_rubricas s pid ano tipo items
  | RubricaMutation.softDelete rid =>
    match delete_rubrica s rid with
    | Except.ok s' => s'
    | Except.error _ => s

/-- The computed-allocation invariant for one rubrica: a node with no
active same-fiscal-year children carries its initial allocation (0.00
when absent); a node with such children carries the exact sum of their
computed allocations. -/
def rubricaInv (s : List Rubrica) (r : Rubrica) : Prop :=
  (r.dotacao_calculada).getD 0 =
    (if (activeChildren s r).isEmpty then (r.dotacao_inicial).getD 0
     else ((activeChildren s r).map (fun x => (x.dotacao_calculada).getD 0)).sum)

instance (s : List Rubrica) (r : Rubrica) : Decidable (rubricaInv s r) := by
  unfold rubricaInv
  exact inferInstance

/-- The invariant for every rubrica of a fiscal year. -/
def yearInvariant (s : List Rubrica) (e : Int) : Prop :=
  ∀ r ∈ s, r.anoFiscal = e → rubricaInv s r

instance (s : List Rubrica) (e : Int) : Decidable (yearInvariant s e) := by
  unfold yearInvariant
  exact List.decidableBAll _ s

/-- Well-formedness of a rubrica table: distinct primary keys, positive
primary keys, and every parent pointer resolving to a row of the same
fiscal year whose level is one less (exactly how `create_rubrica`
maintains levels).  These are the structural facts that make the
source's unbounded recursions terminate. -/
def WFRubricas (s : List Rubrica) : Prop :=
  (s.map (fun r => r.id)).Nodup ∧
  (∀ r ∈ s, 1 ≤ r.id) ∧
  (∀ r ∈ s, ∀ p ∈ (r.parent_id).toList,
    ∃ q ∈ s, q.id = p ∧ r.nivel = q.nivel + 1 ∧ q.anoFiscal = r.anoFiscal)

instance (s : List Rubrica) : Decidable (WFRubricas s) := by
  unfold WFRubricas
  exact inferInstance

/-- Side conditions of a mutation under which the claim is stated: a
supplied parent of a created rubrica resolves to an existing row of the
same fiscal year (the batch endpoint checks existence itself; the plain
creation route receives parent ids picked from the same year's tree). -/
def MutationOK (s : List Rubrica) : RubricaMutation → Prop
  | RubricaMutation.create data =>
    ∀ p ∈ (data.parent_id).toList,
      ∃ q ∈ s, q.id = p ∧ q.anoFiscal = data.anoFiscal
  | RubricaMutation.update _ _ => True
  | RubricaMutation.batchCreate pid ano _ _ =>
    ∃ q ∈ s, q.id = pid ∧ q.anoFiscal = ano
  | RubricaMutation.softDelete _ => True

instance (s : List Rubrica) (m : RubricaMutation) : Decidable (MutationOK s m) := by
  match m with
  | RubricaMutation.create data =>
    unfold MutationOK; exact inferInstance
  | RubricaMutation.update _ _ =>
    unfold MutationOK; exact inferInstance
  | RubricaMutation.batchCreate _ _ _ _ =>
    unfold MutationOK; exact inferInstance
  | RubricaMutation.softDelete _ =>
    unfold MutationOK; exact inferInstance

/-- A calendar date (`datetime.date`). -/
structure Datum where
  ano : Int
  mes : Nat
  dia : Nat
deriving DecidableEq, Repr

/-- Strict calendar order, used for the future-date check
(`data_emissao > date.today()`). -/
def dateLt (a b : Datum) : Bool :=
  decide (a.ano < b.ano) ||
  (decide (a.ano = b.ano) && (decide (a.mes < b.mes) ||
    (decide (a.mes = b.mes) && decide (a.dia < b.dia))))

/-- Python truthiness of a nullable integer fiscal-year value. -/
def isTruthyInt : Option Int → Bool
  | none => false
  | some n => n != 0

/-- Python truthiness of a nullable month value. -/
def isTruthyNat : Option Nat → Bool
  | none => false
  | some n => n != 0

/-- A row of the `despesa` table. -/
structure Despesa where
  id : Nat
  rubrica_id : Option Nat
  fornecedor_id : Option Nat
  fornecedor_text : Option String
  requisicao : Option String
  justificativo : Option String
  ordem_pagamento : Option String
  valor : Money
  data_emissao : Option Datum
  anoFiscal : Int
  mes : Nat
  batch_id : Option Nat
  status : StatusDespesa
deriving DecidableEq, Repr

/-- A row of the `execucao_mensal` table (the surrogate id column is
omitted; rows are identified by their unique (rubrica, month, year)
key). -/
structure ExecucaoMensal where
  rubrica_id : Nat
  mes : Nat
  ano : Int
  dotacao : Money
  gasto : Money
  saldo : Money
deriving DecidableEq, Repr

/-- A row of the `dotacao_global` table. -/
structure DotacaoGlobal where
  id : Nat
  anoFiscal : Int
  valor_anual : Money
  saldo : Money
  reservado : Money
deriving DecidableEq, Repr

/-- A row of the append-only `dotacao_global_mov` ledger (the surrogate
id, free-text description and timestamp columns are omitted). -/
structure DotacaoGlobalMov where
  dotacao_global_id : Nat
  tipo : TipoMov
  referencia : Option String
  valor : Money
  conta_id : Option Nat
deriving DecidableEq, Repr

/-- A row of the `fornecedor` table (fields the embedded operations
read). -/
structure Fornecedor where
  id : Nat
  conta_id : Option Nat
  codigo_interno : Option String
  activo : Bool
deriving DecidableEq, Repr

/-- A row of the `usuario` account table (fields the embedded operations
read). -/
structure Conta where
  id : Nat
  nome : String
  nuit : Option String
deriving DecidableEq, Repr

/-- A row of the `import_batch` table (counter fields only). -/
structure ImportBatch where
  id : Nat
  linhas_processadas : Nat
  criadas : Nat
  atualizadas : Nat
  erros : Nat
deriving DecidableEq, Repr

/-- The database state the embedded operations act on. -/
structure Estado where
  rubricas : List Rubrica
  despesas : List Despesa
  execucoes : List ExecucaoMensal
  dotacoes : List DotacaoGlobal
  movimentos : List DotacaoGlobalMov
  fornecedores : List Fornecedor
  contas : List Conta
  batches : List ImportBatch
deriving DecidableEq, Repr

/-- `session.query(Despesa).filter(Despesa.id == did).first()`. -/
def findDespesa : List Despesa → Nat → Option Despesa
  | [], _ => none
  | d :: rest, did => if d.id = did then some d else findDespesa rest did

/-- `get_fornecedor`. -/
def findFornecedor : List Fornecedor → Nat → Option Fornecedor
  | [], _ => none
  | f :: rest, fid => if f.id = fid then some f else findFornecedor rest fid

/-- Account lookup by primary key. -/
def findConta : List Conta → Nat → Option Conta
  | [], _ => none
  | c :: rest, cid => if c.id = cid then some c else findConta rest cid

/-- `query(DotacaoGlobal).filter(DotacaoGlobal.exercicio == e).first()`. -/
def findDotacao : List DotacaoGlobal → Int → Option DotacaoGlobal
  | [], _ => none
  | d :: rest, ano => if d.anoFiscal = ano then some d else findDotacao rest ano

/-- Lookup of the unique (rubrica, month, year) monthly-execution row. -/
def findExec : List ExecucaoMensal → Nat → Nat → Int → Option ExecucaoMensal
  | [], _, _, _ => none
  | e :: rest, rid, mes, ano =>
    if e.rubrica_id = rid ∧ e.mes = mes ∧ e.ano = ano then some e
    else findExec rest rid mes ano

/-- Replace the unique (rubrica, month, year) monthly-execution row. -/
def replaceExec (l : List ExecucaoMensal) (e' : ExecucaoMensal) :
    List ExecucaoMensal :=
  l.map (fun e =>
    if e.rubrica_id = e'.rubrica_id ∧ e.mes = e'.mes ∧ e.ano = e'.ano then e'
    else e)

/-- `SUM(valor)` over the confirmed expenses of one rubrica, month and
fiscal year (`func.sum` yields NULL over the empty set, read back as
0.00 by `... or Decimal("0.00")`). -/
def gastoConfirmado (ds : List Despesa) (rid : Nat) (mes : Nat) (ano : Int) :
    Money :=
  ((ds.filter (fun d => decide (d.rubrica_id = some rid ∧ d.mes = mes ∧
      d.anoFiscal = ano ∧ d.status = StatusDespesa.confirmada))).map
    (fun d => d.valor)).sum

/-- Autoincrement primary key for a new `despesa` row. -/
def nextDespesaId (s : List Despesa) : Nat :=
  (s.map (fun d => d.id)).foldl max 0 + 1

/-- Autoincrement primary key for a new `dotacao_global` row. -/
def nextDotacaoId (s : List DotacaoGlobal) : Nat :=
  (s.map (fun d => d.id)).foldl max 0 + 1

/-- `get_children` (`rubrica_service.py`): all direct children,
independent of fiscal year and status. -/
def get_children (s : List Rubrica) (rid : Nat) : List Rubrica :=
  s.filter (fun r => decide (r.parent_id = some rid))

/-- The creation payload `DespesaCreate` of the validation layer.  The
importer also passes `status` and `batch_id` keyword arguments when
building this payload, but the schema has neither field and silently
drops both (extra fields are ignored), so they do not appear here. -/
structure DespesaCreate where
  rubrica_id : Option Nat
  fornecedor_id : Option Nat := none
  fornecedor_text : Option String := none
  requisicao : Option String := none
  justificativo : Option String := none
  ordem_pagamento : Option String := none
  valor : Money
  data_emissao : Option Datum := none
  anoFiscal : Option Int := none
  mes : Option Nat := none
deriving DecidableEq, Repr

/-- `crud.create_despesa`: validates a positive amount, a present,
existing, active and leaf rubrica, an existing active supplier when one
is referenced, derives month/fiscal year from the issue date when those
are absent (Python-falsy), rejects future issue dates and issue dates
whose year differs from the fiscal year, and inserts the row with
status forced to `pendente` (the schema dropped any client-supplied
`batch_id`, so the stored row has none).  A missing month or fiscal
year after derivation violates a NOT NULL column at commit time,
modelled by `colunaNula`. -/
def create_despesa (st : Estado) (payload : DespesaCreate) (hoje : Datum) :
    Except CrudErr (Estado × Despesa) :=
  if decide (payload.valor ≤ 0) then Except.error CrudErr.valorNaoPositivo
  else if ¬ isTruthy payload.rubrica_id then
    Except.error CrudErr.rubricaObrigatoria
  else
    match findRubrica st.rubricas ((payload.rubrica_id).getD 0) with
    | none => Except.error CrudErr.rubricaNaoEncontrada
    | some r =>
      if r.status ≠ StatusRubrica.ativa then
        Except.error CrudErr.rubricaNaoAtiva
      else if ¬ is_leaf_rubrica st.rubricas ((payload.rubrica_id).getD 0) then
        Except.error CrudErr.rubricaNaoFolha
      else
        let fornCheck : Except CrudErr Unit :=
          if isTruthy payload.fornecedor_id then
            match findFornecedor st.fornecedores ((payload.fornecedor_id).getD 0) with
            | none => Except.error CrudErr.fornecedorNaoEncontrado
            | some f =>
              if f.activo then Except.ok () else Except.error CrudErr.fornecedorInativo
          else Except.ok ()
        match fornCheck with
        | Except.error e => Except.error e
        | Except.ok _ =>
          let mes1 : Option Nat :=
            match payload.data_emissao with
            | some d => if isTruthyNat payload.mes then payload.mes else some d.mes
            | none => payload.mes
          let ano1 : Option Int :=
            match payload.data_emissao with
            | some d => if isTruthyInt payload.anoFiscal then payload.anoFiscal else some d.ano
            | none => payload.anoFiscal
          if (match payload.data_emissao with
              | some d => dateLt hoje d
              | none => false) then
            Except.error CrudErr.dataFutura
          else if (match payload.data_emissao, ano1 with
              | some d, some a => isTruthyInt (some a) && decide (d.ano ≠ a)
              | _, _ => false) then
            Except.error CrudErr.dataForaDoAno
          else
            match mes1, ano1 with
            | some m, some a =>
              let novo : Despesa :=
                { id := nextDespesaId st.despesas
                  rubrica_id := payload.rubrica_id
                  fornecedor_id := payload.fornecedor_id
                  fornecedor_text := payload.fornecedor_text
                  requisicao := payload.requisicao
                  justificativo := payload.justificativo
                  ordem_pagamento := payload.ordem_pagamento
                  valor := payload.valor
                  data_emissao := payload.data_emissao
                  anoFiscal := a
                  mes := m
                  batch_id := none
                  status := StatusDespesa.pendente }
              Except.ok ({ st with despesas := st.despesas ++ [novo] }, novo)
            | _, _ => Except.error CrudErr.colunaNula

/-- The partial-update payload `DespesaUpdate`: the outer `Option`
models field presence (`exclude_unset`); an inner `Option` models an
explicit null where the source distinguishes one.  (An explicitly null
`valor` makes the source raise a `TypeError` when comparing it with 0;
that degenerate payload is not modelled.) -/
structure DespesaUpdate where
  rubrica_id : Option (Option Nat) := none
  fornecedor_id : Option (Option Nat) := none
  fornecedor_text : Option (Option String) := none
  requisicao : Option (Option String) := none
  justificativo : Option (Option String) := none
  ordem_pagamento : Option (Option String) := none
  valor : Option Money := none
  data_emissao : Option (Option Datum) := none
  anoFiscal : Option Int := none
  mes : Option Nat := none
deriving DecidableEq, Repr

/-- `crud.update_despesa`: returns not-found when the expense does not
exist; rejects ANY edit once the status is `confirmada` — the `is_admin`
argument is accepted but never consulted; re-validates amount, rubrica,
supplier and date/year consistency on the supplied fields; applies the
supplied fields and the derived month/fiscal year. -/
def update_despesa (st : Estado) (did : Nat) (upd : DespesaUpdate)
    (is_admin : Bool) (hoje : Datum) : Except CrudErr Estado :=
  match findDespesa st.despesas did with
  | none => Except.error CrudErr.despesaNaoEncontrada
  | some d =>
    if d.status = StatusDespesa.confirmada then
      Except.error CrudErr.despesaConfirmadaBloqueada
    else
      let _ := is_admin  -- received from the route, never used by the source
      if (match upd.valor with
          | some v => decide (v ≤ 0)
          | none => false) then
        Except.error CrudErr.valorNaoPositivo
      else
        let rubCheck : Except CrudErr Unit :=
          match upd.rubrica_id with
          | none => Except.ok ()
          | some rv =>
            match rv.bind (findRubrica st.rubricas) with
            | none => Except.error CrudErr.rubricaNaoEncontrada
            | some r =>
              if r.status ≠ StatusRubrica.ativa then
                Except.error CrudErr.rubricaNaoAtiva
              else if ¬ is_leaf_rubrica st.rubricas (rv.getD 0) then
                Except.error CrudErr.rubricaNaoFolha
              else Except.ok ()
        match rubCheck with
        | Except.error e => Except.error e
        | Except.ok _ =>
          let fornCheck : Except CrudErr Unit :=
            match upd.fornecedor_id with
            | some (some fid) =>
              if fid ≠ 0 then
                match findFornecedor st.fornecedores fid with
                | none => Except.error CrudErr.fornecedorNaoEncontrado
                | some f =>
                  if f.activo then Except.ok ()
                  else Except.error CrudErr.fornecedorInativo
              else Except.ok ()
            | _ => Except.ok ()
          match fornCheck with
          | Except.error e => Except.error e
          | Except.ok _ =>
            let anoAtual : Int := (upd.anoFiscal).getD d.anoFiscal
            match upd.data_emissao with
            | some (some dt) =>
              if dateLt hoje dt then Except.error CrudErr.dataFutura
              else
                let mesEff : Option Nat :=
                  match upd.mes with
                  | some m => some m
                  | none => some dt.mes
                let anoEff : Int :=
                  match upd.anoFiscal with
                  | some a => a
                  | none => dt.ano
                if decide (dt.ano ≠ anoEff) then
                  Except.error CrudErr.dataForaDoAno
                else
                  let d' : Despesa :=
                    { d with
                      rubrica_id := (upd.rubrica_id).getD d.rubrica_id
                      fornecedor_id := (upd.fornecedor_id).getD d.fornecedor_id
                      fornecedor_text := (upd.fornecedor_text).getD d.fornecedor_text
                      requisicao := (upd.requisicao).getD d.requisicao
                      justificativo := (upd.justificativo).getD d.justificativo
                      ordem_pagamento := (upd.ordem_pagamento).getD d.ordem_pagamento
                      valor := (upd.valor).getD d.valor
                      data_emissao := some dt
                      anoFiscal := anoEff
                      mes := (mesEff).getD d.mes }
                  let ds' := st.despesas.map (fun x => if x.id = did then d' else x)
                  Except.ok { st with despesas := ds' }
            | _ =>
              let _ := anoAtual
              let d' : Despesa :=
                { d with
                  rubrica_id := (upd.rubrica_id).getD d.rubrica_id
                  fornecedor_id := (upd.fornecedor_id).getD d.fornecedor_id
                  fornecedor_text := (upd.fornecedor_text).getD d.fornecedor_text
                  requisicao := (upd.requisicao).getD d.requisicao
                  justificativo := (upd.justificativo).getD d.justificativo
                  ordem_pagamento := (upd.ordem_pagamento).getD d.ordem_pagamento
                  valor := (upd.valor).getD d.valor
                  data_emissao :=
                    match upd.data_emissao with
                    | some v => v
                    | none => d.data_emissao
                  anoFiscal := (upd.anoFiscal).getD d.anoFiscal
                  mes := (upd.mes).getD d.mes }
              let ds' := st.despesas.map (fun x => if x.id = did then d' else x)
              Except.ok { st with despesas := ds' }

/-- `crud.delete_despesa`: not-found when absent; rejects deletion of a
confirmed expense for every caller (no role is even received); otherwise
physically removes the row. -/
def delete_despesa (st : Estado) (did : Nat) : Except CrudErr Estado :=
  match findDespesa st.despesas did with
  | none => Except.error CrudErr.despesaNaoEncontrada
  | some d =>
    if d.status = StatusDespesa.confirmada then
      Except.error CrudErr.remocaoConfirmadaBloqueada
    else
      Except.ok { st with despesas := st.despesas.filter (fun x => x.id ≠ did) }

/-- `despesa_service.update_execucao_mensal`: recomputes the confirmed
spend of (rubrica, month, year); creates the row — with `dotacao` set to
the rubrica's full `dotacao_calculada`, NOT divided by 12 — when absent,
and otherwise updates only `gasto` and `saldo`, keeping the stored
`dotacao`. -/
def update_execucao_mensal (st : Estado) (rid : Nat) (mes : Nat) (ano : Int) :
    Except CrudErr (Estado × ExecucaoMensal) :=
  match findRubrica st.rubricas rid with
  | none => Except.error CrudErr.rubricaNaoEncontrada
  | some r =>
    let g := gastoConfirmado st.despesas rid mes ano
    let dv := (r.dotacao_calculada).getD 0
    match findExec st.execucoes rid mes ano with
    | none =>
      let e : ExecucaoMensal :=
        { rubrica_id := rid, mes := mes, ano := ano
          dotacao := dv, gasto := g, saldo := dv - g }
      Except.ok ({ st with execucoes := st.execucoes ++ [e] }, e)
    | some e =>
      let e' : ExecucaoMensal := { e with gasto := g, saldo := e.dotacao - g }
      Except.ok ({ st with execucoes := replaceExec st.execucoes e' }, e')

/-- One step of `update_ancestors_execucao_mensal`: for one ancestor,
sum the `gasto` already recorded on its direct children's rows for the
month (the source also sums their `dotacao` into a variable it never
uses), add the expenses confirmed directly against the ancestor, and
create (with the ancestor's own computed allocation as `dotacao`) or
update (only `gasto`/`saldo`) its row. -/
def updateAncestorExec (st : Estado) (a : Rubrica) (mes : Nat) (ano : Int) :
    Estado :=
  let children := get_children st.rubricas a.id
  let g0 : Money :=
    (children.map (fun c =>
      match findExec st.execucoes c.id mes ano with
      | some ce => ce.gasto
      | none => 0)).sum
  let g := g0 + gastoConfirmado st.despesas a.id mes ano
  match findExec st.execucoes a.id mes ano with
  | none =>
    let dv := (a.dotacao_calculada).getD 0
    { st with execucoes := st.execucoes ++
        [{ rubrica_id := a.id, mes := mes, ano := ano
           dotacao := dv, gasto := g, saldo := dv - g }] }
  | some e =>
    { st with execucoes :=
        replaceExec st.execucoes { e with gasto := g, saldo := e.dotacao - g } }

/-- `despesa_service.update_ancestors_execucao_mensal`: walk the
inclusive ancestor chain (deepest first, as returned by the ancestor
walk) updating each ancestor's monthly-execution row. -/
def update_ancestors_execucao_mensal (st : Estado) (rid : Nat) (mes : Nat)
    (ano : Int) : Estado :=
  (get_ancestors st.rubricas rid).foldl
    (fun st' a => updateAncestorExec st' a mes ano) st

/-- `despesa_service.confirm_despesa_with_execucao` (the simple
confirmation path behind `POST /despesas/{id}/confirmar`): not-found
when absent; a no-op returning the record when already `confirmada`;
rejects only a missing rubrica reference; otherwise sets the status to
`confirmada` and updates the rubrica's and every ancestor's
monthly-execution row.  An error raised after the status flip aborts
the request before its commit, so the error outcome carries no state. -/
def confirm_despesa_with_execucao (st : Estado) (did : Nat) :
    Except CrudErr (Estado × Despesa) :=
  match findDespesa st.despesas did with
  | none => Except.error CrudErr.despesaNaoEncontrada
  | some d =>
    if d.status = StatusDespesa.confirmada then Except.ok (st, d)
    else if ¬ isTruthy d.rubrica_id then Except.error CrudErr.semRubrica
    else
      let rid := (d.rubrica_id).getD 0
      let d' : Despesa := { d with status := StatusDespesa.confirmada }
      let ds' := st.despesas.map (fun x => if x.id = did then d' else x)
      let st1 : Estado := { st with despesas := ds' }
      match update_execucao_mensal st1 rid d.mes d.anoFiscal with
      | Except.error e => Except.error e
      | Except.ok (st2, _) =>
        Except.ok (update_ancestors_execucao_mensal st2 rid d.mes d.anoFiscal, d')

/-- `crud.recalculate_execucao_mensal`: first recalculates the rubrica's
allocation chain; then, when no row exists, creates one only if the
confirmed spend is positive, with `dotacao` = the freshly computed
allocation divided by 12; when a row exists, updates only `gasto` and
`saldo`, never re-deriving the stored `dotacao`. -/
def recalculate_execucao_mensal (st : Estado) (rid : Nat) (mes : Nat)
    (ano : Int) : Except CrudErr (Estado × Option ExecucaoMensal) :=
  match findRubrica st.rubricas rid with
  | none => Except.error CrudErr.rubricaNaoEncontrada
  | some _ =>
    let st1 : Estado :=
      { st with rubricas := recalculate_dotacao_chain st.rubricas rid }
    match findRubrica st1.rubricas rid with
    | none => Except.error CrudErr.rubricaNaoEncontrada
    | some r1 =>
      let g := gastoConfirmado st1.despesas rid mes ano
      match findExec st1.execucoes rid mes ano with
      | none =>
        if decide (0 < g) then
          let dm : Money := ((r1.dotacao_calculada).getD 0) / 12
          let e : ExecucaoMensal :=
            { rubrica_id := rid, mes := mes, ano := ano
              dotacao := dm, gasto := g, saldo := dm - g }
          Except.ok ({ st1 with execucoes := st1.execucoes ++ [e] }, some e)
        else
          Except.ok (st1, none)
      | some e =>
        let e' : ExecucaoMensal := { e with gasto := g, saldo := e.dotacao - g }
        Except.ok ({ st1 with execucoes := replaceExec st1.execucoes e' }, some e')

/-- API-level error kinds, classified by the HTTP status code the route
raises (`HTTPException(status_code=...)`); the Portuguese `detail`
message text is not carried. -/
inductive ApiErr
  | notFound     -- 404
  | invalidInput -- 400
  | forbidden    -- 403
  | internal     -- an unanticipated exception (500)
deriving DecidableEq, Repr

/-- HTTP status code of an API error. -/
def statusCode : ApiErr → Nat
  | ApiErr.notFound => 404
  | ApiErr.invalidInput => 400
  | ApiErr.forbidden => 403
  | ApiErr.internal => 500

/-- `POST /dotacao_global` (`create_or_update_dotacao_global`): when a
row exists for the year, add the delta between new and old annual value
to the stored `saldo` and record an `ajuste` movement (only when the
delta is nonzero); otherwise create the row with `saldo` initialized to
the annual value and `reservado` to 0, and record an initial `ajuste`
movement for the full value. -/
def create_or_update_dotacao_global (st : Estado) (ano : Int) (valor : Money)
    (uid : Option Nat) : Estado :=
  match findDotacao st.dotacoes ano with
  | some dot =>
    let delta := valor - dot.valor_anual
    let dot' : DotacaoGlobal :=
      { dot with valor_anual := valor, saldo := dot.saldo + delta }
    let dots' := st.dotacoes.map (fun x => if x.id = dot.id then dot' else x)
    let movs' :=
      if delta ≠ 0 then
        st.movimentos ++
          [{ dotacao_global_id := dot.id, tipo := TipoMov.ajuste
             referencia := none, valor := delta, conta_id := uid }]
      else st.movimentos
    { st with dotacoes := dots', movimentos := movs' }
  | none =>
    let newId := nextDotacaoId st.dotacoes
    let dot' : DotacaoGlobal :=
      { id := newId, anoFiscal := ano, valor_anual := valor
        saldo := valor, reservado := 0 }
    { st with
      dotacoes := st.dotacoes ++ [dot']
      movimentos := st.movimentos ++
        [{ dotacao_global_id := newId, tipo := TipoMov.ajuste
           referencia := none, valor := valor, conta_id := uid }] }

/-- `POST /dotacao_global/reserva` (`criar_reserva`): under the row
lock, reject (400) a requested amount above the available balance
`saldo − reservado`; otherwise increase `reservado` by the amount and
record a `reserva` movement with negative signed amount.  The stored
`saldo` is never written.  An error rolls the transaction back, so the
error outcome is paired with the unchanged state. -/
def criar_reserva (st : Estado) (ano : Int) (valor : Money)
    (referencia : Option String) (uid : Option Nat) :
    Estado × Except ApiErr Unit :=
  match findDotacao st.dotacoes ano with
  | none => (st, Except.error ApiErr.notFound)
  | some dot =>
    let disponivel := dot.saldo - dot.reservado
    if decide (disponivel < valor) then (st, Except.error ApiErr.invalidInput)
    else
      let dot' : DotacaoGlobal := { dot with reservado := dot.reservado + valor }
      let dots' := st.dotacoes.map (fun x => if x.id = dot.id then dot' else x)
      ({ st with
          dotacoes := dots'
          movimentos := st.movimentos ++
            [{ dotacao_global_id := dot.id, tipo := TipoMov.reserva
               referencia := referencia, valor := -valor, conta_id := uid }] },
        Except.ok ())

/-- `POST /dotacao_global/reserva/cancel` (`cancelar_reserva`): under
the row lock, reject (400) a cancelled amount above the currently
reserved amount; otherwise decrease `reservado` and record a
`reserva_cancelada` movement with positive signed amount, optionally
tagged with the original reservation's movement id.  The stored `saldo`
is never written. -/
def cancelar_reserva (st : Estado) (ano : Int) (valor : Money)
    (reserva_id : Option Nat) (uid : Option Nat) :
    Estado × Except ApiErr Unit :=
  match findDotacao st.dotacoes ano with
  | none => (st, Except.error ApiErr.notFound)
  | some dot =>
    if decide (dot.reservado < valor) then (st, Except.error ApiErr.invalidInput)
    else
      let dot' : DotacaoGlobal := { dot with reservado := dot.reservado - valor }
      let dots' := st.dotacoes.map (fun x => if x.id = dot.id then dot' else x)
      ({ st with
          dotacoes := dots'
          movimentos := st.movimentos ++
            [{ dotacao_global_id := dot.id, tipo := TipoMov.reservaCancelada
               referencia := reserva_id.map toString, valor := valor
               conta_id := uid }] },
        Except.ok ())

/-- Result of the allocation-aware confirmation route. -/
structure ConfirmOutcome where
  jaConfirmada : Bool
  valor : Money
  saldo_restante : Money
deriving DecidableEq, Repr

/-- `POST /despesas/{id}/confirm` (`confirm_despesa_with_dotacao`),
executed inside one transaction with the allocation row locked: 404
when the expense is absent; a pure read returning the remaining balance
when already confirmed; 400 for a cancelled expense; 404 when no
allocation row exists for the fiscal year; 400 when `override` is false
and the amount exceeds `saldo − reservado`; 403 when `override` is true
and the caller lacks the admin role (`is_admin` models the
UsuarioPapel/Papel role-join query); otherwise deducts the amount from
the stored `saldo`, appends a `despesa_confirmada` movement of negative
signed amount referencing the expense id, flips the status, and — when
the expense carries a rubrica — recalculates its monthly execution and
its allocation chain.  Any error aborts the transaction (rollback), so
every error outcome is paired with the unchanged state. -/
def confirm_despesa_with_dotacao (st : Estado) (did : Nat) (override : Bool)
    (is_admin : Bool) (uid : Option Nat) :
    Estado × Except ApiErr ConfirmOutcome :=
  match findDespesa st.despesas did with
  | none => (st, Except.error ApiErr.notFound)
  | some d =>
    if d.status = StatusDespesa.confirmada then
      let saldoR : Money :=
        match findDotacao st.dotacoes d.anoFiscal with
        | some dot => dot.saldo - dot.reservado
        | none => 0
      (st, Except.ok { jaConfirmada := true, valor := d.valor
                       saldo_restante := saldoR })
    else if d.status = StatusDespesa.cancelada then
      (st, Except.error ApiErr.invalidInput)
    else
      match findDotacao st.dotacoes d.anoFiscal with
      | none => (st, Except.error ApiErr.notFound)
      | some dot =>
        let disponivel := dot.saldo - dot.reservado
        if ¬ override ∧ decide (disponivel < d.valor) then
          (st, Except.error ApiErr.invalidInput)
        else if override ∧ ¬ is_admin then
          (st, Except.error ApiErr.forbidden)
        else
          let dot' : DotacaoGlobal := { dot with saldo := dot.saldo - d.valor }
          let dots' := st.dotacoes.map (fun x => if x.id = dot.id then dot' else x)
          let movs' := st.movimentos ++
            [{ dotacao_global_id := dot.id, tipo := TipoMov.despesaConfirmada
               referencia := some (toString did), valor := -d.valor
               conta_id := uid }]
          let d' : Despesa := { d with status := StatusDespesa.confirmada }
          let ds' := st.despesas.map (fun x => if x.id = did then d' else x)
          let st1 : Estado :=
            { st with dotacoes := dots', movimentos := movs', despesas := ds' }
          if isTruthy d.rubrica_id then
            let rid := (d.rubrica_id).getD 0
            match recalculate_execucao_mensal st1 rid d.mes d.anoFiscal with
            | Except.error _ => (st, Except.error ApiErr.internal)
            | Except.ok (st2, _) =>
              let st3 : Estado :=
                { st2 with rubricas := recalculate_dotacao_chain st2.rubricas rid }
              let saldoR : Money :=
                match findDotacao st3.dotacoes d.anoFiscal with
                | some dd => dd.saldo - dd.reservado
                | none => 0
              (st3, Except.ok { jaConfirmada := false, valor := d.valor
                                saldo_restante := saldoR })
          else
            let saldoR : Money :=
              match findDotacao st1.dotacoes d.anoFiscal with
              | some dd => dd.saldo - dd.reservado
              | none => 0
            (st1, Except.ok { jaConfirmada := false, valor := d.valor
                              saldo_restante := saldoR })

/-- Strip-diacritics step of `normalize_name` (the source uses Unicode
NFD decomposition and drops combining marks; this table covers the
Latin letters that decomposition affects in the data this system
handles). -/
def deaccent (c : Char) : Char :=
  match c with
  | 'á' | 'à' | 'â' | 'ã' | 'ä' => 'a'
  | 'Á' | 'À' | 'Â' | 'Ã' | 'Ä' => 'A'
  | 'é' | 'è' | 'ê' | 'ë' => 'e'
  | 'É' | 'È' | 'Ê' | 'Ë' => 'E'
  | 'í' | 'ì' | 'î' | 'ï' => 'i'
  | 'Í' | 'Ì' | 'Î' | 'Ï' => 'I'
  | 'ó' | 'ò' | 'ô' | 'õ' | 'ö' => 'o'
  | 'Ó' | 'Ò' | 'Ô' | 'Õ' | 'Ö' => 'O'
  | 'ú' | 'ù' | 'û' | 'ü' => 'u'
  | 'Ú' | 'Ù' | 'Û' | 'Ü' => 'U'
  | 'ç' => 'c'
  | 'Ç' => 'C'
  | 'ñ' => 'n'
  | 'Ñ' => 'N'
  | _ => c

/-- Strip leading and trailing whitespace from a character list. -/
def trimChars (l : List Char) : List Char :=
  ((l.dropWhile Char.isWhitespace).reverse.dropWhile Char.isWhitespace).reverse

/-- Python `str.strip()`. -/
def strip (s : String) : String :=
  String.mk (trimChars s.toList)

/-- Collapse internal whitespace runs to single spaces
(`re.sub(r"\s+", " ", name)`). -/
def collapseWs : List Char → List Char
  | [] => []
  | c :: cs =>
    if c.isWhitespace then
      match collapseWs cs with
      | [] => [' ']
      | d :: ds => if d = ' ' then d :: ds else ' ' :: d :: ds
    else c :: collapseWs cs

/-- `normalize_name` (`importer.py`): strip diacritics, upper-case,
trim, collapse internal whitespace runs. -/
def normalize_name (s : String) : String :=
  String.mk (collapseWs (trimChars ((s.toList.map deaccent).map Char.toUpper)))

/-- `normalize_code` (`importer.py`): trim + uppercase. -/
def normalize_code (s : String) : String :=
  String.mk ((strip s).toList.map Char.toUpper)

/-- Digits of a numeral read as a natural number. -/
def digitsToNat (l : List Char) : Nat :=
  l.foldl (fun a c => a * 10 + (c.toNat - ('0').toNat)) 0

/-- Every character a decimal digit. -/
def allDigits (l : List Char) : Bool :=
  l.all (fun c => c.isDigit)

/-- Split at the first occurrence of a character, reporting whether one
was found. -/
def splitAtChar (sep : Char) : List Char → List Char × Option (List Char)
  | [] => ([], none)
  | x :: xs =>
    if x = sep then ([], some xs)
    else
      let r := splitAtChar sep xs
      (x :: r.1, r.2)

/-- Unsigned digit string with at most one decimal point, read exactly
(models the coefficient part of the numeric-string grammar accepted by
`decimal.Decimal`). -/
def parseUnsignedDec (l : List Char) : Option Money :=
  let r := splitAtChar '.' l
  match r.2 with
  | none =>
    if l ≠ [] ∧ allDigits l then some ((digitsToNat l : Nat) : Money) else none
  | some fp =>
    if allDigits r.1 ∧ allDigits fp ∧ (r.1 ≠ [] ∨ fp ≠ []) ∧
        ¬ fp.contains '.' then
      some (((digitsToNat r.1 : Nat) : Money) +
        ((digitsToNat fp : Nat) : Money) / ((10 : Money) ^ fp.length))
    else none

/-- Optional-sign wrapper for the coefficient. -/
def parseSignedDec : List Char → Option Money
  | '+' :: r => parseUnsignedDec r
  | '-' :: r => (parseUnsignedDec r).map (fun v => -v)
  | l => parseUnsignedDec l

/-- Signed exponent digits. -/
def parseExpPart : List Char → Option Int
  | '+' :: r => if r ≠ [] ∧ allDigits r then some ((digitsToNat r : Nat) : Int) else none
  | '-' :: r => if r ≠ [] ∧ allDigits r then some (-((digitsToNat r : Nat) : Int)) else none
  | l => if l ≠ [] ∧ allDigits l then some ((digitsToNat l : Nat) : Int) else none

/-- Split at the first exponent marker. -/
def splitAtExp : List Char → List Char × Option (List Char)
  | [] => ([], none)
  | x :: xs =>
    if x = 'e' ∨ x = 'E' then ([], some xs)
    else
      let r := splitAtExp xs
      (x :: r.1, r.2)

/-- Model of `decimal.Decimal(str)` on finite numeric strings: optional
sign, digits with at most one point, optional exponent; every other
input raises `InvalidOperation` in the source (here: none). -/
def decimalOfChars (l : List Char) : Option Money :=
  let r := splitAtExp l
  match r.2 with
  | none => parseSignedDec r.1
  | some ep =>
    match parseSignedDec r.1, parseExpPart ep with
    | some v, some ex => some (v * (10 : Money) ^ ex)
    | _, _ => none

/-- `str.rfind`: index of the last occurrence, −1 when absent. -/
def lastIdx (c : Char) (l : List Char) : Int :=
  (l.foldl (fun (acc : Int × Int) x =>
    (if x = c then acc.2 else acc.1, acc.2 + 1)) (-1, 0)).1

/-- `parse_currency` (`importer.py`): strips currency symbols and
spaces; when both `.` and `,` are present the rightmost one is the
decimal separator and the other a thousands separator; a lone comma is
the decimal separator; unparsable input yields none instead of
raising. -/
def parse_currency (s : String) : Option Money :=
  let t := ((strip s).toList).filter (fun c =>
    decide (c ≠ '€') && decide (c ≠ '$') && decide (c ≠ ' '))
  if t.isEmpty then none
  else
    let t2 :=
      if t.contains '.' && t.contains ',' then
        if lastIdx ',' t < lastIdx '.' t then
          -- EN format 1,234,567.89: drop the commas
          t.filter (fun c => decide (c ≠ ','))
        else
          -- PT format 1.234.567,89: drop the points, comma becomes point
          (t.filter (fun c => decide (c ≠ '.'))).map
            (fun c => if c = ',' then '.' else c)
      else if t.contains ',' then
        (t.filter (fun c => decide (c ≠ '.'))).map
          (fun c => if c = ',' then '.' else c)
      else t
    decimalOfChars t2

/-- Split a character list at every occurrence of a separator. -/
def splitOn (sep : Char) : List Char → List (List Char)
  | [] => [[]]
  | c :: cs =>
    let r := splitOn sep cs
    if c = sep then [] :: r
    else
      match r with
      | [] => [[c]]
      | h :: t => (c :: h) :: t

/-- Gregorian leap-year rule. -/
def isLeap (ano : Int) : Bool :=
  decide (ano % 4 = 0) && (decide (ano % 100 ≠ 0) || decide (ano % 400 = 0))

/-- Day count of a month, as the `datetime` library validates it. -/
def daysInMonth (ano : Int) (mes : Nat) : Nat :=
  if mes = 2 then (if isLeap ano then 29 else 28)
  else if mes = 4 ∨ mes = 6 ∨ mes = 9 ∨ mes = 11 then 30
  else 31

/-- Build a validated calendar date. -/
def mkDatum (ano : Int) (mes dia : Nat) : Option Datum :=
  if 1 ≤ mes ∧ mes ≤ 12 ∧ 1 ≤ dia ∧ dia ≤ daysInMonth ano mes then
    some { ano := ano, mes := mes, dia := dia }
  else none

/-- One `strptime` pattern attempt: three fields around a separator,
year of exactly four digits, day/month of one or two digits, calendar
validated. -/
def tryFormat (l : List Char) (sep : Char) (ymd : Bool) : Option Datum :=
  match splitOn sep l with
  | [a, b, c] =>
    let y := if ymd then a else c
    let d := if ymd then c else a
    if y.length = 4 ∧ allDigits y ∧
        1 ≤ b.length ∧ b.length ≤ 2 ∧ allDigits b ∧
        1 ≤ d.length ∧ d.length ≤ 2 ∧ allDigits d then
      mkDatum ((digitsToNat y : Nat) : Int) (digitsToNat b) (digitsToNat d)
    else none
  | _ => none

/-- `parse_date` (`importer.py`): tries, in order, `YYYY-MM-DD`,
`DD/MM/YYYY`, `DD-MM-YYYY`, `YYYY/MM/DD`, `DD.MM.YYYY`, `YYYY.MM.DD`;
the final general-purpose `pandas` inferencer fallback of the source is
modelled as recognising nothing further. -/
def parse_date (s : String) : Option Datum :=
  let l := (strip s).toList
  (tryFormat l '-' true) <|> (tryFormat l '/' false) <|>
    (tryFormat l '-' false) <|> (tryFormat l '/' true) <|>
    (tryFormat l '.' false) <|> (tryFormat l '.' true)

/-- One entry of the supplier matcher's in-memory cache
(`FornecedorMatcher._load_fornecedores`). -/
structure FornCacheEntry where
  id : Nat
  nuit : Option String
  codigo_interno : Option String
  nome_normalizado : String
  nome_original : String
deriving DecidableEq, Repr

/-- Build the matcher cache from the active suppliers and their linked
accounts.  (The source dereferences the linked account unconditionally
and would raise on an account-less supplier; such rows are outside this
model.)  The source loads the cache once per import and the import
never inserts suppliers, so rebuilding it per row is equivalent. -/
def loadFornecedorCache (st : Estado) : List FornCacheEntry :=
  (st.fornecedores.filter (fun f => f.activo)).filterMap (fun f =>
    match f.conta_id with
    | none => none
    | some cid =>
      match findConta st.contas cid with
      | none => none
      | some u =>
        some { id := f.id
               nuit :=
                 match u.nuit with
                 | some n => if n = "" then none else some (normalize_code n)
                 | none => none
               codigo_interno :=
                 match f.codigo_interno with
                 | some n => if n = "" then none else some (normalize_code n)
                 | none => none
               nome_normalizado := if u.nome = "" then "" else normalize_name u.nome
               nome_original := u.nome })

/-- Descending-score stable insertion for the fuzzy-match candidates. -/
def insertDescScore (x : String × Money) : List (String × Money) →
    List (String × Money)
  | [] => [x]
  | y :: ys => if y.2 < x.2 then x :: y :: ys else y :: insertDescScore x ys

/-- Sort candidates by descending similarity score. -/
def sortDescScore : List (String × Money) → List (String × Money)
  | [] => []
  | x :: xs => insertDescScore x (sortDescScore xs)

/-- `rapidfuzz.process.extract(query, names, limit, scorer)`: score all
candidates, keep the best `limit` in descending order.  The similarity
scorer itself (`fuzz.ratio`, 0–100) is an external capability and enters
as a function argument. -/
def extractTop (scorer : String → String → Money) (q : String)
    (names : List String) (limit : Nat) : List (String × Money) :=
  (sortDescScore (names.map (fun n => (n, scorer q n)))).take limit

/-- `FornecedorMatcher.match`: priority nuit → internal code → exact
normalized name → fuzzy (first candidate scoring at least 90 of the top
5); returns the matched supplier id or none.  The suggestions object the
source additionally returns is display-only and not modelled. -/
def fornecedorMatch (cache : List FornCacheEntry)
    (scorer : String → String → Money) (nome : String)
    (nuit codigo : Option String) : Option Nat :=
  let nome_norm := normalize_name nome
  let nuit_norm : Option String :=
    match nuit with
    | some n => if n = "" then none else some (normalize_code n)
    | none => none
  let codigo_norm : Option String :=
    match codigo with
    | some n => if n = "" then none else some (normalize_code n)
    | none => none
  let hitNuit : Option FornCacheEntry :=
    match nuit_norm with
    | some nn => cache.find? (fun f => decide (f.nuit = some nn))
    | none => none
  let hitCodigo : Option FornCacheEntry :=
    match codigo_norm with
    | some cn => cache.find? (fun f => decide (f.codigo_interno = some cn))
    | none => none
  let hitNome : Option FornCacheEntry :=
    cache.find? (fun f => decide (f.nome_normalizado = nome_norm))
  match hitNuit with
  | some f => some f.id
  | none =>
    match hitCodigo with
    | some f => some f.id
    | none =>
      match hitNome with
      | some f => some f.id
      | none =>
        if nome_norm ≠ "" then
          let names := ((cache.filter (fun f =>
            decide (f.nome_normalizado ≠ ""))).map (fun f => f.nome_normalizado))
          let top := extractTop scorer nome_norm names 5
          match top.find? (fun p => decide ((90 : Money) ≤ p.2)) with
          | some p =>
            ((cache.find? (fun f => decide (f.nome_normalizado = p.1))).map
              (fun f => f.id))
          | none => none
        else none

/-- `RubricaMatcher.match`: exact (code, fiscal-year) lookup of the
normalized code; when absent, creates a provisional level-1 rubrica of
type `despesa` with zero allocation for the configured year (the
`dotacao` keyword the matcher passes is silently ignored by the
creation schema) and reports that a new record was created. -/
def rubricaMatch (st : Estado) (ano : Int) (codigo : String) :
    Except CrudErr (Estado × Nat × Bool) :=
  let cn := normalize_code codigo
  match findRubricaByCodigo st.rubricas cn ano with
  | some r => Except.ok (st, r.id, false)
  | none =>
    let payload : RubricaCreate :=
      { codigo := cn
        designacao := "Rubrica provisória " ++ cn
        tipo := TipoRubrica.despesa
        parent_id := none
        nivel := 1
        dotacao_inicial := some 0
        anoFiscal := ano
        status := StatusRubrica.provisoria }
    match create_rubrica st.rubricas payload with
    | Except.ok (s', newId) => Except.ok ({ st with rubricas := s' }, newId, true)
    | Except.error e => Except.error e

/-- The column-name mapping of the import request. -/
structure ColumnMapping where
  codigo_rubrica : String
  fornecedor : String
  valor : String
  data : Option String := none
  ordem_pagamento : Option String := none
  justificativo : Option String := none
  requisicao : Option String := none
deriving DecidableEq, Repr

/-- An input row: column name to cell text. -/
abbrev Row := List (String × String)

/-- `str(row.get(col, "")).strip()` happens at the use sites; this is
the raw `row.get(col, "")`. -/
def rowGet (row : Row) (col : String) : String :=
  (((row.find? (fun p => decide (p.1 = col))).map (fun p => p.2)).getD "")

/-- Row-level validation errors of `ImportProcessor.process_row`. -/
inductive RowErr
  | codigoRubricaVazio    -- "Código de rubrica vazio"
  | fornecedorVazio       -- "Nome de fornecedor vazio"
  | valorInvalido         -- "Valor inválido: ..."
  | valorNaoPositivo      -- "Valor deve ser positivo: ..."
deriving DecidableEq, Repr

/-- Row-level warnings of `ImportProcessor.process_row`. -/
inductive RowWarn
  | dataNaoReconhecida
  | rubricaProvisoriaCriada
  | fornecedorNaoEncontrado
deriving DecidableEq, Repr

/-- The per-row outcome of `ImportProcessor.process_row`. -/
structure RowResult where
  linha_numero : Nat
  erros : List RowErr
  warnings : List RowWarn
  despesa_data : Option DespesaCreate
  fornecedor_id : Option Nat
  rubrica_id : Option Nat
  rubrica_criada : Bool
deriving DecidableEq, Repr

/-- `ImportProcessor.process_row`: extract and trim the mapped cells;
fail the row on a blank rubrica code or supplier name or a
missing/non-positive amount; a date that fails to parse is only a
warning; then run the rubrica matcher (a provisional creation is a
warning, and mutates the state) and the supplier matcher (a miss is a
warning, keeping the free-text name); derive the month from the date,
defaulting to the current calendar month; produce the expense payload
with status `pendente`. -/
def process_row (st : Estado) (scorer : String → String → Money) (ano : Int)
    (mesAtual : Nat) (row : Row) (mapping : ColumnMapping) (linha : Nat) :
    Except CrudErr (Estado × RowResult) :=
  let codigo := strip (rowGet row mapping.codigo_rubrica)
  let nome := strip (rowGet row mapping.fornecedor)
  let valorStr := strip (rowGet row mapping.valor)
  let dataStr : Option String := mapping.data.map (fun c => strip (rowGet row c))
  let op : Option String := mapping.ordem_pagamento.map (fun c => strip (rowGet row c))
  let just : Option String := mapping.justificativo.map (fun c => strip (rowGet row c))
  let req : Option String := mapping.requisicao.map (fun c => strip (rowGet row c))
  let valor? := parse_currency valorStr
  let erros : List RowErr :=
    (if codigo = "" then [RowErr.codigoRubricaVazio] else []) ++
    (if nome = "" then [RowErr.fornecedorVazio] else []) ++
    (match valor? with
     | none => [RowErr.valorInvalido]
     | some v => if decide (v ≤ 0) then [RowErr.valorNaoPositivo] else [])
  let data? : Option Datum :=
    match dataStr with
    | some ds => if ds = "" then none else parse_date ds
    | none => none
  let warnData : List RowWarn :=
    match dataStr with
    | some ds =>
      if ds ≠ "" ∧ parse_date ds = none then [RowWarn.dataNaoReconhecida] else []
    | none => []
  if erros ≠ [] then
    Except.ok (st,
      { linha_numero := linha, erros := erros, warnings := warnData
        despesa_data := none, fornecedor_id := none, rubrica_id := none
        rubrica_criada := false })
  else
    match rubricaMatch st ano codigo with
    | Except.error e => Except.error e
    | Except.ok (st1, rid, criada) =>
      let warns1 := warnData ++
        (if criada then [RowWarn.rubricaProvisoriaCriada] else [])
      let fid? := fornecedorMatch (loadFornecedorCache st1) scorer nome none none
      let warns2 := warns1 ++
        (if fid?.isNone then [RowWarn.fornecedorNaoEncontrado] else [])
      let mes :=
        match data? with
        | some dt => dt.mes
        | none => mesAtual
      let payload : DespesaCreate :=
        { rubrica_id := some rid
          fornecedor_id := fid?
          fornecedor_text := if fid?.isNone then some nome else none
          requisicao := req
          justificativo := just
          ordem_pagamento := op
          valor := valor?.getD 0
          data_emissao := data?
          anoFiscal := some ano
          mes := some mes }
      Except.ok (st1,
        { linha_numero := linha, erros := [], warnings := warns2
          despesa_data := some payload, fornecedor_id := fid?
          rubrica_id := some rid, rubrica_criada := criada })

/-- One line of the batch's error-detail blob. -/
structure LinhaDetalhe where
  linha : Nat
  procErros : List RowErr
  procWarnings : List RowWarn
  criacaoErro : Option CrudErr
deriving DecidableEq, Repr

/-- Result payload of `ImportProcessor.execute_import`. -/
structure ImportSummary where
  total_rows : Nat
  criadas : Nat
  atualizadas : Nat
  erros : Nat
  detalhes : List LinhaDetalhe
deriving DecidableEq, Repr

/-- The running accumulator of the row loop of `execute_import`: state,
running row index, created / errored counters, error detail. -/
structure ImportAcc where
  st : Estado
  idx : Nat
  criadas : Nat
  erros : Nat
  detalhes : List LinhaDetalhe
deriving Repr

/-- One iteration of the row loop of `execute_import`: run the row
processor; a row with errors is tallied with its detail; an error-free
row, unless a dry run was requested, is persisted through
`create_despesa` (an exception there is caught and tallied as an
errored row). -/
def importStep (scorer : String → String → Money) (ano : Int)
    (mesAtual : Nat) (hoje : Datum) (mapping : ColumnMapping)
    (dry_run : Bool) (acc : Except CrudErr ImportAcc) (row : Row) :
    Except CrudErr ImportAcc :=
  match acc with
  | Except.error e => Except.error e
  | Except.ok a =>
    let linha := a.idx + 2
    match process_row a.st scorer ano mesAtual row mapping linha with
    | Except.error e => Except.error e
    | Except.ok (st1, res) =>
      if res.erros ≠ [] then
        Except.ok { st := st1, idx := a.idx + 1, criadas := a.criadas
                    erros := a.erros + 1
                    detalhes := a.detalhes ++
                      [{ linha := linha, procErros := res.erros
                         procWarnings := res.warnings, criacaoErro := none }] }
      else
        match dry_run, res.despesa_data with
        | false, some payload =>
          match create_despesa st1 payload hoje with
          | Except.ok (st2, _) =>
            Except.ok { st := st2, idx := a.idx + 1, criadas := a.criadas + 1
                        erros := a.erros, detalhes := a.detalhes }
          | Except.error e =>
            Except.ok { st := st1, idx := a.idx + 1, criadas := a.criadas
                        erros := a.erros + 1
                        detalhes := a.detalhes ++
                          [{ linha := linha, procErros := []
                             procWarnings := res.warnings
                             criacaoErro := some e }] }
        | _, _ =>
          Except.ok { st := st1, idx := a.idx + 1, criadas := a.criadas
                      erros := a.erros, detalhes := a.detalhes }

/-- `update_import_batch` applied at the end of a non-dry-run
execution. -/
def update_import_batch (bs : List ImportBatch) (batch_id : Nat)
    (total criadas erros : Nat) : List ImportBatch :=
  bs.map (fun b =>
    if b.id = batch_id then
      { b with linhas_processadas := total, criadas := criadas
               atualizadas := 0, erros := erros }
    else b)

/-- `ImportProcessor.execute_import` (file already read into rows):
iterate every row with 2-based line numbers, process, persist the
error-free rows unless dry-run, and finally (non-dry-run only) update
the batch's counters. -/
def execute_import (st : Estado) (scorer : String → String → Money)
    (ano : Int) (mesAtual : Nat) (hoje : Datum) (rows : List Row)
    (mapping : ColumnMapping) (batch_id : Nat) (dry_run : Bool) :
    Except CrudErr (Estado × ImportSummary) :=
  match rows.foldl (importStep scorer ano mesAtual hoje mapping dry_run)
      (Except.ok { st := st, idx := 0, criadas := 0, erros := 0, detalhes := [] }) with
  | Except.error e => Except.error e
  | Except.ok a =>
    let total := rows.length
    let st2 : Estado :=
      if dry_run then a.st
      else { a.st with batches :=
        update_import_batch a.st.batches batch_id total a.criadas a.erros }
    Except.ok (st2,
      { total_rows := total, criadas := a.criadas, atualizadas := 0
        erros := a.erros, detalhes := a.detalhes })

/-! Concrete fixture states used by witnesses and counterexamples. -/

/-- The empty database. -/
def estadoVazio : Estado :=
  { rubricas := [], despesas := [], execucoes := [], dotacoes := []
    movimentos := [], fornecedores := [], contas := [], batches := [] }

/-- Expense fixture builder. -/
def mkDespesa (i : Nat) (rid : Option Nat) (v : Money) (ano : Int) (mes : Nat)
    (stt : StatusDespesa) : Despesa :=
  { id := i, rubrica_id := rid, fornecedor_id := none, fornecedor_text := none
    requisicao := none, justificativo := none, ordem_pagamento := none
    valor := v, data_emissao := none, anoFiscal := ano, mes := mes
    batch_id := none, status := stt }

/-- Rubrica fixture builder. -/
def mkRubrica (i : Nat) (cod : String) (pid : Option Nat) (nivel : Nat)
    (ini calcd : Option Money) (ano : Int) (stt : StatusRubrica) : Rubrica :=
  { id := i, codigo := cod, designacao := cod, parent_id := pid, nivel := nivel
    dotacao_inicial := ini, dotacao_calculada := calcd, anoFiscal := ano
    status := stt }

/-- Fixture: one pending expense of 200 against a fiscal year whose
allocation has an available balance of only 100. -/
def fixC3 : Estado :=
  { estadoVazio with
    despesas := [mkDespesa 1 none 200 2024 1 StatusDespesa.pendente]
    dotacoes := [{ id := 1, anoFiscal := 2024, valor_anual := 100
                   saldo := 100, reservado := 0 }] }

/-- Fixture: one already confirmed expense and its year's allocation. -/
def fixC4 : Estado :=
  { estadoVazio with
    despesas := [mkDespesa 1 (some 1) 50 2024 3 StatusDespesa.confirmada]
    rubricas := [mkRubrica 1 "1.1" none 1 (some 50) (some 50) 2024
      StatusRubrica.ativa]
    dotacoes := [{ id := 1, anoFiscal := 2024, valor_anual := 1000
                   saldo := 950, reservado := 0 }] }

/-- Fixture: an allocation with saldo 100 and reservado 20. -/
def fixC8 : Estado :=
  { estadoVazio with
    dotacoes := [{ id := 1, anoFiscal := 2024, valor_anual := 100
                   saldo := 100, reservado := 20 }] }

/-- Fixture: a cancelled expense against an existing leaf rubrica. -/
def fixC10 : Estado :=
  { estadoVazio with
    despesas := [mkDespesa 1 (some 1) 50 2024 3 StatusDespesa.cancelada]
    rubricas := [mkRubrica 1 "1.1" none 1 (some 50) (some 50) 2024
      StatusRubrica.ativa]
    dotacoes := [{ id := 1, anoFiscal := 2024, valor_anual := 1000
                   saldo := 1000, reservado := 0 }] }

/-- Fixture for the monthly-execution claim: a leaf rubrica whose
computed annual allocation is 120, no monthly-execution rows, and one
confirmed expense of 10 in month 1. -/
def fixC5 : Estado :=
  { estadoVazio with
    rubricas := [mkRubrica 1 "1.1" none 1 (some 120) (some 120) 2024
      StatusRubrica.ativa]
    despesas := [mkDespesa 1 (some 1) 10 2024 1 StatusDespesa.confirmada] }

/-- A monthly-execution row whose stored `dotacao` (7) differs from the
rubrica's current computed allocation (120). -/
def execFixC5b : ExecucaoMensal :=
  { rubrica_id := 1, mes := 1, ano := 2024, dotacao := 7, gasto := 0, saldo := 7 }

/-- Fixture for the recalculation primitive with an already existing
monthly-execution row whose stored `dotacao` (7) differs from the
current computed allocation (120). -/
def fixC5b : Estado :=
  { fixC5 with execucoes := [execFixC5b] }

/-- Fixture for the import claim: empty database except one batch row;
the imported row references a rubrica code that does not exist. -/
def fixC6 : Estado :=
  { estadoVazio with
    batches := [{ id := 1, linhas_processadas := 0, criadas := 0
                  atualizadas := 0, erros := 0 }] }

/-- The single imported row of the import fixture. -/
def rowC6 : Row :=
  [("codigo", "9.9.9"), ("fornecedor", "Fornecedor Novo"), ("valor", "1.234,56")]

/-- Column mapping of the import fixture. -/
def mapC6 : ColumnMapping :=
  { codigo_rubrica := "codigo", fornecedor := "fornecedor", valor := "valor" }

/-- A fixed current date for fixtures. -/
def hojeFix : Datum := { ano := 2024, mes := 6, dia := 15 }

/-- Fixture: one confirmed expense (admin-update claim). -/
def fixC7 : Estado :=
  { estadoVazio with
    despesas := [mkDespesa 1 (some 1) 50 2024 3 StatusDespesa.confirmada]
    rubricas := [mkRubrica 1 "1.1" none 1 (some 50) (some 50) 2024
      StatusRubrica.ativa] }

/-- Fixture for the two-confirmation claim: two pending expenses of 30
and 45 for fiscal year 2024, no allocation row yet. -/
def fixC2 : Estado :=
  { estadoVazio with
    despesas := [mkDespesa 1 none 30 2024 1 StatusDespesa.pendente,
                 mkDespesa 2 none 45 2024 2 StatusDespesa.pendente] }

/-- Fixture for the allocation-invariant claim: a root with one active
leaf child, satisfying the invariant. -/
def fixC1 : List Rubrica :=
  [mkRubrica 1 "1" none 1 (some 0) (some 100000) 2024 StatusRubrica.ativa,
   mkRubrica 2 "1.1" (some 1) 2 (some 100000) (some 100000) 2024
     StatusRubrica.ativa]

/-- Either-or success condition for the expense's rubrica reference used
by the confirmation theorems: the expense has no (truthy) rubrica, or
the referenced rubrica exists. -/
def rubricaOk (st : Estado) (d : Despesa) : Prop :=
  isTruthy d.rubrica_id = false ∨
    (findRubrica st.rubricas ((d.rubrica_id).getD 0)).isSome = true

/-- The memo-cache invariant of `calculate_node`: every cache entry is
a staged `dotacao_calculada` assignment already consistent with the
(year-restricted) table — a childless entry holds the node's initial
allocation, an entry with active children holds the exact sum of their
cached values, all of which are present in the cache. -/
def CacheGood (all : List Rubrica) (cache : List (Nat × Money)) : Prop :=
  ∀ k v, clook cache k = some v →
    ∃ nd, findRubrica all k = some nd ∧
      (if (activeChildren all nd).isEmpty then
        v = (nd.dotacao_inicial).getD 0
       else
        (∀ c ∈ activeChildren all nd, (clook cache c.id).isSome = true) ∧
        v = ((activeChildren all nd).map
          (fun c => (clook cache c.id).getD 0)).sum)

/-- The inner children fold of `calculate_node`, named so the fold can
be reasoned about on its own; definitionally equal to the fold inlined
in `calcNode`. -/
def calcFold (all : List Rubrica) (n : Nat) (l : List Rubrica)
    (acc : Money × List (Nat × Money)) : Money × List (Nat × Money) :=
  l.foldl (fun a ch =>
    (a.1 + (calcNode all n a.2 ch.id).1, (calcNode all n a.2 ch.id).2)) acc

/-- The per-row staging function of `applyCache`, named so its field
preservation can be stated once; definitionally equal to the lambda
inside `applyCache`. -/
def applyCacheFun (C : List (Nat × Money)) (r : Rubrica) : Rubrica :=
  match clook C r.id with
  | some v => { r with dotacao_calculada := some v }
  | none => r

/-- The row built by `create_rubrica` before it recalculates the chain;
definitionally equal to the row constructed inside `create_rubrica`. -/
def novoOf (s : List Rubrica) (data : RubricaCreate) : Rubrica :=
  { id := nextRubricaId s
    codigo := data.codigo
    designacao := data.designacao
    parent_id := data.parent_id
    nivel :=
      if isTruthy data.parent_id then
        match data.parent_id with
        | some pid =>
          match findRubrica s pid with
          | some parent => parent.nivel + 1
          | none => 1
        | none => 1
      else 1
    dotacao_inicial :=
      some (if data.parent_id = none then 0 else (data.dotacao_inicial).getD 0)
    dotacao_calculada :=
      if data.parent_id = none then some 0
      else some (if data.parent_id = none then 0
        else (data.dotacao_inicial).getD 0)
    anoFiscal := data.anoFiscal
    status := data.status }

/-- The row written by `update_rubrica` before it recalculates the
chain; definitionally equal to the row constructed inside
`update_rubrica` (including the direct `dotacao_calculada` write when a
non-root's initial allocation is supplied). -/
def updatedRow (r : Rubrica) (upd : RubricaUpdate) : Rubrica :=
  if upd.dotacao_inicial.isSome ∧ r.parent_id ≠ none then
    { r with
      designacao := (upd.designacao).getD r.designacao
      dotacao_inicial :=
        match upd.dotacao_inicial with
        | some v => v
        | none => r.dotacao_inicial
      status := (upd.status).getD r.status
      dotacao_calculada :=
        some ((match upd.dotacao_inicial with
          | some v => v
          | none => r.dotacao_inicial).getD 0) }
  else
    { r with
      designacao := (upd.designacao).getD r.designacao
      dotacao_inicial :=
        match upd.dotacao_inicial with
        | some v => v
        | none => r.dotacao_inicial
      status := (upd.status).getD r.status }

/-! ## Theorems -/

theorem findDespesa_mem {l : List Despesa} {i : Nat} {d : Despesa}
    (h : findDespesa l i = some d) : d ∈ l ∧ d.id = i := by
  induction l with
  | nil => simp [findDespesa] at h
  | cons x xs ih =>
    unfold findDespesa at h
    by_cases hx : x.id = i
    · simp [hx] at h
      exact ⟨by simp [← h], by rw [← h]; exact hx⟩
    · simp [hx] at h
      obtain ⟨hm, hid⟩ := ih h
      exact ⟨List.mem_cons_of_mem _ hm, hid⟩

theorem findDespesa_map {l : List Despesa} {i : Nat} (f : Despesa → Despesa)
    (hfix : ∀ x, x.id = i → f x = x)
    (hid : ∀ x, (f x).id = x.id) :
    findDespesa (l.map f) i = findDespesa l i := by
  induction l with
  | nil => rfl
  | cons x xs ih =>
    simp only [List.map_cons]
    unfold findDespesa
    by_cases hx : x.id = i
    · simp [hid x, hx, hfix x hx]
    · simp [hid x, hx, ih]

theorem findDotacao_mem {l : List DotacaoGlobal} {e : Int} {d : DotacaoGlobal}
    (h : findDotacao l e = some d) : d ∈ l ∧ d.anoFiscal = e := by
  induction l with
  | nil => simp [findDotacao] at h
  | cons x xs ih =>
    unfold findDotacao at h
    by_cases hx : x.anoFiscal = e
    · simp [hx] at h
      exact ⟨by simp [← h], by rw [← h]; exact hx⟩
    · simp [hx] at h
      obtain ⟨hm, he⟩ := ih h
      exact ⟨List.mem_cons_of_mem _ hm, he⟩

theorem findDotacao_map_update {l : List DotacaoGlobal} {e : Int}
    {dot dot' : DotacaoGlobal}
    (hfind : findDotacao l e = some dot)
    (hnd : (l.map (fun d => d.id)).Nodup)
    (hano : dot'.anoFiscal = e) (hid : dot'.id = dot.id) :
    findDotacao (l.map (fun x => if x.id = dot.id then dot' else x)) e =
      some dot' := by
  induction l with
  | nil => simp [findDotacao] at hfind
  | cons x xs ih =>
    simp only [List.map_cons, List.nodup_cons] at hnd
    unfold findDotacao at hfind
    by_cases hx : x.anoFiscal = e
    · simp only [hx, if_true] at hfind
      have hxd : x = dot := by simpa using hfind
      subst hxd
      rw [List.map_cons, if_pos rfl]
      unfold findDotacao
      rw [if_pos hano]
    · simp only [hx, if_false] at hfind
      have hxid : x.id ≠ dot.id := by
        intro hcontra
        have hmem : dot ∈ xs := (findDotacao_mem hfind).1
        exact hnd.1 (by rw [hcontra]; exact List.mem_map_of_mem (fun d => d.id) hmem)
      rw [List.map_cons, if_neg hxid]
      unfold findDotacao
      rw [if_neg hx]
      exact ih hfind hnd.2

theorem foldl_max_init_le (l : List Nat) (a : Nat) : a ≤ l.foldl max a := by
  induction l generalizing a with
  | nil => simp
  | cons y ys ih => exact le_trans (le_max_left a y) (ih (max a y))

theorem foldl_max_le {l : List Nat} {a x : Nat} (hx : x ∈ l) :
    x ≤ l.foldl max a := by
  induction l generalizing a with
  | nil => cases hx
  | cons y ys ih =>
    rcases List.mem_cons.mp hx with h | h
    · subst h
      exact le_trans (le_max_right a x) (foldl_max_init_le ys (max a x))
    · exact ih h

theorem nextDotacaoId_fresh {l : List DotacaoGlobal} {d : DotacaoGlobal}
    (hd : d ∈ l) : d.id ≠ nextDotacaoId l := by
  unfold nextDotacaoId
  have : d.id ≤ (l.map (fun x => x.id)).foldl max 0 :=
    foldl_max_le (List.mem_map_of_mem _ hd)
  omega

theorem findDotacao_append_new {l : List DotacaoGlobal} {e : Int}
    {x : DotacaoGlobal}
    (hnone : findDotacao l e = none) (hx : x.anoFiscal = e) :
    findDotacao (l ++ [x]) e = some x := by
  induction l with
  | nil => simp [findDotacao, hx]
  | cons y ys ih =>
    unfold findDotacao at hnone ⊢
    by_cases hy : y.anoFiscal = e
    · simp [hy] at hnone
    · simp only [hy, if_false] at hnone
      simp only [List.cons_append, hy, if_false]
      exact ih hnone

/-- C9: the currency parser yields the exact decimal 1234567.89 on both
locale conventions `1.234.567,89` and `1,234,567.89`, strips the
currency symbol in `€1.234,56` (yielding 1234.56), and returns no value
on the unparsable input `abc`. -/
theorem c9_parse_currency_cases :
    parse_currency "1.234.567,89" = some ((123456789 : Money) / 100) ∧
    parse_currency "1,234,567.89" = some ((123456789 : Money) / 100) ∧
    parse_currency "€1.234,56" = some ((123456 : Money) / 100) ∧
    parse_currency "abc" = none := by
  refine ⟨?_, ?_, ?_, ?_⟩ <;> decide

/-- C3: confirming a pending expense whose amount exceeds the
allocation's available balance `saldo − reservado`, with the override
flag false, fails with a 400 InvalidInput error and returns the state
unchanged (the transaction rolls back): the allocation's `saldo` and
`reservado`, the expense's status, and the movement ledger are exactly
as before the call. -/
theorem c3_insufficient_balance_rejected (st : Estado) (did : Nat)
    (d : Despesa) (dot : DotacaoGlobal) (is_admin : Bool) (uid : Option Nat)
    (hd : findDespesa st.despesas did = some d)
    (hst : d.status = StatusDespesa.pendente)
    (hdot : findDotacao st.dotacoes d.anoFiscal = some dot)
    (hover : dot.saldo - dot.reservado < d.valor) :
    confirm_despesa_with_dotacao st did false is_admin uid =
      (st, Except.error ApiErr.invalidInput) ∧
    statusCode ApiErr.invalidInput = 400 := by
  constructor
  · unfold confirm_despesa_with_dotacao
    simp only [hd]
    rw [hst]
    simp only [hdot]
    simp [hover]
  · rfl

/-- Witness for the insufficient-balance theorem at a concrete state. -/
theorem c3_witness :
    (findDespesa fixC3.despesas 1).isSome ∧
    confirm_despesa_with_dotacao fixC3 1 false false none =
      (fixC3, Except.error ApiErr.invalidInput) := by
  refine ⟨by decide, ?_⟩
  exact (c3_insufficient_balance_rejected fixC3 1
    (mkDespesa 1 none 200 2024 1 StatusDespesa.pendente)
    { id := 1, anoFiscal := 2024, valor_anual := 100, saldo := 100, reservado := 0 }
    false none (by decide) (by decide) (by decide) (by decide)).1

/-- C4: confirming an already confirmed expense is a no-op on both
confirmation paths: the simple path returns the record unchanged with
the state unchanged; the allocation-aware path returns the unchanged
state with an already-confirmed outcome — so neither the expense, the
allocation's `saldo`/`reservado`, nor the ledger changes, and no
movement is appended. -/
theorem c4_confirmation_idempotent (st : Estado) (did : Nat) (d : Despesa)
    (override is_admin : Bool) (uid : Option Nat)
    (hd : findDespesa st.despesas did = some d)
    (hst : d.status = StatusDespesa.confirmada) :
    confirm_despesa_with_execucao st did = Except.ok (st, d) ∧
    (confirm_despesa_with_dotacao st did override is_admin uid).1 = st ∧
    (∃ out, (confirm_despesa_with_dotacao st did override is_admin uid).2 =
      Except.ok out ∧ out.jaConfirmada = true) := by
  refine ⟨?_, ?_, ?_⟩
  · unfold confirm_despesa_with_execucao
    rw [hd]
    simp [hst]
  · unfold confirm_despesa_with_dotacao
    rw [hd]
    simp [hst]
  · unfold confirm_despesa_with_dotacao
    rw [hd]
    simp [hst]

/-- Witness for the idempotency theorem at a concrete state. -/
theorem c4_witness :
    (findDespesa fixC4.despesas 1).isSome ∧
    confirm_despesa_with_execucao fixC4 1 =
      Except.ok (fixC4, mkDespesa 1 (some 1) 50 2024 3 StatusDespesa.confirmada) ∧
    (confirm_despesa_with_dotacao fixC4 1 false false none).1 = fixC4 := by
  have h := c4_confirmation_idempotent fixC4 1
    (mkDespesa 1 (some 1) 50 2024 3 StatusDespesa.confirmada)
    false false none (by decide) (by decide)
  exact ⟨by decide, h.1, h.2.1⟩

theorem ids_map_update (l : List DotacaoGlobal) (dot' : DotacaoGlobal) (i : Nat)
    (h : dot'.id = i) :
    ((l.map (fun x => if x.id = i then dot' else x)).map (fun d => d.id)) =
      l.map (fun d => d.id) := by
  rw [List.map_map]
  apply List.map_congr_left
  intro x _
  by_cases hx : x.id = i
  · simp [hx, h]
  · simp [hx]

theorem criar_reserva_ok (st : Estado) (ano : Int) (r : Money)
    (ref : Option String) (uid : Option Nat) (dot : DotacaoGlobal)
    (hdot : findDotacao st.dotacoes ano = some dot)
    (hr : r ≤ dot.saldo - dot.reservado) :
    criar_reserva st ano r ref uid =
      ({ st with
          dotacoes := st.dotacoes.map (fun x =>
            if x.id = dot.id then { dot with reservado := dot.reservado + r }
            else x)
          movimentos := st.movimentos ++
            [{ dotacao_global_id := dot.id, tipo := TipoMov.reserva
               referencia := ref, valor := -r, conta_id := uid }] },
        Except.ok ()) := by
  unfold criar_reserva
  simp only [hdot]
  simp [not_lt.mpr hr]

theorem cancelar_reserva_ok (st : Estado) (ano : Int) (r : Money)
    (rid : Option Nat) (uid : Option Nat) (dot : DotacaoGlobal)
    (hdot : findDotacao st.dotacoes ano = some dot)
    (hr : r ≤ dot.reservado) :
    cancelar_reserva st ano r rid uid =
      ({ st with
          dotacoes := st.dotacoes.map (fun x =>
            if x.id = dot.id then { dot with reservado := dot.reservado - r }
            else x)
          movimentos := st.movimentos ++
            [{ dotacao_global_id := dot.id, tipo := TipoMov.reservaCancelada
               referencia := rid.map toString, valor := r, conta_id := uid }] },
        Except.ok ()) := by
  unfold cancelar_reserva
  simp only [hdot]
  simp [not_lt.mpr hr]

/-- C8: reserving an amount `r` within the available balance and then
cancelling a reservation of the same amount restores `reservado` to its
pre-reservation value, and neither the reservation nor the cancellation
changes the stored `saldo`. -/
theorem c8_reserva_cancel_roundtrip (st : Estado) (ano : Int) (r : Money)
    (dot : DotacaoGlobal) (ref : Option String) (uid uid' : Option Nat)
    (rid : Option Nat)
    (hnd : (st.dotacoes.map (fun d => d.id)).Nodup)
    (hdot : findDotacao st.dotacoes ano = some dot)
    (hres : 0 ≤ dot.reservado)
    (hr : r ≤ dot.saldo - dot.reservado) :
    ∃ st1 st2 dot1 dot2,
      criar_reserva st ano r ref uid = (st1, Except.ok ()) ∧
      findDotacao st1.dotacoes ano = some dot1 ∧
      dot1.saldo = dot.saldo ∧ dot1.reservado = dot.reservado + r ∧
      cancelar_reserva st1 ano r rid uid' = (st2, Except.ok ()) ∧
      findDotacao st2.dotacoes ano = some dot2 ∧
      dot2.saldo = dot.saldo ∧ dot2.reservado = dot.reservado := by
  obtain ⟨hdmem, hano⟩ := findDotacao_mem hdot
  have h1 := criar_reserva_ok st ano r ref uid dot hdot hr
  set dot1 : DotacaoGlobal := { dot with reservado := dot.reservado + r }
    with hdot1def
  have hfind1 : findDotacao ((criar_reserva st ano r ref uid).1).dotacoes ano =
      some dot1 := by
    rw [h1]
    exact findDotacao_map_update hdot hnd hano rfl
  rw [h1] at hfind1
  have hnd1 : ((st.dotacoes.map (fun x =>
      if x.id = dot.id then dot1 else x)).map (fun d => d.id)).Nodup := by
    rw [ids_map_update st.dotacoes dot1 dot.id rfl]
    exact hnd
  have hr2 : r ≤ dot1.reservado := by
    simp only [hdot1def]
    linarith
  have h2 := cancelar_reserva_ok _ ano r rid uid' dot1 hfind1 hr2
  refine ⟨_, _, dot1, { dot1 with reservado := dot1.reservado - r },
    h1, hfind1, rfl, rfl, h2, ?_, rfl, ?_⟩
  · exact findDotacao_map_update hfind1 hnd1 hano rfl
  · simp only [hdot1def]
    ring

/-- Witness for the reservation round-trip theorem at a concrete
state. -/
theorem c8_witness :
    (findDotacao fixC8.dotacoes 2024).isSome ∧
    (∃ st1 st2 dot1 dot2,
      criar_reserva fixC8 2024 30 none none = (st1, Except.ok ()) ∧
      findDotacao st1.dotacoes 2024 = some dot1 ∧
      dot1.saldo = 100 ∧ dot1.reservado = 20 + 30 ∧
      cancelar_reserva st1 2024 30 none none = (st2, Except.ok ()) ∧
      findDotacao st2.dotacoes 2024 = some dot2 ∧
      dot2.saldo = 100 ∧ dot2.reservado = 20) := by
  refine ⟨by decide, ?_⟩
  exact c8_reserva_cancel_roundtrip fixC8 2024 30
    { id := 1, anoFiscal := 2024, valor_anual := 100, saldo := 100, reservado := 20 }
    none none none none (by decide) (by decide) (by decide) (by decide)

theorem update_execucao_mensal_ok (st : Estado) (rid mes : Nat) (ano : Int)
    (r : Rubrica) (hr : findRubrica st.rubricas rid = some r) :
    ∃ p, update_execucao_mensal st rid mes ano = Except.ok p := by
  unfold update_execucao_mensal
  rw [hr]
  cases findExec st.execucoes rid mes ano <;> exact ⟨_, rfl⟩

/-- C10 (implicit): the simple confirmation service accepts a cancelled
expense — it short-circuits only on `confirmada` and rejects only a
missing expense or a missing rubrica — so a `cancelada` expense with an
existing rubrica is transitioned to `confirmada`; only the
allocation-aware path rejects a cancelled expense, with a 400
InvalidInput error. -/
theorem c10_cancelada_paths (st : Estado) (did : Nat) (d : Despesa) (rid : Nat)
    (r : Rubrica) (override is_admin : Bool) (uid : Option Nat)
    (hd : findDespesa st.despesas did = some d)
    (hst : d.status = StatusDespesa.cancelada)
    (hrid : d.rubrica_id = some rid) (hrid0 : rid ≠ 0)
    (hr : findRubrica st.rubricas rid = some r) :
    (∃ st', confirm_despesa_with_execucao st did =
        Except.ok (st', { d with status := StatusDespesa.confirmada })) ∧
    confirm_despesa_with_dotacao st did override is_admin uid =
      (st, Except.error ApiErr.invalidInput) ∧
    statusCode ApiErr.invalidInput = 400 := by
  have htruthy : isTruthy d.rubrica_id = true := by
    rw [hrid]
    simpa [isTruthy] using hrid0
  refine ⟨?_, ?_, rfl⟩
  · have hne : ¬ (d.status = StatusDespesa.confirmada) := by
      rw [hst]; simp
    have hgd : (d.rubrica_id).getD 0 = rid := by rw [hrid]; rfl
    have hr1 : findRubrica st.rubricas ((d.rubrica_id).getD 0) = some r := by
      rw [hgd]; exact hr
    unfold confirm_despesa_with_execucao
    simp only [hd]
    rw [if_neg hne, if_neg (not_not_intro htruthy)]
    obtain ⟨⟨st2, ex⟩, hp⟩ := update_execucao_mensal_ok
      { st with despesas := st.despesas.map (fun x =>
          if x.id = did then { d with status := StatusDespesa.confirmada }
          else x) }
      ((d.rubrica_id).getD 0) d.mes d.anoFiscal r hr1
    simp only [hp]
    exact ⟨_, rfl⟩
  · unfold confirm_despesa_with_dotacao
    simp [hd, hst]

/-- Witness for the cancelled-expense theorem at a concrete state. -/
theorem c10_witness :
    (findDespesa fixC10.despesas 1).isSome ∧
    (∃ st', confirm_despesa_with_execucao fixC10 1 =
        Except.ok (st',
          { mkDespesa 1 (some 1) 50 2024 3 StatusDespesa.cancelada with
              status := StatusDespesa.confirmada })) ∧
    (confirm_despesa_with_dotacao fixC10 1 false false none).2 =
      Except.error ApiErr.invalidInput := by
  have h := c10_cancelada_paths fixC10 1
    (mkDespesa 1 (some 1) 50 2024 3 StatusDespesa.cancelada) 1
    (mkRubrica 1 "1.1" none 1 (some 50) (some 50) 2024 StatusRubrica.ativa)
    false false none (by decide) (by decide) (by decide) (by decide) (by decide)
  exact ⟨by decide, h.1, by rw [h.2.1]⟩

theorem findRubrica_map {l : List Rubrica} {f : Rubrica → Rubrica} {i : Nat}
    (hid : ∀ x, (f x).id = x.id) :
    findRubrica (l.map f) i = (findRubrica l i).map f := by
  induction l with
  | nil => rfl
  | cons x xs ih =>
    simp only [List.map_cons]
    unfold findRubrica
    by_cases hx : x.id = i
    · simp [hid x, hx]
    · simp [hid x, hx, ih]

theorem applyCache_id (cache : List (Nat × Money)) (x : Rubrica) :
    ((fun (r : Rubrica) => match clook cache r.id with
               | some v => { r with dotacao_calculada := some v }
               | none => r) x).id = x.id := by
  change (match clook cache x.id with
          | some v => { x with dotacao_calculada := some v }
          | none => x).id = x.id
  cases clook cache x.id <;> rfl

theorem recalculate_dotacao_chain_find (s : List Rubrica) (rid i : Nat) :
    (findRubrica (recalculate_dotacao_chain s rid) i).isSome =
      (findRubrica s i).isSome := by
  unfold recalculate_dotacao_chain
  cases chainAnc s rid with
  | nil => rfl
  | cons a rest =>
    unfold applyCache
    rw [findRubrica_map (applyCache_id _)]
    cases findRubrica s i <;> rfl

theorem recalculate_execucao_mensal_ok (st : Estado) (rid mes : Nat)
    (ano : Int) (hr : (findRubrica st.rubricas rid).isSome = true) :
    ∃ ex x, recalculate_execucao_mensal st rid mes ano =
      Except.ok ({ st with
        rubricas := recalculate_dotacao_chain st.rubricas rid
        execucoes := ex }, x) := by
  obtain ⟨r0, hr0⟩ := Option.isSome_iff_exists.mp hr
  have hr1 : (findRubrica (recalculate_dotacao_chain st.rubricas rid) rid).isSome = true := by
    rw [recalculate_dotacao_chain_find]
    exact hr
  obtain ⟨r1, hr1e⟩ := Option.isSome_iff_exists.mp hr1
  unfold recalculate_execucao_mensal
  rw [hr0]
  simp only [hr1e]
  cases hex : findExec st.execucoes rid mes ano with
  | none =>
    by_cases hg : (0 : Money) < gastoConfirmado st.despesas rid mes ano
    · simp only [hg, decide_eq_true_eq, if_pos]
      exact ⟨_, _, rfl⟩
    · simp only [hg, decide_eq_true_eq, if_neg, if_false]
      exact ⟨st.execucoes, none, rfl⟩
  | some e => exact ⟨_, _, rfl⟩

/-- The successful allocation-aware confirmation of one pending expense
(with `override` false): the state after the call is the input state
with the allocation's stored `saldo` reduced by the amount, one
`despesa_confirmada` movement of negative signed amount referencing the
expense id appended, the expense's status flipped — and possibly changed
rubricas/execucoes, which the global-allocation claims do not read. -/
theorem confirm_despesa_with_dotacao_success (st : Estado) (did : Nat)
    (d : Despesa) (dot : DotacaoGlobal) (is_admin : Bool) (uid : Option Nat)
    (hd : findDespesa st.despesas did = some d)
    (hs : d.status = StatusDespesa.pendente)
    (hdot : findDotacao st.dotacoes d.anoFiscal = some dot)
    (hval : d.valor ≤ dot.saldo - dot.reservado)
    (hrub : rubricaOk st d) :
    ∃ st' out,
      confirm_despesa_with_dotacao st did false is_admin uid =
        (st', Except.ok out) ∧
      st'.dotacoes = st.dotacoes.map (fun x =>
        if x.id = dot.id then { dot with saldo := dot.saldo - d.valor } else x) ∧
      st'.movimentos = st.movimentos ++
        [{ dotacao_global_id := dot.id, tipo := TipoMov.despesaConfirmada
           referencia := some (toString did), valor := -d.valor
           conta_id := uid }] ∧
      st'.despesas = st.despesas.map (fun x =>
        if x.id = did then { d with status := StatusDespesa.confirmada } else x) ∧
      st'.fornecedores = st.fornecedores ∧ st'.contas = st.contas ∧
      st'.batches = st.batches ∧
      (∀ i, (findRubrica st'.rubricas i).isSome =
        (findRubrica st.rubricas i).isSome) := by
  have hne1 : ¬ (d.status = StatusDespesa.confirmada) := by rw [hs]; simp
  have hne2 : ¬ (d.status = StatusDespesa.cancelada) := by rw [hs]; simp
  have hnotlt : ¬ (dot.saldo - dot.reservado < d.valor) := not_lt.mpr hval
  unfold confirm_despesa_with_dotacao
  simp only [hd]
  rw [if_neg hne1, if_neg hne2]
  simp only [hdot]
  rw [if_neg (by simp [hnotlt]), if_neg (by simp)]
  cases htr : isTruthy d.rubrica_id with
  | false =>
    simp only [htr, Bool.false_eq_true, if_false]
    exact ⟨_, _, rfl, rfl, rfl, rfl, rfl, rfl, rfl, fun i => rfl⟩
  | true =>
    simp only [htr, if_true]
    have hrsome : (findRubrica st.rubricas ((d.rubrica_id).getD 0)).isSome = true := by
      rcases hrub with h | h
      · rw [htr] at h; cases h
      · exact h
    obtain ⟨ex, x, hrec⟩ := recalculate_execucao_mensal_ok
      { st with
        dotacoes := st.dotacoes.map (fun y =>
          if y.id = dot.id then { dot with saldo := dot.saldo - d.valor } else y)
        movimentos := st.movimentos ++
          [{ dotacao_global_id := dot.id, tipo := TipoMov.despesaConfirmada
             referencia := some (toString did), valor := -d.valor
             conta_id := uid }]
        despesas := st.despesas.map (fun y =>
          if y.id = did then { d with status := StatusDespesa.confirmada } else y) }
      ((d.rubrica_id).getD 0) d.mes d.anoFiscal hrsome
    simp only [hrec]
    refine ⟨_, _, rfl, rfl, rfl, rfl, rfl, rfl, rfl, fun i => ?_⟩
    rw [recalculate_dotacao_chain_find, recalculate_dotacao_chain_find]

/-- C5 counterexample: the claim states that EVERY code path creating a
monthly-execution row sets `dotacao` to the computed annual allocation
divided by 12.  At this concrete state (leaf rubrica with computed
allocation 120, no existing row), the confirmation-service path
(`despesa_service.update_execucao_mensal`) creates the row with
`dotacao` = 120, the full computed allocation, while the computed
allocation divided by 12 is 10. -/
theorem c5_counterexample :
    findExec fixC5.execucoes 1 1 2024 = none ∧
    ((update_execucao_mensal fixC5 1 1 2024).toOption.map
      (fun p => p.2.dotacao)) = some 120 ∧
    ((findRubrica fixC5.rubricas 1).bind
      (fun r => r.dotacao_calculada)).getD 0 / 12 = 10 ∧
    (120 : Money) ≠ 10 := by
  exact ⟨by decide, by decide, by decide, by decide⟩

/-- C5 (amended): rows created by the CRUD recalculation primitive
(`crud.recalculate_execucao_mensal`) receive `dotacao` = the freshly
recomputed annual allocation divided by 12, while rows created by the
simple confirmation service (`despesa_service.update_execucao_mensal`
and the ancestor walk `update_ancestors_execucao_mensal`, one step of
which is `updateAncestorExec`) receive the FULL computed allocation;
and once a row exists, EVERY path updates only `gasto` and `saldo`
(the stored `dotacao` survives unchanged, and the new `saldo` is
derived from it), never re-deriving the stored `dotacao`. -/
theorem c5_amended_execucao_dotacao :
    (∀ (st : Estado) (rid mes : Nat) (ano : Int) (ex : ExecucaoMensal)
       (st' : Estado) (row : ExecucaoMensal),
       findExec st.execucoes rid mes ano = some ex →
       recalculate_execucao_mensal st rid mes ano = Except.ok (st', some row) →
       row.dotacao = ex.dotacao ∧
       row.gasto = gastoConfirmado st.despesas rid mes ano ∧
       row.saldo = ex.dotacao - row.gasto) ∧
    (∀ (st : Estado) (rid mes : Nat) (ano : Int) (st' : Estado)
       (row : ExecucaoMensal),
       findExec st.execucoes rid mes ano = none →
       recalculate_execucao_mensal st rid mes ano = Except.ok (st', some row) →
       ∃ r', findRubrica st'.rubricas rid = some r' ∧
         row.dotacao = ((r'.dotacao_calculada).getD 0) / 12) ∧
    (∀ (st : Estado) (rid mes : Nat) (ano : Int) (ex : ExecucaoMensal)
       (st' : Estado) (row : ExecucaoMensal),
       findExec st.execucoes rid mes ano = some ex →
       update_execucao_mensal st rid mes ano = Except.ok (st', row) →
       row.dotacao = ex.dotacao ∧
       row.gasto = gastoConfirmado st.despesas rid mes ano ∧
       row.saldo = ex.dotacao - row.gasto) ∧
    (∀ (st : Estado) (rid mes : Nat) (ano : Int) (r : Rubrica)
       (st' : Estado) (row : ExecucaoMensal),
       findExec st.execucoes rid mes ano = none →
       findRubrica st.rubricas rid = some r →
       update_execucao_mensal st rid mes ano = Except.ok (st', row) →
       row.dotacao = (r.dotacao_calculada).getD 0) ∧
    (∀ (st : Estado) (a : Rubrica) (mes : Nat) (ano : Int),
       findExec st.execucoes a.id mes ano = none →
       (updateAncestorExec st a mes ano).execucoes = st.execucoes ++
         [{ rubrica_id := a.id, mes := mes, ano := ano
            dotacao := (a.dotacao_calculada).getD 0
            gasto := ((get_children st.rubricas a.id).map (fun c =>
                match findExec st.execucoes c.id mes ano with
                | some ce => ce.gasto
                | none => 0)).sum +
              gastoConfirmado st.despesas a.id mes ano
            saldo := (a.dotacao_calculada).getD 0 -
              (((get_children st.rubricas a.id).map (fun c =>
                match findExec st.execucoes c.id mes ano with
                | some ce => ce.gasto
                | none => 0)).sum +
                gastoConfirmado st.despesas a.id mes ano) }]) ∧
    (∀ (st : Estado) (a : Rubrica) (mes : Nat) (ano : Int)
       (ex : ExecucaoMensal),
       findExec st.execucoes a.id mes ano = some ex →
       (updateAncestorExec st a mes ano).execucoes =
         replaceExec st.execucoes
           { ex with
             gasto := ((get_children st.rubricas a.id).map (fun c =>
                 match findExec st.execucoes c.id mes ano with
                 | some ce => ce.gasto
                 | none => 0)).sum +
               gastoConfirmado st.despesas a.id mes ano
             saldo := ex.dotacao -
               (((get_children st.rubricas a.id).map (fun c =>
                 match findExec st.execucoes c.id mes ano with
                 | some ce => ce.gasto
                 | none => 0)).sum +
                 gastoConfirmado st.despesas a.id mes ano) }) := by
  refine ⟨?_, ?_, ?_, ?_, ?_, ?_⟩
  · intro st rid mes ano ex st' row hex hrec
    unfold recalculate_execucao_mensal at hrec
    cases hfr : findRubrica st.rubricas rid with
    | none => rw [hfr] at hrec; simp at hrec
    | some r0 =>
      rw [hfr] at hrec
      simp only at hrec
      cases hfr1 : findRubrica (recalculate_dotacao_chain st.rubricas rid) rid with
      | none => simp only [hfr1] at hrec; simp at hrec
      | some r1 =>
        simp only [hfr1, hex] at hrec
        simp only [Except.ok.injEq, Prod.mk.injEq] at hrec
        obtain ⟨-, hrow⟩ := hrec
        simp only [Option.some.injEq] at hrow
        subst hrow
        exact ⟨rfl, rfl, rfl⟩
  · intro st rid mes ano st' row hnone hrec
    unfold recalculate_execucao_mensal at hrec
    cases hfr : findRubrica st.rubricas rid with
    | none => rw [hfr] at hrec; simp at hrec
    | some r0 =>
      rw [hfr] at hrec
      simp only at hrec
      cases hfr1 : findRubrica (recalculate_dotacao_chain st.rubricas rid) rid with
      | none => simp only [hfr1] at hrec; simp at hrec
      | some r1 =>
        simp only [hfr1, hnone] at hrec
        by_cases hg : (0 : Money) < gastoConfirmado st.despesas rid mes ano
        · simp only [hg, decide_eq_true_eq, if_pos] at hrec
          simp only [Except.ok.injEq, Prod.mk.injEq] at hrec
          obtain ⟨hst, hrow⟩ := hrec
          simp only [Option.some.injEq] at hrow
          subst hrow
          subst hst
          exact ⟨r1, hfr1, rfl⟩
        · simp only [hg, decide_eq_true_eq, if_neg, if_false] at hrec
          simp at hrec
  · intro st rid mes ano ex st' row hex hupd
    unfold update_execucao_mensal at hupd
    cases hfr : findRubrica st.rubricas rid with
    | none => rw [hfr] at hupd; simp at hupd
    | some r0 =>
      rw [hfr] at hupd
      simp only [hex] at hupd
      simp only [Except.ok.injEq, Prod.mk.injEq] at hupd
      obtain ⟨-, hrow⟩ := hupd
      subst hrow
      exact ⟨rfl, rfl, rfl⟩
  · intro st rid mes ano r st' row hnone hr hupd
    unfold update_execucao_mensal at hupd
    rw [hr] at hupd
    simp only [hnone] at hupd
    simp only [Except.ok.injEq, Prod.mk.injEq] at hupd
    obtain ⟨-, hrow⟩ := hupd
    subst hrow
    rfl
  · intro st a mes ano hnone
    unfold updateAncestorExec
    simp only [hnone]
  · intro st a mes ano ex hex
    unfold updateAncestorExec
    simp only [hex]

/-- Witness for the amended monthly-execution theorem: at the fixture
with an existing row of stored `dotacao` 7, the recalculation primitive
and the ancestor-walk step both keep 7 (updating only `gasto` and
`saldo`); at the fixture without a row, the confirmation service and
the ancestor-walk step both create the row with the full computed
allocation 120, not 120 ÷ 12. -/
theorem c5_amended_witness :
    findExec fixC5b.execucoes 1 1 2024 = some execFixC5b ∧
    (∃ st' row, recalculate_execucao_mensal fixC5b 1 1 2024 =
        Except.ok (st', some row) ∧ row.dotacao = execFixC5b.dotacao) ∧
    findExec fixC5.execucoes 1 1 2024 = none ∧
    (∃ st' row, update_execucao_mensal fixC5 1 1 2024 =
        Except.ok (st', row) ∧ row.dotacao = 120) ∧
    (updateAncestorExec fixC5
        (mkRubrica 1 "1.1" none 1 (some 120) (some 120) 2024
          StatusRubrica.ativa) 1 2024).execucoes =
      fixC5.execucoes ++
        [{ rubrica_id := 1, mes := 1, ano := 2024, dotacao := 120
           gasto := 10, saldo := 110 }] ∧
    (updateAncestorExec fixC5b
        (mkRubrica 1 "1.1" none 1 (some 120) (some 120) 2024
          StatusRubrica.ativa) 1 2024).execucoes =
      replaceExec fixC5b.execucoes
        { execFixC5b with gasto := 10, saldo := execFixC5b.dotacao - 10 } := by
  have h1 : findExec fixC5b.execucoes 1 1 2024 = some execFixC5b := by decide
  refine ⟨h1, ⟨_, _, rfl, ?_⟩, by decide, ⟨_, _, rfl, ?_⟩, ?_, ?_⟩
  · exact (c5_amended_execucao_dotacao.1 fixC5b 1 1 2024 execFixC5b _ _ h1 rfl).1
  · exact c5_amended_execucao_dotacao.2.2.2.1 fixC5 1 1 2024
      (mkRubrica 1 "1.1" none 1 (some 120) (some 120) 2024 StatusRubrica.ativa)
      _ _ (by decide) (by decide) rfl
  · have h5 := c5_amended_execucao_dotacao.2.2.2.2.1 fixC5
      (mkRubrica 1 "1.1" none 1 (some 120) (some 120) 2024 StatusRubrica.ativa)
      1 2024 (by decide)
    rw [h5]
    decide
  · have h6 := c5_amended_execucao_dotacao.2.2.2.2.2 fixC5b
      (mkRubrica 1 "1.1" none 1 (some 120) (some 120) 2024 StatusRubrica.ativa)
      1 2024 execFixC5b (by decide)
    rw [h6]
    decide

/-- C6 (code bug): a row whose rubrica code does not exist passes the
row processor with no errors (only warnings: a provisional rubrica was
created, no supplier matched), yet the non-dry-run import does NOT
persist it: the provisional rubrica's status is `provisoria`, so
`create_despesa`'s "rubrica must be active" check raises, the loop
catches the exception, and the row is tallied as an errored row — 0
rows created, despite the claim that it is persisted with only a
warning. -/
theorem c6_provisional_rubrica_row_fails :
    ∀ scorer : String → String → Money,
      ((process_row fixC6 scorer 2024 1 rowC6 mapC6 2).toOption.map
        (fun p => (p.2.erros, p.2.warnings, p.2.rubrica_criada))) =
        some ([], [RowWarn.rubricaProvisoriaCriada,
                   RowWarn.fornecedorNaoEncontrado], true) ∧
      ((execute_import fixC6 scorer 2024 1 hojeFix [rowC6] mapC6 1 false).toOption.map
        (fun p => (p.2.criadas, p.2.erros, p.1.despesas,
          p.2.detalhes.map (fun ld => ld.criacaoErro)))) =
        some (0, 1, [], [some CrudErr.rubricaNaoAtiva]) ∧
      ((execute_import fixC6 scorer 2024 1 hojeFix [rowC6] mapC6 1 false).toOption.map
        (fun p => (p.1.rubricas.map (fun r => (r.codigo, r.status)),
          p.1.batches))) =
        some ([("9.9.9", StatusRubrica.provisoria)],
          [{ id := 1, linhas_processadas := 1, criadas := 0, atualizadas := 0
             erros := 1 }]) := by
  intro scorer
  exact ⟨rfl, rfl, rfl⟩

/-- C7 (code bug): once an expense is `confirmada`, the CRUD update
rejects the edit for EVERY caller: the `is_admin` flag the route
computes from the caller's roles is received but never consulted, so an
administrator's update is blocked too, contradicting the route's own
documented admin exception; physical deletion is rejected for every
caller, as the claim states. -/
theorem c7_confirmed_update_blocked_even_for_admin :
    (∀ (is_admin : Bool) (upd : DespesaUpdate) (hoje : Datum),
      update_despesa fixC7 1 upd is_admin hoje =
        Except.error CrudErr.despesaConfirmadaBloqueada) ∧
    delete_despesa fixC7 1 = Except.error CrudErr.remocaoConfirmadaBloqueada := by
  constructor
  · intro is_admin upd hoje
    rfl
  · rfl

/-- C2: starting with no allocation row for fiscal year `e`, creating a
global allocation of annual value `v` (stored `saldo` initialised to
`v`, `reservado` to `0`) and then successfully confirming two pending
expenses of amounts `a1` and `a2` through the allocation-aware path
(each within the available balance at its time) leaves the stored
`saldo` equal to `v − a1 − a2` with `valor_anual` still `v` and
`reservado` still `0`, and the ledger holds exactly two
`despesa_confirmada` movements against that allocation, with signed
amounts `−a1` and `−a2` and references equal to the two expense ids. -/
theorem c2_global_balance_two_confirmations (st : Estado) (e : Int)
    (v a1 a2 : Money) (id1 id2 : Nat) (d1 d2 : Despesa)
    (adm1 adm2 : Bool) (uid uid1 uid2 : Option Nat)
    (hno : findDotacao st.dotacoes e = none)
    (hndd : (st.dotacoes.map (fun d => d.id)).Nodup)
    (hmov : ∀ m ∈ st.movimentos,
      ∃ dd ∈ st.dotacoes, m.dotacao_global_id = dd.id)
    (h12 : id1 ≠ id2)
    (hd1 : findDespesa st.despesas id1 = some d1)
    (hd2 : findDespesa st.despesas id2 = some d2)
    (hs1 : d1.status = StatusDespesa.pendente)
    (hs2 : d2.status = StatusDespesa.pendente)
    (he1 : d1.anoFiscal = e) (he2 : d2.anoFiscal = e)
    (hv1 : d1.valor = a1) (hv2 : d2.valor = a2)
    (hr1 : rubricaOk st d1) (hr2 : rubricaOk st d2)
    (ha1 : a1 ≤ v) (ha2 : a2 ≤ v - a1) :
    ∃ st2 stF out1 out2,
      confirm_despesa_with_dotacao (create_or_update_dotacao_global st e v uid)
        id1 false adm1 uid1 = (st2, Except.ok out1) ∧
      confirm_despesa_with_dotacao st2 id2 false adm2 uid2 =
        (stF, Except.ok out2) ∧
      (∃ dotF, findDotacao stF.dotacoes e = some dotF ∧
        dotF.saldo = v - a1 - a2 ∧ dotF.valor_anual = v ∧
        dotF.reservado = 0) ∧
      stF.movimentos.filter (fun m =>
          decide (m.tipo = TipoMov.despesaConfirmada ∧
            m.dotacao_global_id = nextDotacaoId st.dotacoes)) =
        [{ dotacao_global_id := nextDotacaoId st.dotacoes
           tipo := TipoMov.despesaConfirmada
           referencia := some (toString id1), valor := -a1, conta_id := uid1 },
         { dotacao_global_id := nextDotacaoId st.dotacoes
           tipo := TipoMov.despesaConfirmada
           referencia := some (toString id2), valor := -a2
           conta_id := uid2 }] := by
  subst hv1
  subst hv2
  subst he1
  have hid1e : d1.id = id1 := (findDespesa_mem hd1).2
  have h0 : create_or_update_dotacao_global st d1.anoFiscal v uid =
      { st with
        dotacoes := st.dotacoes ++
          [{ id := nextDotacaoId st.dotacoes, anoFiscal := d1.anoFiscal
             valor_anual := v, saldo := v, reservado := 0 }]
        movimentos := st.movimentos ++
          [{ dotacao_global_id := nextDotacaoId st.dotacoes
             tipo := TipoMov.ajuste, referencia := none, valor := v
             conta_id := uid }] } := by
    unfold create_or_update_dotacao_global
    rw [hno]
  rw [h0]
  have hndap : (((st.dotacoes ++
      [{ id := nextDotacaoId st.dotacoes, anoFiscal := d1.anoFiscal
         valor_anual := v, saldo := v,
         reservado := 0 : DotacaoGlobal }]).map (fun d => d.id))).Nodup := by
    rw [List.map_append, List.nodup_append]
    refine ⟨hndd, List.nodup_singleton _, ?_⟩
    intro a ha hb
    simp only [List.map_cons, List.map_nil, List.mem_singleton] at hb
    obtain ⟨dd, hdd, hdda⟩ := List.mem_map.mp ha
    exact nextDotacaoId_fresh hdd (by rw [hdda, hb])
  obtain ⟨st2, out1, hc1, hdot2, hmov2, hdesp2, _, _, _, hrub2iso⟩ :=
    confirm_despesa_with_dotacao_success
      { st with
        dotacoes := st.dotacoes ++
          [{ id := nextDotacaoId st.dotacoes, anoFiscal := d1.anoFiscal
             valor_anual := v, saldo := v, reservado := 0 }]
        movimentos := st.movimentos ++
          [{ dotacao_global_id := nextDotacaoId st.dotacoes
             tipo := TipoMov.ajuste, referencia := none, valor := v
             conta_id := uid }] }
      id1 d1
      { id := nextDotacaoId st.dotacoes, anoFiscal := d1.anoFiscal
        valor_anual := v, saldo := v, reservado := 0 }
      adm1 uid1 hd1 hs1
      (findDotacao_append_new hno rfl)
      (by show d1.valor ≤ v - 0
          rw [sub_zero]; exact ha1)
      hr1
  have hfind2 : findDotacao st2.dotacoes d1.anoFiscal =
      some { id := nextDotacaoId st.dotacoes, anoFiscal := d1.anoFiscal
             valor_anual := v, saldo := v - d1.valor, reservado := 0 } := by
    rw [hdot2]
    exact findDotacao_map_update (findDotacao_append_new hno rfl) hndap rfl rfl
  have hd2' : findDespesa st2.despesas id2 = some d2 := by
    rw [hdesp2, findDespesa_map]
    · exact hd2
    · intro x hx
      exact if_neg (fun h => h12 ((hx.symm.trans h).symm))
    · intro x
      by_cases hx : x.id = id1
      · rw [if_pos hx, hx]
        exact hid1e
      · rw [if_neg hx]
  have hrub2' : rubricaOk st2 d2 := by
    unfold rubricaOk at hr2 ⊢
    rcases hr2 with h | h
    · exact Or.inl h
    · refine Or.inr ?_
      rw [hrub2iso]
      exact h
  obtain ⟨stF, out2, hc2, hdotF, hmovF, hdespF, _, _, _, _⟩ :=
    confirm_despesa_with_dotacao_success st2 id2 d2
      { id := nextDotacaoId st.dotacoes, anoFiscal := d1.anoFiscal
        valor_anual := v, saldo := v - d1.valor, reservado := 0 }
      adm2 uid2 hd2' hs2
      (by rw [he2]; exact hfind2)
      (by show d2.valor ≤ v - d1.valor - 0
          rw [sub_zero]; exact ha2)
      hrub2'
  have hbase : st.movimentos.filter (fun m =>
      decide (m.tipo = TipoMov.despesaConfirmada ∧
        m.dotacao_global_id = nextDotacaoId st.dotacoes)) = [] := by
    rw [List.filter_eq_nil_iff]
    intro m hm
    simp only [decide_eq_true_eq, not_and]
    intro _ hcontra
    obtain ⟨dd, hdd, hddid⟩ := hmov m hm
    exact nextDotacaoId_fresh hdd (by rw [← hddid, hcontra])
  refine ⟨st2, stF, out1, out2, hc1, hc2,
    ⟨{ id := nextDotacaoId st.dotacoes, anoFiscal := d1.anoFiscal
       valor_anual := v, saldo := v - d1.valor - d2.valor, reservado := 0 },
      ?_, rfl, rfl, rfl⟩, ?_⟩
  · rw [hdotF]
    refine findDotacao_map_update hfind2 ?_ rfl rfl
    rw [hdot2, ids_map_update]
    · exact hndap
    · rfl
  · rw [hmovF, hmov2]
    simp only [List.filter_append, List.filter_cons, List.filter_nil,
      decide_eq_true_eq, hbase]
    simp

/-- Witness for the two-confirmation balance theorem at a concrete
state: two pending expenses of 30 and 45 in fiscal year 2024 confirmed
against a freshly created global allocation of 1000. -/
theorem c2_witness :
    ∃ st2 stF out1 out2,
      confirm_despesa_with_dotacao
        (create_or_update_dotacao_global fixC2 2024 1000 none) 1 false false
        none = (st2, Except.ok out1) ∧
      confirm_despesa_with_dotacao st2 2 false false none =
        (stF, Except.ok out2) ∧
      (∃ dotF, findDotacao stF.dotacoes 2024 = some dotF ∧
        dotF.saldo = 1000 - 30 - 45 ∧ dotF.valor_anual = 1000 ∧
        dotF.reservado = 0) ∧
      stF.movimentos.filter (fun m =>
          decide (m.tipo = TipoMov.despesaConfirmada ∧
            m.dotacao_global_id = nextDotacaoId fixC2.dotacoes)) =
        [{ dotacao_global_id := nextDotacaoId fixC2.dotacoes
           tipo := TipoMov.despesaConfirmada
           referencia := some (toString (1 : Nat)), valor := -30
           conta_id := none },
         { dotacao_global_id := nextDotacaoId fixC2.dotacoes
           tipo := TipoMov.despesaConfirmada
           referencia := some (toString (2 : Nat)), valor := -45
           conta_id := none }] :=
  c2_global_balance_two_confirmations fixC2 2024 1000 30 45 1 2
    (mkDespesa 1 none 30 2024 1 StatusDespesa.pendente)
    (mkDespesa 2 none 45 2024 2 StatusDespesa.pendente)
    false false none none none
    rfl (by decide) (by intro m hm; simp [fixC2, estadoVazio] at hm)
    (by decide) rfl rfl rfl rfl rfl rfl rfl rfl
    (Or.inl rfl) (Or.inl rfl) (by decide) (by decide)

theorem rubrica_id_inj {s : List Rubrica} {a b : Rubrica}
    (hnd : (s.map (fun r => r.id)).Nodup) (ha : a ∈ s) (hb : b ∈ s)
    (hid : a.id = b.id) : a = b := by
  induction s with
  | nil => cases ha
  | cons x xs ih =>
    simp only [List.map_cons, List.nodup_cons] at hnd
    rcases List.mem_cons.mp ha with h1 | h1 <;>
      rcases List.mem_cons.mp hb with h2 | h2
    · rw [h1, h2]
    · exfalso
      apply hnd.1
      rw [← h1, hid]
      exact List.mem_map_of_mem _ h2
    · exfalso
      apply hnd.1
      rw [← h2, ← hid]
      exact List.mem_map_of_mem _ h1
    · exact ih hnd.2 h1 h2

theorem findRubrica_mem {s : List Rubrica} {i : Nat} {r : Rubrica}
    (h : findRubrica s i = some r) : r ∈ s ∧ r.id = i := by
  induction s with
  | nil => simp [findRubrica] at h
  | cons x xs ih =>
    unfold findRubrica at h
    by_cases hx : x.id = i
    · rw [if_pos hx] at h
      cases h
      exact ⟨List.mem_cons_self _ _, hx⟩
    · rw [if_neg hx] at h
      obtain ⟨hm, hi⟩ := ih h
      exact ⟨List.mem_cons_of_mem _ hm, hi⟩

theorem findRubrica_self {s : List Rubrica} {r : Rubrica}
    (hnd : (s.map (fun x => x.id)).Nodup) (hr : r ∈ s) :
    findRubrica s r.id = some r := by
  induction s with
  | nil => cases hr
  | cons x xs ih =>
    simp only [List.map_cons, List.nodup_cons] at hnd
    unfold findRubrica
    rcases List.mem_cons.mp hr with h | h
    · rw [if_pos (by rw [h]), h]
    · by_cases hx : x.id = r.id
      · exfalso
        apply hnd.1
        rw [hx]
        exact List.mem_map_of_mem _ h
      · rw [if_neg hx]
        exact ih hnd.2 h

theorem findRubrica_eq_of_mem {s : List Rubrica} {i : Nat} {nd r : Rubrica}
    (hnd : (s.map (fun x => x.id)).Nodup) (h : findRubrica s i = some nd)
    (hr : r ∈ s) (hid : r.id = i) : nd = r := by
  have hself := findRubrica_self hnd hr
  rw [hid, h] at hself
  exact Option.some.inj hself

theorem findRubrica_zero {s : List Rubrica} (h : ∀ r ∈ s, 1 ≤ r.id) :
    findRubrica s 0 = none := by
  induction s with
  | nil => rfl
  | cons x xs ih =>
    unfold findRubrica
    rw [if_neg]
    · exact ih (fun r hr => h r (List.mem_cons_of_mem _ hr))
    · have := h x (List.mem_cons_self _ _)
      omega

theorem nextRubricaId_fresh {s : List Rubrica} {r : Rubrica} (hr : r ∈ s) :
    r.id ≠ nextRubricaId s := by
  unfold nextRubricaId
  have : r.id ≤ (s.map (fun x => x.id)).foldl max 0 :=
    foldl_max_le (List.mem_map_of_mem _ hr)
  omega

theorem clook_cons_self (k : Nat) (v : Money) (c : List (Nat × Money)) :
    clook ((k, v) :: c) k = some v := by
  unfold clook
  rw [if_pos rfl]

theorem clook_cons_of_ne {k j : Nat} (hne : j ≠ k) (v : Money)
    (c : List (Nat × Money)) : clook ((j, v) :: c) k = clook c k := by
  show (if j = k then some v else clook c k) = clook c k
  rw [if_neg hne]

theorem clook_fresh_preserve {c : List (Nat × Money)} {nid k : Nat}
    {v w : Money} (hfresh : clook c nid = none) (hk : clook c k = some v) :
    clook ((nid, w) :: c) k = some v := by
  have hne : nid ≠ k := by
    intro h
    rw [h, hk] at hfresh
    cases hfresh
  rw [clook_cons_of_ne hne, hk]

theorem filter_length_lt {α : Type} {l : List α} {p q : α → Bool}
    (himp : ∀ a, q a = true → p a = true) {x : α} (hx : x ∈ l)
    (hpx : p x = true) (hqx : q x = false) :
    (l.filter q).length < (l.filter p).length := by
  have hsub : List.Sublist (l.filter q) (l.filter p) :=
    List.monotone_filter_right l himp
  have hle := hsub.length_le
  rcases Nat.lt_or_ge (l.filter q).length (l.filter p).length with h | h
  · exact h
  · exfalso
    have heq : l.filter q = l.filter p :=
      hsub.eq_of_length (Nat.le_antisymm hle h)
    have hmem : x ∈ l.filter q := by
      rw [heq]
      exact List.mem_filter.mpr ⟨hx, hpx⟩
    have := (List.mem_filter.mp hmem).2
    rw [hqx] at this
    cases this

theorem measure_child_lt {all : List Rubrica} {node c : Rubrica}
    (hmem : node ∈ all) (hc : c.nivel = node.nivel + 1) :
    (all.filter (fun r => decide (c.nivel ≤ r.nivel))).length <
      (all.filter (fun r => decide (node.nivel ≤ r.nivel))).length := by
  refine filter_length_lt ?_ hmem ?_ ?_
  · intro a ha
    simp only [decide_eq_true_eq] at ha ⊢
    omega
  · simp only [decide_eq_true_eq]
    omega
  · simp only [decide_eq_false_iff_not]
    omega

theorem measure_parent_lt {s : List Rubrica} {r q : Rubrica}
    (hmem : r ∈ s) (hq : r.nivel = q.nivel + 1) :
    (s.filter (fun x => decide (x.nivel ≤ q.nivel))).length <
      (s.filter (fun x => decide (x.nivel ≤ r.nivel))).length := by
  refine filter_length_lt ?_ hmem ?_ ?_
  · intro a ha
    simp only [decide_eq_true_eq] at ha ⊢
    omega
  · simp only [decide_eq_true_eq]
    omega
  · simp only [decide_eq_false_iff_not]
    omega

theorem filter_map_eq_filter {s : List Rubrica} {f : Rubrica → Rubrica}
    {p : Rubrica → Bool}
    (h : ∀ c ∈ s, f c = c ∨ (p c = false ∧ p (f c) = false)) :
    (s.map f).filter p = s.filter p := by
  induction s with
  | nil => rfl
  | cons x xs ih =>
    simp only [List.map_cons, List.filter_cons]
    rcases h x (List.mem_cons_self _ _) with hfx | ⟨hpx, hpfx⟩
    · rw [hfx, ih (fun c hc => h c (List.mem_cons_of_mem _ hc))]
    · rw [if_neg (by rw [hpfx]; simp), if_neg (by rw [hpx]; simp)]
      exact ih (fun c hc => h c (List.mem_cons_of_mem _ hc))

theorem filter_map_comm {s : List Rubrica} {f : Rubrica → Rubrica}
    {p q : Rubrica → Bool} (h : ∀ c, p (f c) = q c) :
    (s.map f).filter p = (s.filter q).map f := by
  induction s with
  | nil => rfl
  | cons x xs ih =>
    simp only [List.map_cons, List.filter_cons, h x]
    by_cases hx : q x = true
    · rw [if_pos hx, if_pos hx, List.map_cons, ih]
    · rw [if_neg hx, if_neg hx, ih]

theorem map_eq_self {l : List Rubrica} {f : Rubrica → Rubrica}
    (h : ∀ c ∈ l, f c = c) : l.map f = l := by
  induction l with
  | nil => rfl
  | cons x xs ih =>
    simp only [List.map_cons]
    rw [h x (List.mem_cons_self _ _), ih (fun c hc => h c (List.mem_cons_of_mem _ hc))]

theorem filter_filter_imp (s : List Rubrica) (p q : Rubrica → Bool)
    (h : ∀ c, p c = true → q c = true) :
    (s.filter q).filter p = s.filter p := by
  induction s with
  | nil => rfl
  | cons x xs ih =>
    by_cases hq : q x = true
    · rw [List.filter_cons_of_pos hq]
      by_cases hp : p x = true
      · rw [List.filter_cons_of_pos hp, List.filter_cons_of_pos hp, ih]
      · rw [List.filter_cons_of_neg hp, List.filter_cons_of_neg hp, ih]
    · rw [List.filter_cons_of_neg hq, ih,
        List.filter_cons_of_neg (fun hp => hq (h x hp))]

theorem activeChildren_map {s : List Rubrica} {f : Rubrica → Rubrica}
    (hf : ∀ r : Rubrica, (f r).id = r.id ∧ (f r).parent_id = r.parent_id ∧
      (f r).anoFiscal = r.anoFiscal ∧ (f r).status = r.status)
    (node : Rubrica) :
    activeChildren (s.map f) (f node) = (activeChildren s node).map f := by
  unfold activeChildren
  refine filter_map_comm ?_
  intro c
  obtain ⟨h1, h2, h3, h4⟩ := hf c
  obtain ⟨n1, n2, n3, n4⟩ := hf node
  simp only [h2, h3, h4, n1, n3]

theorem activeChildren_chainAll {s : List Rubrica} {a node : Rubrica}
    (hano : node.anoFiscal = a.anoFiscal) :
    activeChildren (chainAll s a) node = activeChildren s node := by
  unfold activeChildren chainAll
  refine filter_filter_imp s _ _ ?_
  intro c hc
  simp only [decide_eq_true_eq] at hc ⊢
  rw [hc.2.1]
  exact hano

theorem WFRubricas_chainAll {s : List Rubrica} {a : Rubrica}
    (hwf : WFRubricas s) : WFRubricas (chainAll s a) := by
  obtain ⟨hnd, hpos, hpar⟩ := hwf
  refine ⟨?_, ?_, ?_⟩
  · exact List.Nodup.sublist (List.Sublist.map _ (List.filter_sublist s)) hnd
  · intro r hr
    exact hpos r (List.mem_of_mem_filter hr)
  · intro r hr p hp
    obtain ⟨q, hq, hqid, hqn, hqa⟩ := hpar r (List.mem_of_mem_filter hr) p hp
    refine ⟨q, ?_, hqid, hqn, hqa⟩
    refine List.mem_filter.mpr ⟨hq, ?_⟩
    have hra := (List.mem_filter.mp hr).2
    simp only [decide_eq_true_eq] at hra ⊢
    rw [hqa]
    exact hra

theorem WFRubricas_map {s : List Rubrica} {f : Rubrica → Rubrica}
    (hf : ∀ r ∈ s, (f r).id = r.id ∧ (f r).parent_id = r.parent_id ∧
      (f r).nivel = r.nivel ∧ (f r).anoFiscal = r.anoFiscal)
    (hwf : WFRubricas s) : WFRubricas (s.map f) := by
  obtain ⟨hnd, hpos, hpar⟩ := hwf
  refine ⟨?_, ?_, ?_⟩
  · have h2 : (s.map f).map (fun r => r.id) = s.map (fun r => r.id) := by
      rw [List.map_map]
      exact List.map_congr_left (fun r hr => (hf r hr).1)
    rw [h2]
    exact hnd
  · intro r' hr'
    obtain ⟨r, hr, hfr⟩ := List.mem_map.mp hr'
    rw [← hfr, (hf r hr).1]
    exact hpos r hr
  · intro r' hr' p hp
    obtain ⟨r, hr, hfr⟩ := List.mem_map.mp hr'
    rw [← hfr] at hp ⊢
    rw [(hf r hr).2.1] at hp
    obtain ⟨q, hq, hqid, hqn, hqa⟩ := hpar r hr p hp
    obtain hq' := hf q hq
    refine ⟨f q, List.mem_map_of_mem f hq, ?_, ?_, ?_⟩
    · rw [hq'.1]
      exact hqid
    · rw [(hf r hr).2.2.1, hq'.2.2.1]
      exact hqn
    · rw [hq'.2.2.2, (hf r hr).2.2.2]
      exact hqa

theorem insertDescNivel_mem {x y : Rubrica} {l : List Rubrica} :
    y ∈ insertDescNivel x l ↔ y = x ∨ y ∈ l := by
  induction l with
  | nil => simp [insertDescNivel]
  | cons z zs ih =>
    unfold insertDescNivel
    by_cases h : z.nivel < x.nivel
    · rw [if_pos h]
      simp [List.mem_cons]
    · rw [if_neg h]
      simp only [List.mem_cons, ih]
      tauto

theorem sortDescNivel_mem {y : Rubrica} {l : List Rubrica} :
    y ∈ sortDescNivel l ↔ y ∈ l := by
  induction l with
  | nil => simp [sortDescNivel]
  | cons z zs ih =>
    unfold sortDescNivel
    rw [insertDescNivel_mem]
    simp only [List.mem_cons, ih]

theorem ancWalk_nil {s : List Rubrica} {cid : Nat} (fuel : Nat)
    (h : findRubrica s cid = none) : ancWalk s fuel cid = [] := by
  cases fuel with
  | zero => rfl
  | succ n =>
    unfold ancWalk
    simp only [h]

theorem ancWalk_eq_top {s : List Rubrica} {cid : Nat} {r : Rubrica} (n : Nat)
    (hr : findRubrica s cid = some r) (hp : r.parent_id = none) :
    ancWalk s (n + 1) cid = [r] := by
  unfold ancWalk
  simp only [hr, hp]

theorem ancWalk_eq_step {s : List Rubrica} {cid : Nat} {r : Rubrica}
    {p : Nat} (n : Nat) (hr : findRubrica s cid = some r)
    (hp : r.parent_id = some p) (hp0 : ¬ (p = 0)) :
    ancWalk s (n + 1) cid = r :: ancWalk s n p := by
  conv_lhs => unfold ancWalk
  simp only [hr, hp]
  rw [if_neg hp0]

theorem ancWalk_spec {s : List Rubrica} (hwf : WFRubricas s) :
    ∀ (fuel : Nat) (cid : Nat) (r : Rubrica),
      findRubrica s cid = some r →
      (s.filter (fun x => decide (x.nivel ≤ r.nivel))).length < fuel →
      r ∈ ancWalk s fuel cid ∧
      (∀ x ∈ ancWalk s fuel cid, x ∈ s ∧ x.anoFiscal = r.anoFiscal) ∧
      (∀ x ∈ ancWalk s fuel cid, ∀ p, x.parent_id = some p →
        ∃ y ∈ ancWalk s fuel cid, y.id = p) := by
  intro fuel
  induction fuel with
  | zero =>
    intro cid r hr hlt
    exact absurd hlt (by omega)
  | succ n ih =>
    intro cid r hr hlt
    obtain ⟨hrmem, hrid⟩ := findRubrica_mem hr
    cases hp : r.parent_id with
    | none =>
      rw [ancWalk_eq_top n hr hp]
      refine ⟨List.mem_singleton.mpr rfl, ?_, ?_⟩
      · intro x hx
        rw [List.mem_singleton] at hx
        rw [hx]
        exact ⟨hrmem, rfl⟩
      · intro x hx p hxp
        rw [List.mem_singleton] at hx
        rw [hx, hp] at hxp
        cases hxp
    | some p =>
      obtain ⟨q, hq, hqid, hqn, hqa⟩ :=
        hwf.2.2 r hrmem p (by rw [hp]; simp)
      have hp0 : ¬ (p = 0) := by
        have := hwf.2.1 q hq
        omega
      rw [ancWalk_eq_step n hr hp hp0]
      have hfq : findRubrica s p = some q := by
        rw [← hqid]
        exact findRubrica_self hwf.1 hq
      have hql : (s.filter (fun x => decide (x.nivel ≤ q.nivel))).length < n := by
        have := measure_parent_lt hrmem hqn
        omega
      obtain ⟨ihm, ihs, ihc⟩ := ih p q hfq hql
      refine ⟨List.mem_cons_self _ _, ?_, ?_⟩
      · intro x hx
        rcases List.mem_cons.mp hx with h1 | h1
        · rw [h1]
          exact ⟨hrmem, rfl⟩
        · obtain ⟨hxs, hxa⟩ := ihs x h1
          exact ⟨hxs, by rw [hxa, hqa]⟩
      · intro x hx pp hxp
        rcases List.mem_cons.mp hx with h1 | h1
        · rw [h1, hp] at hxp
          cases hxp
          exact ⟨q, List.mem_cons_of_mem _ ihm, hqid⟩
        · obtain ⟨y, hy, hyid⟩ := ihc x h1 pp hxp
          exact ⟨y, List.mem_cons_of_mem _ hy, hyid⟩

theorem chainAnc_of_none {s : List Rubrica} {rid : Nat}
    (hf : findRubrica s rid = none) : chainAnc s rid = [] := by
  unfold chainAnc get_ancestors
  by_cases h0 : rid = 0
  · rw [if_pos h0]
    simp [hf]
  · rw [if_neg h0]
    rw [ancWalk_nil _ hf]
    simp [hf]

theorem chainAnc_spec {s : List Rubrica} {rid : Nat} {r : Rubrica}
    (hwf : WFRubricas s) (hr : findRubrica s rid = some r) :
    r ∈ chainAnc s rid ∧
    (∀ x ∈ chainAnc s rid, x ∈ s ∧ x.anoFiscal = r.anoFiscal) ∧
    (∀ x ∈ chainAnc s rid, ∀ p, x.parent_id = some p →
      ∃ y ∈ chainAnc s rid, y.id = p) := by
  have hrid0 : ¬ (rid = 0) := by
    have h1 := hwf.2.1 r (findRubrica_mem hr).1
    have h2 := (findRubrica_mem hr).2
    omega
  have hlt : (s.filter (fun x => decide (x.nivel ≤ r.nivel))).length <
      s.length + 1 := by
    have := List.length_filter_le (fun x => decide (x.nivel ≤ r.nivel)) s
    omega
  obtain ⟨hm, hs, hc⟩ := ancWalk_spec hwf (s.length + 1) rid r hr hlt
  have hne : (ancWalk s (s.length + 1) rid).isEmpty = false := by
    cases hwk : ancWalk s (s.length + 1) rid with
    | nil =>
      rw [hwk] at hm
      cases hm
    | cons a t => rfl
  have hchain : chainAnc s rid = ancWalk s (s.length + 1) rid := by
    unfold chainAnc get_ancestors
    rw [if_neg hrid0]
    simp [hne]
  rw [hchain]
  exact ⟨hm, hs, hc⟩

theorem CacheGood_nil (all : List Rubrica) : CacheGood all [] := by
  intro k v hk
  cases hk

theorem CacheGood_cons {all : List Rubrica} {cache : List (Nat × Money)}
    {nid : Nat} {w : Money}
    (hfresh : clook cache nid = none) (hg : CacheGood all cache)
    (hnew : ∃ nd, findRubrica all nid = some nd ∧
      (if (activeChildren all nd).isEmpty then
        w = (nd.dotacao_inicial).getD 0
       else
        (∀ c ∈ activeChildren all nd, (clook cache c.id).isSome = true) ∧
        w = ((activeChildren all nd).map
          (fun c => (clook cache c.id).getD 0)).sum)) :
    CacheGood all ((nid, w) :: cache) := by
  intro k v hk
  by_cases hkn : nid = k
  · subst hkn
    rw [clook_cons_self] at hk
    cases hk
    obtain ⟨nd, hnd, hcond⟩ := hnew
    refine ⟨nd, hnd, ?_⟩
    by_cases hemp : (activeChildren all nd).isEmpty = true
    · rw [if_pos hemp] at hcond ⊢
      exact hcond
    · rw [if_neg hemp] at hcond ⊢
      obtain ⟨hall, hsum⟩ := hcond
      refine ⟨?_, ?_⟩
      · intro ch hc
        obtain ⟨vc, hvc⟩ := Option.isSome_iff_exists.mp (hall ch hc)
        rw [clook_fresh_preserve hfresh hvc]
        rfl
      · rw [hsum]
        refine congrArg List.sum (List.map_congr_left ?_)
        intro ch hc
        obtain ⟨vc, hvc⟩ := Option.isSome_iff_exists.mp (hall ch hc)
        rw [hvc, clook_fresh_preserve hfresh hvc]
  · rw [clook_cons_of_ne hkn] at hk
    obtain ⟨nd, hnd, hcond⟩ := hg k v hk
    refine ⟨nd, hnd, ?_⟩
    by_cases hemp : (activeChildren all nd).isEmpty = true
    · rw [if_pos hemp] at hcond ⊢
      exact hcond
    · rw [if_neg hemp] at hcond ⊢
      obtain ⟨hall, hsum⟩ := hcond
      refine ⟨?_, ?_⟩
      · intro ch hc
        obtain ⟨vc, hvc⟩ := Option.isSome_iff_exists.mp (hall ch hc)
        rw [clook_fresh_preserve hfresh hvc]
        rfl
      · rw [hsum]
        refine congrArg List.sum (List.map_congr_left ?_)
        intro ch hc
        obtain ⟨vc, hvc⟩ := Option.isSome_iff_exists.mp (hall ch hc)
        rw [hvc, clook_fresh_preserve hfresh hvc]

theorem applyCacheFun_fields (C : List (Nat × Money)) (x : Rubrica) :
    (applyCacheFun C x).id = x.id ∧
    (applyCacheFun C x).parent_id = x.parent_id ∧
    (applyCacheFun C x).nivel = x.nivel ∧
    (applyCacheFun C x).anoFiscal = x.anoFiscal ∧
    (applyCacheFun C x).status = x.status ∧
    (applyCacheFun C x).dotacao_inicial = x.dotacao_inicial := by
  unfold applyCacheFun
  cases clook C x.id <;>
    exact ⟨rfl, rfl, rfl, rfl, rfl, rfl⟩

theorem applyCache_eq_map (C : List (Nat × Money)) (s : List Rubrica) :
    applyCache C s = s.map (applyCacheFun C) := rfl

theorem calcNode_good (all : List Rubrica) (hwf : WFRubricas all) :
    ∀ (fuel : Nat) (cache : List (Nat × Money)) (nid : Nat),
      CacheGood all cache →
      (∀ nd, findRubrica all nid = some nd →
        (all.filter (fun r => decide (nd.nivel ≤ r.nivel))).length < fuel) →
      (∀ k v, clook cache k = some v →
        clook (calcNode all fuel cache nid).2 k = some v) ∧
      CacheGood all (calcNode all fuel cache nid).2 ∧
      (∀ k, (clook (calcNode all fuel cache nid).2 k).isSome = true →
        (clook cache k).isSome = true ∨ k = nid ∨
        ∃ nd p, findRubrica all k = some nd ∧ nd.parent_id = some p ∧
          (clook (calcNode all fuel cache nid).2 p).isSome = true) ∧
      (∀ k, (clook (calcNode all fuel cache nid).2 k).isSome = true →
        (clook cache k).isSome = true ∨
        ∃ nd nod, findRubrica all k = some nd ∧
          findRubrica all nid = some nod ∧ nod.nivel ≤ nd.nivel) ∧
      (∀ nd, findRubrica all nid = some nd →
        clook (calcNode all fuel cache nid).2 nid =
          some (calcNode all fuel cache nid).1) := by
  intro fuel
  induction fuel with
  | zero =>
    intro cache nid hg hfuel
    refine ⟨fun k v hk => hk, hg, fun k hk => Or.inl hk,
      fun k hk => Or.inl hk, ?_⟩
    intro nd hnd
    exact absurd (hfuel nd hnd) (by omega)
  | succ n ih =>
    intro cache nid hg hfuel
    cases hcl : clook cache nid with
    | some v =>
      have hred : calcNode all (n + 1) cache nid = (v, cache) := by
        unfold calcNode
        simp only [hcl]
      rw [hred]
      refine ⟨fun k v hk => hk, hg, fun k hk => Or.inl hk,
        fun k hk => Or.inl hk, ?_⟩
      intro nd hnd
      exact hcl
    | none =>
      cases hfind : findRubrica all nid with
      | none =>
        have hred : calcNode all (n + 1) cache nid = (0, cache) := by
          unfold calcNode
          simp only [hcl, hfind]
        rw [hred]
        refine ⟨fun k v hk => hk, hg, fun k hk => Or.inl hk,
          fun k hk => Or.inl hk, ?_⟩
        intro nd hnd
        cases hnd
      | some node =>
        have hnodeid : node.id = nid := (findRubrica_mem hfind).2
        have hmlt := hfuel node hfind
        have hchild : ∀ ch ∈ activeChildren all node,
            findRubrica all ch.id = some ch ∧ ch.nivel = node.nivel + 1 ∧
            ch.parent_id = some nid := by
          intro ch hc
          have hchmem : ch ∈ all := List.mem_of_mem_filter hc
          have hcp := (List.mem_filter.mp hc).2
          simp only [decide_eq_true_eq] at hcp
          obtain ⟨hp1, hp2, hp3⟩ := hcp
          obtain ⟨q, hq, hqid, hqn, hqa⟩ :=
            hwf.2.2 ch hchmem node.id (by rw [hp1]; simp)
          have hq_eq : q = node :=
            rubrica_id_inj hwf.1 hq (findRubrica_mem hfind).1 hqid
          rw [hq_eq] at hqn
          exact ⟨findRubrica_self hwf.1 hchmem, hqn, by rw [hp1, hnodeid]⟩
        cases hch : activeChildren all node with
        | nil =>
          have hred : calcNode all (n + 1) cache nid =
              ((node.dotacao_inicial).getD 0,
                (nid, (node.dotacao_inicial).getD 0) :: cache) := by
            unfold calcNode
            simp only [hcl, hfind, hch]
          rw [hred]
          refine ⟨?_, ?_, ?_, ?_, ?_⟩
          · intro k v hk
            exact clook_fresh_preserve hcl hk
          · refine CacheGood_cons hcl hg ⟨node, hfind, ?_⟩
            rw [if_pos (by rw [hch]; rfl)]
          · intro k hk
            by_cases hkn : nid = k
            · exact Or.inr (Or.inl hkn.symm)
            · rw [clook_cons_of_ne hkn] at hk
              exact Or.inl hk
          · intro k hk
            by_cases hkn : nid = k
            · subst hkn
              exact Or.inr ⟨node, node, hfind, rfl, le_refl _⟩
            · rw [clook_cons_of_ne hkn] at hk
              exact Or.inl hk
          · intro nd hnd
            exact clook_cons_self _ _ _
        | cons c cs =>
          have hfold : ∀ (l : List Rubrica),
              (∀ ch ∈ l, ch ∈ activeChildren all node) →
              ∀ (acc : Money × List (Nat × Money)), CacheGood all acc.2 →
              (∀ k v, clook acc.2 k = some v →
                clook (calcFold all n l acc).2 k = some v) ∧
              CacheGood all (calcFold all n l acc).2 ∧
              (∀ k, (clook (calcFold all n l acc).2 k).isSome = true →
                (clook acc.2 k).isSome = true ∨
                ∃ nd, findRubrica all k = some nd ∧
                  (nd.parent_id = some node.id ∨ ∃ p, nd.parent_id = some p ∧
                    (clook (calcFold all n l acc).2 p).isSome = true)) ∧
              (∀ k, (clook (calcFold all n l acc).2 k).isSome = true →
                (clook acc.2 k).isSome = true ∨
                ∃ nd, findRubrica all k = some nd ∧ node.nivel < nd.nivel) ∧
              (calcFold all n l acc).1 = acc.1 +
                (l.map (fun ch =>
                  (clook (calcFold all n l acc).2 ch.id).getD 0)).sum ∧
              (∀ ch ∈ l, (clook (calcFold all n l acc).2 ch.id).isSome = true) := by
            intro l
            induction l with
            | nil =>
              intro hsub acc hacc
              refine ⟨fun k v hk => hk, hacc, fun k hk => Or.inl hk,
                fun k hk => Or.inl hk, ?_, ?_⟩
              · simp only [calcFold, List.foldl_nil, List.map_nil,
                  List.sum_nil, add_zero]
              · intro x hx
                cases hx
            | cons ch l2 ihl =>
              intro hsub acc hacc
              obtain ⟨hchfind, hchniv, hchpar⟩ :=
                hchild ch (hsub ch (List.mem_cons_self _ _))
              have hchfuel : ∀ nd, findRubrica all ch.id = some nd →
                  (all.filter (fun r => decide (nd.nivel ≤ r.nivel))).length < n := by
                intro nd hnd
                have hndc : nd = ch := by
                  rw [hchfind] at hnd
                  exact (Option.some.inj hnd).symm
                subst hndc
                have h1 := measure_child_lt (findRubrica_mem hfind).1 hchniv
                omega
              obtain ⟨cA, cB, cC, cE, cD⟩ := ih acc.2 ch.id hacc hchfuel
              have hq := cD ch hchfind
              have hstep : calcFold all n (ch :: l2) acc =
                  calcFold all n l2 (acc.1 + (calcNode all n acc.2 ch.id).1,
                    (calcNode all n acc.2 ch.id).2) := rfl
              rw [hstep]
              obtain ⟨fA, fB, fC, fE, fV, fS⟩ := ihl
                (fun x hx => hsub x (List.mem_cons_of_mem _ hx))
                (acc.1 + (calcNode all n acc.2 ch.id).1,
                  (calcNode all n acc.2 ch.id).2) cB
              refine ⟨?_, fB, ?_, ?_, ?_, ?_⟩
              · intro k v hk
                exact fA k v (cA k v hk)
              · intro k hk
                rcases fC k hk with h1 | ⟨nd, hnd, hrest⟩
                · rcases cC k h1 with h2 | h2 | ⟨nd, p, hnd, hpp, hpc⟩
                  · exact Or.inl h2
                  · subst h2
                    refine Or.inr ⟨ch, hchfind, Or.inl ?_⟩
                    rw [hchpar, hnodeid]
                  · refine Or.inr ⟨nd, hnd, Or.inr ⟨p, hpp, ?_⟩⟩
                    obtain ⟨vp, hvp⟩ := Option.isSome_iff_exists.mp hpc
                    rw [fA p vp hvp]
                    rfl
                · rcases hrest with hpar | ⟨p, hpp, hpc⟩
                  · exact Or.inr ⟨nd, hnd, Or.inl hpar⟩
                  · exact Or.inr ⟨nd, hnd, Or.inr ⟨p, hpp, hpc⟩⟩
              · intro k hk
                rcases fE k hk with h1 | h2
                · rcases cE k h1 with h2 | ⟨nd, nodeC, hnd, hndC, hniv⟩
                  · exact Or.inl h2
                  · have hCc : nodeC = ch := by
                      rw [hchfind] at hndC
                      exact (Option.some.inj hndC).symm
                    subst hCc
                    refine Or.inr ⟨nd, hnd, ?_⟩
                    omega
                · exact Or.inr h2
              · rw [fV]
                have hqkeep : clook (calcFold all n l2
                    (acc.1 + (calcNode all n acc.2 ch.id).1,
                      (calcNode all n acc.2 ch.id).2)).2 ch.id =
                    some (calcNode all n acc.2 ch.id).1 := fA ch.id _ hq
                rw [List.map_cons, List.sum_cons, hqkeep, Option.getD_some]
                exact add_assoc _ _ _
              · intro x hx
                rcases List.mem_cons.mp hx with h1 | h1
                · rw [h1, fA ch.id _ hq]
                  rfl
                · exact fS x h1
          have hsubs : ∀ x ∈ c :: cs, x ∈ activeChildren all node := by
            intro x hx
            rw [hch]
            exact hx
          obtain ⟨fA, fB, fC, fE, fV, fS⟩ :=
            hfold (c :: cs) hsubs ((0 : Money), cache) hg
          have hfresh : clook (calcFold all n (c :: cs)
              ((0 : Money), cache)).2 nid = none := by
            cases hclk2 : clook (calcFold all n (c :: cs)
                ((0 : Money), cache)).2 nid with
            | none => rfl
            | some w =>
              exfalso
              have hks : (clook (calcFold all n (c :: cs)
                  ((0 : Money), cache)).2 nid).isSome = true := by
                rw [hclk2]
                rfl
              rcases fE nid hks with h1 | ⟨nd, hnd, hniv⟩
              · have h1b : (clook cache nid).isSome = true := h1
                rw [hcl] at h1b
                simp at h1b
              · rw [hfind] at hnd
                have hnn := Option.some.inj hnd
                subst hnn
                exact lt_irrefl _ hniv
          have hred : calcNode all (n + 1) cache nid =
              ((calcFold all n (c :: cs) ((0 : Money), cache)).1,
                (nid, (calcFold all n (c :: cs) ((0 : Money), cache)).1) ::
                  (calcFold all n (c :: cs) ((0 : Money), cache)).2) := by
            unfold calcNode calcFold
            simp only [hcl, hfind, hch]
          rw [hred]
          refine ⟨?_, ?_, ?_, ?_, ?_⟩
          · intro k v hk
            exact clook_fresh_preserve hfresh (fA k v hk)
          · refine CacheGood_cons hfresh fB ⟨node, hfind, ?_⟩
            rw [if_neg (by rw [hch]; simp)]
            refine ⟨?_, ?_⟩
            · intro x hx
              rw [hch] at hx
              exact fS x hx
            · rw [hch, fV]
              exact zero_add _
          · intro k hk
            by_cases hkn : nid = k
            · exact Or.inr (Or.inl hkn.symm)
            · rw [clook_cons_of_ne hkn] at hk
              rcases fC k hk with h1 | ⟨nd, hnd, hrest⟩
              · exact Or.inl h1
              · rcases hrest with hpar | ⟨p, hpp, hpc⟩
                · refine Or.inr (Or.inr ⟨nd, node.id, hnd, hpar, ?_⟩)
                  rw [hnodeid, clook_cons_self]
                  rfl
                · refine Or.inr (Or.inr ⟨nd, p, hnd, hpp, ?_⟩)
                  obtain ⟨vp, hvp⟩ := Option.isSome_iff_exists.mp hpc
                  rw [clook_fresh_preserve hfresh hvp]
                  rfl
          · intro k hk
            by_cases hkn : nid = k
            · subst hkn
              exact Or.inr ⟨node, node, hfind, rfl, le_refl _⟩
            · rw [clook_cons_of_ne hkn] at hk
              rcases fE k hk with h1 | ⟨nd, hnd, hniv⟩
              · exact Or.inl h1
              · exact Or.inr ⟨nd, node, hnd, rfl, le_of_lt hniv⟩
          · intro nd hnd
            exact clook_cons_self _ _ _

theorem chainCache_spec {all : List Rubrica} (hwf : WFRubricas all)
    (anc : List Rubrica)
    (hmem : ∀ y ∈ anc, y ∈ all)
    (hclosed : ∀ y ∈ anc, ∀ p, y.parent_id = some p → ∃ z ∈ anc, z.id = p) :
    CacheGood all (chainCache all anc) ∧
    (∀ y ∈ anc, (clook (chainCache all anc) y.id).isSome = true) ∧
    (∀ k, (clook (chainCache all anc) k).isSome = true →
      ∃ nd, findRubrica all k = some nd ∧
        ∀ p, nd.parent_id = some p →
          (clook (chainCache all anc) p).isSome = true) := by
  have main : ∀ (l : List Rubrica), (∀ y ∈ l, y ∈ anc) →
      ∀ (cacc : List (Nat × Money)), CacheGood all cacc →
      (∀ k, (clook cacc k).isSome = true →
        ∃ nd, findRubrica all k = some nd ∧
          (nd.parent_id = none ∨ ∃ p, nd.parent_id = some p ∧
            ((clook cacc p).isSome = true ∨ ∃ z ∈ anc, z.id = p))) →
      CacheGood all (l.foldl
        (fun c an2 => (calcNode all (all.length + 1) c an2.id).2) cacc) ∧
      (∀ k v, clook cacc k = some v →
        clook (l.foldl
          (fun c an2 => (calcNode all (all.length + 1) c an2.id).2) cacc) k =
          some v) ∧
      (∀ y ∈ l, (clook (l.foldl
        (fun c an2 => (calcNode all (all.length + 1) c an2.id).2) cacc)
          y.id).isSome = true) ∧
      (∀ k, (clook (l.foldl
          (fun c an2 => (calcNode all (all.length + 1) c an2.id).2) cacc)
            k).isSome = true →
        ∃ nd, findRubrica all k = some nd ∧
          (nd.parent_id = none ∨ ∃ p, nd.parent_id = some p ∧
            ((clook (l.foldl
              (fun c an2 => (calcNode all (all.length + 1) c an2.id).2) cacc)
                p).isSome = true ∨ ∃ z ∈ anc, z.id = p))) := by
    intro l
    induction l with
    | nil =>
      intro hsub cacc hcg hclosure
      exact ⟨hcg, fun k v hk => hk,
        fun y hy => absurd hy (List.not_mem_nil y), hclosure⟩
    | cons an l2 ihl =>
      intro hsub cacc hcg hclosure
      have hfuel2 : ∀ nd, findRubrica all an.id = some nd →
          (all.filter (fun r => decide (nd.nivel ≤ r.nivel))).length <
            all.length + 1 := by
        intro nd hnd
        have := List.length_filter_le (fun r => decide (nd.nivel ≤ r.nivel)) all
        omega
      obtain ⟨cA, cB, cC, cE, cD⟩ :=
        calcNode_good all hwf (all.length + 1) cacc an.id hcg hfuel2
      have hanmem : an ∈ anc := hsub an (List.mem_cons_self _ _)
      have hanall : an ∈ all := hmem an hanmem
      have hanfind : findRubrica all an.id = some an :=
        findRubrica_self hwf.1 hanall
      have hancached :
          clook (calcNode all (all.length + 1) cacc an.id).2 an.id =
            some (calcNode all (all.length + 1) cacc an.id).1 := cD an hanfind
      have hclosure2 : ∀ k,
          (clook (calcNode all (all.length + 1) cacc an.id).2 k).isSome = true →
          ∃ nd, findRubrica all k = some nd ∧
            (nd.parent_id = none ∨ ∃ p, nd.parent_id = some p ∧
              ((clook (calcNode all (all.length + 1) cacc an.id).2
                p).isSome = true ∨ ∃ z ∈ anc, z.id = p)) := by
        intro k hk
        rcases cC k hk with h1 | h2 | ⟨nd, p, hnd, hpp, hpc⟩
        · obtain ⟨nd, hnd, hrest⟩ := hclosure k h1
          refine ⟨nd, hnd, ?_⟩
          rcases hrest with hnone | ⟨p, hpp, hrest2⟩
          · exact Or.inl hnone
          · refine Or.inr ⟨p, hpp, ?_⟩
            rcases hrest2 with hc1 | hc2
            · obtain ⟨vp, hvp⟩ := Option.isSome_iff_exists.mp hc1
              left
              rw [cA p vp hvp]
              rfl
            · exact Or.inr hc2
        · subst h2
          refine ⟨an, hanfind, ?_⟩
          cases hp : an.parent_id with
          | none => exact Or.inl rfl
          | some p =>
            exact Or.inr ⟨p, rfl, Or.inr (hclosed an hanmem p hp)⟩
        · exact ⟨nd, hnd, Or.inr ⟨p, hpp, Or.inl hpc⟩⟩
      have hstep : (an :: l2).foldl
          (fun c an2 => (calcNode all (all.length + 1) c an2.id).2) cacc =
          l2.foldl (fun c an2 => (calcNode all (all.length + 1) c an2.id).2)
            (calcNode all (all.length + 1) cacc an.id).2 := rfl
      rw [hstep]
      obtain ⟨gCG, gA, gS, gCl⟩ :=
        ihl (fun y hy => hsub y (List.mem_cons_of_mem _ hy))
          (calcNode all (all.length + 1) cacc an.id).2 cB hclosure2
      refine ⟨gCG, ?_, ?_, gCl⟩
      · intro k v hk
        exact gA k v (cA k v hk)
      · intro y hy
        rcases List.mem_cons.mp hy with h1 | h1
        · rw [h1, gA an.id _ hancached]
          rfl
        · exact gS y h1
  obtain ⟨hCG, hA, hS, hCl⟩ := main (sortDescNivel anc)
    (fun y hy => sortDescNivel_mem.mp hy) [] (CacheGood_nil all)
    (by intro k hk; simp [clook] at hk)
  have hcc : chainCache all anc = (sortDescNivel anc).foldl
      (fun c an2 => (calcNode all (all.length + 1) c an2.id).2) [] := rfl
  rw [hcc]
  refine ⟨hCG, ?_, ?_⟩
  · intro y hy
    exact hS y (sortDescNivel_mem.mpr hy)
  · intro k hk
    obtain ⟨nd, hnd, hrest⟩ := hCl k hk
    refine ⟨nd, hnd, ?_⟩
    intro p hpp
    rcases hrest with hnone | ⟨p2, hpp2, hrest2⟩
    · rw [hpp] at hnone
      cases hnone
    · rw [hpp] at hpp2
      have hp2 := Option.some.inj hpp2
      subst hp2
      rcases hrest2 with hc | ⟨z, hz, hzid⟩
      · exact hc
      · rw [← hzid]
        exact hS z (sortDescNivel_mem.mpr hz)

theorem recalc_eq_nil {s1 : List Rubrica} {rid : Nat}
    (h : chainAnc s1 rid = []) :
    recalculate_dotacao_chain s1 rid = s1 := by
  unfold recalculate_dotacao_chain
  rw [h]

theorem recalc_eq_cons {s1 : List Rubrica} {rid : Nat} {a : Rubrica}
    {rest : List Rubrica} (h : chainAnc s1 rid = a :: rest) :
    recalculate_dotacao_chain s1 rid =
      applyCache (chainCache (chainAll s1 a) (a :: rest)) s1 := by
  unfold recalculate_dotacao_chain
  rw [h]

theorem recalc_WF {s1 : List Rubrica} (rid : Nat) (hwf : WFRubricas s1) :
    WFRubricas (recalculate_dotacao_chain s1 rid) := by
  cases hch : chainAnc s1 rid with
  | nil =>
    rw [recalc_eq_nil hch]
    exact hwf
  | cons a rest =>
    rw [recalc_eq_cons hch, applyCache_eq_map]
    refine WFRubricas_map ?_ hwf
    intro r hr
    obtain ⟨f1, f2, f3, f4, f5, f6⟩ := applyCacheFun_fields _ r
    exact ⟨f1, f2, f3, f4⟩

theorem recalc_rows {s1 : List Rubrica} (rid : Nat) :
    ∀ r ∈ s1, ∃ q ∈ recalculate_dotacao_chain s1 rid,
      q.id = r.id ∧ q.anoFiscal = r.anoFiscal := by
  intro r hr
  cases hch : chainAnc s1 rid with
  | nil =>
    rw [recalc_eq_nil hch]
    exact ⟨r, hr, rfl, rfl⟩
  | cons a rest =>
    rw [recalc_eq_cons hch, applyCache_eq_map]
    refine ⟨_, List.mem_map_of_mem _ hr, ?_, ?_⟩
    · exact (applyCacheFun_fields _ r).1
    · exact (applyCacheFun_fields _ r).2.2.2.1

theorem rubricaInv_intro {s : List Rubrica} {r : Rubrica} (v : Money)
    (hcalc : (r.dotacao_calculada).getD 0 = v)
    (h : v = (if (activeChildren s r).isEmpty then
        (r.dotacao_inicial).getD 0
      else ((activeChildren s r).map
        (fun x => (x.dotacao_calculada).getD 0)).sum)) :
    rubricaInv s r := by
  unfold rubricaInv
  rw [hcalc, h]

theorem recalc_yearInvariant (s1 : List Rubrica) (rid : Nat) (e : Int)
    (hwf : WFRubricas s1)
    (hpre : ∀ r ∈ s1, r.anoFiscal = e →
      (∀ y ∈ chainAnc s1 rid, y.id ≠ r.id) → rubricaInv s1 r) :
    yearInvariant (recalculate_dotacao_chain s1 rid) e := by
  cases hch : chainAnc s1 rid with
  | nil =>
    rw [recalc_eq_nil hch]
    intro r hr hre
    refine hpre r hr hre ?_
    intro y hy
    rw [hch] at hy
    cases hy
  | cons a rest =>
    rw [recalc_eq_cons hch]
    have hfex : ∃ r0, findRubrica s1 rid = some r0 := by
      cases hf : findRubrica s1 rid with
      | some r0 => exact ⟨r0, rfl⟩
      | none =>
        rw [chainAnc_of_none hf] at hch
        cases hch
    obtain ⟨r0, hr0⟩ := hfex
    obtain ⟨hm0, hfacts, hclosed0⟩ := chainAnc_spec hwf hr0
    have haano : a.anoFiscal = r0.anoFiscal := by
      refine (hfacts a ?_).2
      rw [hch]
      exact List.mem_cons_self _ _
    have hwfall : WFRubricas (chainAll s1 a) := WFRubricas_chainAll hwf
    have hmemall : ∀ y ∈ a :: rest, y ∈ chainAll s1 a := by
      intro y hy
      have hy2 : y ∈ chainAnc s1 rid := by
        rw [hch]
        exact hy
      obtain ⟨hys, hya⟩ := hfacts y hy2
      refine List.mem_filter.mpr ⟨hys, ?_⟩
      simp only [decide_eq_true_eq]
      rw [hya, ← haano]
    have hclosedanc : ∀ y ∈ a :: rest, ∀ p, y.parent_id = some p →
        ∃ z ∈ a :: rest, z.id = p := by
      intro y hy p hp
      have hy2 : y ∈ chainAnc s1 rid := by
        rw [hch]
        exact hy
      obtain ⟨z, hz, hzid⟩ := hclosed0 y hy2 p hp
      rw [hch] at hz
      exact ⟨z, hz, hzid⟩
    obtain ⟨hCG, hseeds, hCclosed⟩ :=
      chainCache_spec hwfall (a :: rest) hmemall hclosedanc
    rw [applyCache_eq_map]
    intro r2 hr2 hre
    obtain ⟨r, hr, hgr⟩ := List.mem_map.mp hr2
    have hre2 : r.anoFiscal = e := by
      rw [← (applyCacheFun_fields _ r).2.2.2.1, hgr]
      exact hre
    cases hclk : clook (chainCache (chainAll s1 a) (a :: rest)) r.id with
    | some v =>
      have hgr2 : applyCacheFun (chainCache (chainAll s1 a) (a :: rest)) r =
          { r with dotacao_calculada := some v } := by
        unfold applyCacheFun
        rw [hclk]
      rw [← hgr, hgr2]
      obtain ⟨nd, hnd, hcond⟩ := hCG r.id v hclk
      have hndmem : nd ∈ s1 := List.mem_of_mem_filter (findRubrica_mem hnd).1
      have hndr : nd = r :=
        rubrica_id_inj hwf.1 hndmem hr (findRubrica_mem hnd).2
      subst hndr
      have hrano : nd.anoFiscal = a.anoFiscal := by
        have := (List.mem_filter.mp (findRubrica_mem hnd).1).2
        simp only [decide_eq_true_eq] at this
        exact this
      rw [activeChildren_chainAll hrano] at hcond
      have hACmap : activeChildren
          (s1.map (applyCacheFun (chainCache (chainAll s1 a) (a :: rest))))
          { nd with dotacao_calculada := some v } =
          (activeChildren s1 nd).map
            (applyCacheFun (chainCache (chainAll s1 a) (a :: rest))) := by
        rw [← hgr2]
        exact activeChildren_map
          (fun x => ⟨(applyCacheFun_fields _ x).1,
            (applyCacheFun_fields _ x).2.1,
            (applyCacheFun_fields _ x).2.2.2.1,
            (applyCacheFun_fields _ x).2.2.2.2.1⟩) nd
      refine rubricaInv_intro v rfl ?_
      rw [hACmap]
      cases hLs : activeChildren s1 nd with
      | nil =>
        rw [hLs] at hcond
        simp only [List.isEmpty_nil, if_true] at hcond
        simp only [List.map_nil, List.isEmpty_nil, if_true]
        exact hcond
      | cons w ws =>
        rw [hLs] at hcond
        rw [if_neg (by simp)] at hcond
        rw [if_neg (by simp)]
        rw [hcond.2, List.map_map]
        refine congrArg List.sum (List.map_congr_left ?_)
        intro c hc
        obtain ⟨vc, hvc⟩ := Option.isSome_iff_exists.mp (hcond.1 c hc)
        have hFc : applyCacheFun (chainCache (chainAll s1 a) (a :: rest)) c =
            { c with dotacao_calculada := some vc } := by
          unfold applyCacheFun
          rw [hvc]
        simp only [Function.comp_apply, hFc, hvc, Option.getD_some]
    | none =>
      have hgr2 : applyCacheFun (chainCache (chainAll s1 a) (a :: rest)) r =
          r := by
        unfold applyCacheFun
        rw [hclk]
      rw [← hgr, hgr2]
      have hnotchain : ∀ y ∈ chainAnc s1 rid, y.id ≠ r.id := by
        intro y hy hcontra
        have hy2 : y ∈ a :: rest := by
          rw [← hch]
          exact hy
        have hsome := hseeds y hy2
        rw [hcontra, hclk] at hsome
        simp at hsome
      have hrinv := hpre r hr hre2 hnotchain
      have hchun : ∀ c ∈ activeChildren s1 r,
          applyCacheFun (chainCache (chainAll s1 a) (a :: rest)) c = c := by
        intro c hc
        unfold applyCacheFun
        cases hcc2 : clook (chainCache (chainAll s1 a) (a :: rest)) c.id with
        | none => rfl
        | some vc =>
          exfalso
          have hks : (clook (chainCache (chainAll s1 a) (a :: rest))
              c.id).isSome = true := by
            rw [hcc2]
            rfl
          obtain ⟨nd, hnd, hpcl⟩ := hCclosed c.id hks
          have hcs1 : c ∈ s1 := List.mem_of_mem_filter hc
          have hndc : nd = c := rubrica_id_inj hwf.1
            (List.mem_of_mem_filter (findRubrica_mem hnd).1) hcs1
            (findRubrica_mem hnd).2
          subst hndc
          have hcp := (List.mem_filter.mp hc).2
          simp only [decide_eq_true_eq] at hcp
          have hpar := hpcl r.id hcp.1
          rw [hclk] at hpar
          simp at hpar
      unfold rubricaInv at hrinv ⊢
      have hACeq : activeChildren
          (s1.map (applyCacheFun (chainCache (chainAll s1 a) (a :: rest)))) r =
          activeChildren s1 r := by
        unfold activeChildren
        refine filter_map_eq_filter ?_
        intro c hc
        by_cases hmemc : c ∈ activeChildren s1 r
        · left
          exact hchun c hmemc
        · right
          have hcpred : decide (c.parent_id = some r.id ∧
              c.anoFiscal = r.anoFiscal ∧
              c.status = StatusRubrica.ativa) = false := by
            by_cases hd : (c.parent_id = some r.id ∧
                c.anoFiscal = r.anoFiscal ∧ c.status = StatusRubrica.ativa)
            · exfalso
              refine hmemc (List.mem_filter.mpr ⟨hc, ?_⟩)
              simp only [decide_eq_true_eq]
              exact hd
            · simp only [decide_eq_false_iff_not]
              exact hd
          refine ⟨hcpred, ?_⟩
          simp only [(applyCacheFun_fields _ c).2.1,
            (applyCacheFun_fields _ c).2.2.2.1,
            (applyCacheFun_fields _ c).2.2.2.2.1]
          exact hcpred
      rw [hACeq]
      exact hrinv

theorem novoOf_fields (s : List Rubrica) (data : RubricaCreate) :
    (novoOf s data).id = nextRubricaId s ∧
    (novoOf s data).parent_id = data.parent_id ∧
    (novoOf s data).anoFiscal = data.anoFiscal := ⟨rfl, rfl, rfl⟩

theorem novoOf_nivel {s : List Rubrica} {data : RubricaCreate} {pid : Nat}
    {q : Rubrica}
    (hp : data.parent_id = some pid) (hq : findRubrica s pid = some q)
    (hpos : 1 ≤ pid) :
    (novoOf s data).nivel = q.nivel + 1 := by
  have htr : isTruthy (some pid) = true := by
    simp only [isTruthy, bne_iff_ne, ne_eq]
    omega
  show (if isTruthy data.parent_id then
      match data.parent_id with
      | some pid2 =>
        match findRubrica s pid2 with
        | some parent => parent.nivel + 1
        | none => 1
      | none => 1
    else 1) = q.nivel + 1
  rw [hp]
  rw [if_pos htr]
  simp only [hq]

theorem create_rubrica_ok_shape {s : List Rubrica} {data : RubricaCreate}
    {s2 : List Rubrica} {nid : Nat}
    (h : create_rubrica s data = Except.ok (s2, nid)) :
    s2 = recalculate_dotacao_chain (s ++ [novoOf s data]) (nextRubricaId s) ∧
    nid = nextRubricaId s := by
  unfold create_rubrica at h
  cases hc1 : (decide (data.parent_id = none) &&
      match data.dotacao_inicial with
      | some v => decide (v ≠ 0) && decide (0 < v)
      | none => false) with
  | true =>
    simp only [if_pos hc1] at h
    cases h
  | false =>
    have hnc1 : ¬ ((decide (data.parent_id = none) &&
        match data.dotacao_inicial with
        | some v => decide (v ≠ 0) && decide (0 < v)
        | none => false) = true) := by
      rw [hc1]
      simp
    simp only [if_neg hnc1] at h
    cases hc2 : (match data.dotacao_inicial with
        | some v => decide (v < 0)
        | none => false) with
    | true =>
      simp only [if_pos hc2] at h
      cases h
    | false =>
      have hnc2 : ¬ ((match data.dotacao_inicial with
          | some v => decide (v < 0)
          | none => false) = true) := by
        rw [hc2]
        simp
      simp only [if_neg hnc2] at h
      injection h with hp
      exact ⟨(congrArg Prod.fst hp).symm, (congrArg Prod.snd hp).symm⟩

theorem create_rubrica_preserves {s : List Rubrica} {data : RubricaCreate}
    {s2 : List Rubrica} {nid : Nat} {e : Int}
    (hwf : WFRubricas s)
    (hok : ∀ p ∈ (data.parent_id).toList,
      ∃ q ∈ s, q.id = p ∧ q.anoFiscal = data.anoFiscal)
    (hinv : yearInvariant s e)
    (hcr : create_rubrica s data = Except.ok (s2, nid)) :
    WFRubricas s2 ∧ yearInvariant s2 e ∧
      (∀ r ∈ s, ∃ q ∈ s2, q.id = r.id ∧ q.anoFiscal = r.anoFiscal) := by
  obtain ⟨hs2, -⟩ := create_rubrica_ok_shape hcr
  subst hs2
  have hfresh : ∀ r ∈ s, r.id ≠ nextRubricaId s :=
    fun r hr => nextRubricaId_fresh hr
  have hnovo_mem : novoOf s data ∈ s ++ [novoOf s data] :=
    List.mem_append_right _ (List.mem_singleton.mpr rfl)
  have hwf1 : WFRubricas (s ++ [novoOf s data]) := by
    obtain ⟨hnd, hpos, hpar⟩ := hwf
    refine ⟨?_, ?_, ?_⟩
    · rw [List.map_append, List.nodup_append]
      refine ⟨hnd, List.nodup_singleton _, ?_⟩
      intro x hx hx2
      simp only [List.map_cons, List.map_nil, List.mem_singleton] at hx2
      obtain ⟨r, hr, hrid⟩ := List.mem_map.mp hx
      rw [hx2] at hrid
      exact hfresh r hr (hrid.trans (novoOf_fields s data).1)
    · intro r hr
      rcases List.mem_append.mp hr with h1 | h1
      · exact hpos r h1
      · rw [List.mem_singleton] at h1
        rw [h1]
        show 1 ≤ nextRubricaId s
        unfold nextRubricaId
        omega
    · intro r hr p hp
      rcases List.mem_append.mp hr with h1 | h1
      · obtain ⟨q, hq, hqid, hqn, hqa⟩ := hpar r h1 p hp
        exact ⟨q, List.mem_append_left _ hq, hqid, hqn, hqa⟩
      · rw [List.mem_singleton] at h1
        subst h1
        have hp2 : p ∈ (data.parent_id).toList := hp
        obtain ⟨q, hq, hqid, hqa⟩ := hok p hp2
        have hdp : data.parent_id = some p := by
          cases hdp0 : data.parent_id with
          | none =>
            rw [hdp0] at hp2
            cases hp2
          | some pid =>
            rw [hdp0] at hp2
            simp only [Option.toList_some, List.mem_singleton] at hp2
            rw [hp2]
        have hfq : findRubrica s p = some q := by
          rw [← hqid]
          exact findRubrica_self hnd hq
        have hqpos : 1 ≤ p := by
          have := hpos q hq
          omega
        refine ⟨q, List.mem_append_left _ hq, hqid, ?_, ?_⟩
        · exact novoOf_nivel hdp hfq hqpos
        · exact hqa
  refine ⟨recalc_WF _ hwf1, ?_, ?_⟩
  · refine recalc_yearInvariant _ _ e hwf1 ?_
    intro r hr hre hnotchain
    have hfindnovo : findRubrica (s ++ [novoOf s data]) (nextRubricaId s) =
        some (novoOf s data) := findRubrica_self hwf1.1 hnovo_mem
    obtain ⟨hmnovo, hfacts1, hclosed1⟩ := chainAnc_spec hwf1 hfindnovo
    rcases List.mem_append.mp hr with hrs | hrnovo
    · have hnochild : activeChildren (s ++ [novoOf s data]) r =
          activeChildren s r := by
        unfold activeChildren
        rw [List.filter_append]
        have hnpred : ¬ (decide ((novoOf s data).parent_id = some r.id ∧
            (novoOf s data).anoFiscal = r.anoFiscal ∧
            (novoOf s data).status = StatusRubrica.ativa) = true) := by
          simp only [decide_eq_true_eq]
          intro hcontra
          obtain ⟨z, hz, hzid⟩ :=
            hclosed1 (novoOf s data) hmnovo r.id hcontra.1
          exact hnotchain z hz hzid
        have hnil : List.filter (fun x => decide (x.parent_id = some r.id ∧
            x.anoFiscal = r.anoFiscal ∧ x.status = StatusRubrica.ativa))
            [novoOf s data] = [] := by
          simp only [List.filter_cons, List.filter_nil]
          rw [if_neg hnpred]
        rw [hnil, List.append_nil]
      have hrinv := hinv r hrs hre
      unfold rubricaInv at hrinv ⊢
      rw [hnochild]
      exact hrinv
    · rw [List.mem_singleton] at hrnovo
      exfalso
      refine hnotchain (novoOf s data) hmnovo ?_
      rw [hrnovo]
  · intro r hr
    exact recalc_rows _ r (List.mem_append_left _ hr)

theorem updatedRow_fields (r : Rubrica) (upd : RubricaUpdate) :
    (updatedRow r upd).id = r.id ∧
    (updatedRow r upd).parent_id = r.parent_id ∧
    (updatedRow r upd).nivel = r.nivel ∧
    (updatedRow r upd).anoFiscal = r.anoFiscal := by
  unfold updatedRow
  split <;> exact ⟨rfl, rfl, rfl, rfl⟩

theorem update_rubrica_ok_shape {s : List Rubrica} {rid : Nat}
    {upd : RubricaUpdate} {s2 : List Rubrica}
    (h : update_rubrica s rid upd = Except.ok s2) :
    ∃ r, findRubrica s rid = some r ∧
      s2 = recalculate_dotacao_chain
        (s.map (fun x => if x.id = rid then updatedRow r upd else x)) rid := by
  unfold update_rubrica at h
  cases hf : findRubrica s rid with
  | none =>
    simp only [hf] at h
    cases h
  | some r =>
    simp only [hf] at h
    by_cases hc1 : (upd.dotacao_inicial.isSome ∧ r.parent_id = none)
    · rw [if_pos hc1] at h
      cases h
    · rw [if_neg hc1] at h
      cases hc2 : (match upd.dotacao_inicial with
          | some (some v) => decide (v < 0)
          | _ => false) with
      | true =>
        rw [if_pos hc2] at h
        cases h
      | false =>
        have hnc2 : ¬ ((match upd.dotacao_inicial with
            | some (some v) => decide (v < 0)
            | _ => false) = true) := by
          rw [hc2]
          simp
        rw [if_neg hnc2] at h
        injection h with hp
        exact ⟨r, rfl, hp.symm⟩

theorem update_rubrica_preserves {s : List Rubrica} {rid : Nat}
    {upd : RubricaUpdate} {s2 : List Rubrica} {e : Int}
    (hwf : WFRubricas s) (hinv : yearInvariant s e)
    (h : update_rubrica s rid upd = Except.ok s2) :
    WFRubricas s2 ∧ yearInvariant s2 e := by
  obtain ⟨r, hfr, hs2⟩ := update_rubrica_ok_shape h
  subst hs2
  obtain ⟨hrmem, hrid⟩ := findRubrica_mem hfr
  have hffields : ∀ x ∈ s,
      ((if x.id = rid then updatedRow r upd else x) : Rubrica).id = x.id ∧
      ((if x.id = rid then updatedRow r upd else x) : Rubrica).parent_id =
        x.parent_id ∧
      ((if x.id = rid then updatedRow r upd else x) : Rubrica).nivel =
        x.nivel ∧
      ((if x.id = rid then updatedRow r upd else x) : Rubrica).anoFiscal =
        x.anoFiscal := by
    intro x hx
    by_cases hxid : x.id = rid
    · have hxr : x = r := rubrica_id_inj hwf.1 hx hrmem (by rw [hxid, ← hrid])
      rw [if_pos hxid, hxr]
      obtain ⟨f1, f2, f3, f4⟩ := updatedRow_fields r upd
      exact ⟨f1, f2, f3, f4⟩
    · rw [if_neg hxid]
      exact ⟨rfl, rfl, rfl, rfl⟩
  have hwf1 : WFRubricas (s.map
      (fun x => if x.id = rid then updatedRow r upd else x)) :=
    WFRubricas_map hffields hwf
  refine ⟨recalc_WF _ hwf1, ?_⟩
  refine recalc_yearInvariant _ rid e hwf1 ?_
  intro x2 hx2 hxe hnotchain
  obtain ⟨x, hx, hfx⟩ := List.mem_map.mp hx2
  have hfind1 : findRubrica
      (s.map (fun x => if x.id = rid then updatedRow r upd else x)) rid =
      some (updatedRow r upd) := by
    have hmm : updatedRow r upd ∈
        s.map (fun x => if x.id = rid then updatedRow r upd else x) := by
      refine List.mem_map.mpr ⟨r, hrmem, ?_⟩
      show (if r.id = rid then updatedRow r upd else r) = updatedRow r upd
      rw [if_pos hrid]
    have hkey : (updatedRow r upd).id = rid := by
      rw [(updatedRow_fields r upd).1, hrid]
    have hself := findRubrica_self hwf1.1 hmm
    rw [hkey] at hself
    exact hself
  obtain ⟨hchm, hchfacts, hchclosed⟩ := chainAnc_spec hwf1 hfind1
  by_cases hxid : x.id = rid
  · exfalso
    refine hnotchain (updatedRow r upd) hchm ?_
    rw [← hfx]
    show (updatedRow r upd).id = (if x.id = rid then updatedRow r upd else x).id
    rw [if_pos hxid]
  · have hfxx : x2 = x := by
      rw [← hfx]
      show (if x.id = rid then updatedRow r upd else x) = x
      rw [if_neg hxid]
    rw [hfxx] at hxe ⊢
    have hchildren : activeChildren
        (s.map (fun x3 => if x3.id = rid then updatedRow r upd else x3)) x =
        activeChildren s x := by
      unfold activeChildren
      refine filter_map_eq_filter ?_
      intro c hc
      by_cases hcid : c.id = rid
      · right
        have hcr : c = r :=
          rubrica_id_inj hwf.1 hc hrmem (by rw [hcid, ← hrid])
        have hnotpar : ¬ (r.parent_id = some x.id) := by
          intro hpar
          have hfrpar : (updatedRow r upd).parent_id = some x.id := by
            rw [(updatedRow_fields r upd).2.1, hpar]
          obtain ⟨z, hz, hzid⟩ :=
            hchclosed (updatedRow r upd) hchm x.id hfrpar
          exact hnotchain z hz (by rw [hzid, hfxx])
        constructor
        · simp only [decide_eq_false_iff_not]
          intro hcontra
          rw [hcr] at hcontra
          exact hnotpar hcontra.1
        · simp only [decide_eq_false_iff_not]
          intro hcontra
          have hc1 : ((if c.id = rid then updatedRow r upd else c) :
              Rubrica).parent_id = some x.id := hcontra.1
          rw [if_pos hcid, (updatedRow_fields r upd).2.1] at hc1
          exact hnotpar hc1
      · left
        show (if c.id = rid then updatedRow r upd else c) = c
        rw [if_neg hcid]
    have hxinv := hinv x hx hxe
    unfold rubricaInv at hxinv ⊢
    rw [hchildren]
    exact hxinv

theorem delete_rubrica_ok_shape {s : List Rubrica} {rid : Nat}
    {s2 : List Rubrica} (h : delete_rubrica s rid = Except.ok s2) :
    ∃ r, findRubrica s rid = some r ∧
      ((∃ p, r.parent_id = some p ∧
          s2 = recalculate_dotacao_chain (s.map (fun x =>
            if x.id = rid then { x with status := StatusRubrica.inativa }
            else x)) p) ∨
        (s2 = s.map (fun x =>
            if x.id = rid then { x with status := StatusRubrica.inativa }
            else x) ∧ isTruthy r.parent_id = false)) := by
  unfold delete_rubrica at h
  cases hf : findRubrica s rid with
  | none =>
    simp only [hf] at h
    cases h
  | some r =>
    simp only [hf] at h
    cases htr : isTruthy r.parent_id with
    | true =>
      rw [if_pos htr] at h
      cases hp : r.parent_id with
      | some p =>
        simp only [hp] at h
        injection h with hp2
        exact ⟨r, rfl, Or.inl ⟨p, hp, hp2.symm⟩⟩
      | none =>
        rw [hp] at htr
        simp [isTruthy] at htr
    | false =>
      have hntr : ¬ (isTruthy r.parent_id = true) := by
        rw [htr]
        simp
      rw [if_neg hntr] at h
      injection h with hp2
      exact ⟨r, rfl, Or.inr ⟨hp2.symm, htr⟩⟩

theorem delete_rubrica_preserves {s : List Rubrica} {rid : Nat}
    {s2 : List Rubrica} {e : Int}
    (hwf : WFRubricas s) (hinv : yearInvariant s e)
    (h : delete_rubrica s rid = Except.ok s2) :
    WFRubricas s2 ∧ yearInvariant s2 e := by
  obtain ⟨r, hfr, hcase⟩ := delete_rubrica_ok_shape h
  obtain ⟨hrmem, hrid⟩ := findRubrica_mem hfr
  have hFfields : ∀ x : Rubrica,
      ((if x.id = rid then { x with status := StatusRubrica.inativa } else x) :
        Rubrica).id = x.id ∧
      ((if x.id = rid then { x with status := StatusRubrica.inativa } else x) :
        Rubrica).parent_id = x.parent_id ∧
      ((if x.id = rid then { x with status := StatusRubrica.inativa } else x) :
        Rubrica).nivel = x.nivel ∧
      ((if x.id = rid then { x with status := StatusRubrica.inativa } else x) :
        Rubrica).anoFiscal = x.anoFiscal ∧
      ((if x.id = rid then { x with status := StatusRubrica.inativa } else x) :
        Rubrica).dotacao_calculada = x.dotacao_calculada ∧
      ((if x.id = rid then { x with status := StatusRubrica.inativa } else x) :
        Rubrica).dotacao_inicial = x.dotacao_inicial := by
    intro x
    by_cases hxid : x.id = rid
    · rw [if_pos hxid]
      exact ⟨rfl, rfl, rfl, rfl, rfl, rfl⟩
    · rw [if_neg hxid]
      exact ⟨rfl, rfl, rfl, rfl, rfl, rfl⟩
  have hwf1 : WFRubricas (s.map (fun x =>
      if x.id = rid then { x with status := StatusRubrica.inativa } else x)) :=
    WFRubricas_map (fun x _ => ⟨(hFfields x).1, (hFfields x).2.1,
      (hFfields x).2.2.1, (hFfields x).2.2.2.1⟩) hwf
  have htransfer : ∀ x ∈ s, x.anoFiscal = e →
      ¬ (r.parent_id = some x.id) →
      rubricaInv (s.map (fun x3 => if x3.id = rid
        then { x3 with status := StatusRubrica.inativa } else x3))
        (if x.id = rid then { x with status := StatusRubrica.inativa }
          else x) := by
    intro x hx hxe hnc
    have hxinv := hinv x hx hxe
    unfold rubricaInv activeChildren at hxinv ⊢
    simp only [(hFfields x).1, (hFfields x).2.2.2.1,
      (hFfields x).2.2.2.2.1, (hFfields x).2.2.2.2.2]
    have hfeq : List.filter (fun c => decide (c.parent_id = some x.id ∧
        c.anoFiscal = x.anoFiscal ∧ c.status = StatusRubrica.ativa))
        (s.map (fun x3 => if x3.id = rid
          then { x3 with status := StatusRubrica.inativa } else x3)) =
        List.filter (fun c => decide (c.parent_id = some x.id ∧
          c.anoFiscal = x.anoFiscal ∧ c.status = StatusRubrica.ativa)) s := by
      refine filter_map_eq_filter ?_
      intro c hc
      by_cases hcid : c.id = rid
      · right
        have hcr : c = r :=
          rubrica_id_inj hwf.1 hc hrmem (by rw [hcid, ← hrid])
        constructor
        · simp only [decide_eq_false_iff_not]
          intro hcontra
          rw [hcr] at hcontra
          exact hnc hcontra.1
        · simp only [decide_eq_false_iff_not]
          intro hcontra
          have hc1 : ((if c.id = rid then
              { c with status := StatusRubrica.inativa } else c) :
              Rubrica).parent_id = some x.id := hcontra.1
          rw [(hFfields c).2.1, hcr] at hc1
          exact hnc hc1
      · left
        show (if c.id = rid then { c with status := StatusRubrica.inativa }
          else c) = c
        rw [if_neg hcid]
    rw [hfeq]
    exact hxinv
  rcases hcase with ⟨p, hp, hs2⟩ | ⟨hs2, htr⟩
  · subst hs2
    refine ⟨recalc_WF _ hwf1, ?_⟩
    refine recalc_yearInvariant _ p e hwf1 ?_
    intro x2 hx2 hxe hnotchain
    obtain ⟨x, hx, hfx⟩ := List.mem_map.mp hx2
    have hnc : ¬ (r.parent_id = some x.id) := by
      intro hcontra
      rw [hp] at hcontra
      have hpx : p = x.id := Option.some.inj hcontra
      obtain ⟨q, hq, hqid, hqn, hqa⟩ :=
        hwf.2.2 r hrmem p (by rw [hp]; simp)
      have hfq : findRubrica (s.map (fun x3 => if x3.id = rid
          then { x3 with status := StatusRubrica.inativa } else x3)) p =
          some ((fun x3 => if x3.id = rid
            then { x3 with status := StatusRubrica.inativa } else x3) q) := by
        have hqmem := List.mem_map_of_mem (fun x3 => if x3.id = rid
          then { x3 with status := StatusRubrica.inativa } else x3) hq
        have hqi : ((if q.id = rid then
            { q with status := StatusRubrica.inativa } else q) :
            Rubrica).id = p := by
          rw [(hFfields q).1, hqid]
        rw [← hqi]
        exact findRubrica_self hwf1.1 hqmem
      obtain ⟨hchm, -, -⟩ := chainAnc_spec hwf1 hfq
      refine hnotchain _ hchm ?_
      show ((if q.id = rid then { q with status := StatusRubrica.inativa }
        else q) : Rubrica).id = x2.id
      rw [(hFfields q).1, hqid, hpx, ← hfx, (hFfields x).1]
    rw [← hfx]
    refine htransfer x hx ?_ hnc
    rw [← (hFfields x).2.2.2.1, hfx]
    exact hxe
  · subst hs2
    refine ⟨hwf1, ?_⟩
    intro x2 hx2 hxe
    obtain ⟨x, hx, hfx⟩ := List.mem_map.mp hx2
    have hpn : r.parent_id = none := by
      cases hpn0 : r.parent_id with
      | none => rfl
      | some p =>
        exfalso
        rw [hpn0] at htr
        obtain ⟨q, hq, hqid, -, -⟩ :=
          hwf.2.2 r hrmem p (by rw [hpn0]; simp)
        have hq1 := hwf.2.1 q hq
        simp only [isTruthy, bne_eq_false_iff_eq] at htr
        omega
    rw [← hfx]
    refine htransfer x hx ?_ ?_
    · rw [← (hFfields x).2.2.2.1, hfx]
      exact hxe
    · intro hcontra
      rw [hpn] at hcontra
      cases hcontra

theorem batch_create_preserves {pid : Nat} {ano : Int} {tipo : TipoRubrica}
    (e : Int) :
    ∀ (items : List BatchItem) (s : List Rubrica), WFRubricas s →
      yearInvariant s e → (∃ q ∈ s, q.id = pid ∧ q.anoFiscal = ano) →
      WFRubricas (batch_create_rubricas s pid ano tipo items) ∧
      yearInvariant (batch_create_rubricas s pid ano tipo items) e ∧
      (∃ q ∈ batch_create_rubricas s pid ano tipo items,
        q.id = pid ∧ q.anoFiscal = ano) := by
  intro items
  induction items with
  | nil =>
    intro s hwf hinv hparent
    exact ⟨hwf, hinv, hparent⟩
  | cons item rest ihits =>
    intro s hwf hinv hparent
    cases hfc : findRubricaByCodigo s item.codigo ano with
    | some w =>
      have heq : batch_create_rubricas s pid ano tipo (item :: rest) =
          batch_create_rubricas s pid ano tipo rest := by
        simp only [batch_create_rubricas, hfc]
      rw [heq]
      exact ihits s hwf hinv hparent
    | none =>
      cases hcr : create_rubrica s
          { codigo := item.codigo, designacao := item.designacao
            tipo := tipo, parent_id := some pid, anoFiscal := ano
            dotacao_inicial := some 0, status := StatusRubrica.ativa } with
      | error err =>
        have heq : batch_create_rubricas s pid ano tipo (item :: rest) =
            batch_create_rubricas s pid ano tipo rest := by
          simp only [batch_create_rubricas, hfc, hcr]
        rw [heq]
        exact ihits s hwf hinv hparent
      | ok pr =>
        obtain ⟨s2, nid2⟩ := pr
        have heq : batch_create_rubricas s pid ano tipo (item :: rest) =
            batch_create_rubricas s2 pid ano tipo rest := by
          simp only [batch_create_rubricas, hfc, hcr]
        rw [heq]
        have hok : ∀ p ∈ ((some pid : Option Nat)).toList,
            ∃ q ∈ s, q.id = p ∧ q.anoFiscal = ano := by
          intro p hp
          simp only [Option.toList_some, List.mem_singleton] at hp
          rw [hp]
          exact hparent
        obtain ⟨hwf2, hinv2, hrows2⟩ :=
          create_rubrica_preserves hwf hok hinv hcr
        obtain ⟨q, hq, hqid, hqa⟩ := hparent
        obtain ⟨q2, hq2, hq2id, hq2a⟩ := hrows2 q hq
        exact ihits s2 hwf2 hinv2
          ⟨q2, hq2, by rw [hq2id, hqid], by rw [hq2a, hqa]⟩

/-- C1: after any rubrica mutation that triggers recalculation — create,
update, batch-create of children, soft-delete — the computed-allocation
invariant holds for every rubrica of every fiscal year: each rubrica
with no active same-year children carries its initial allocation (0.00
when absent) as `dotacao_calculada`, and each rubrica with such
children carries the exact sum of their computed allocations.  Stated
as preservation: on a well-formed table (distinct positive primary
keys, parent pointers resolving within the same fiscal year one level
up) whose invariant held before the mutation, and a mutation whose
referenced parent exists in the right fiscal year, the invariant holds
in the mutated table. -/
theorem c1_mutation_preserves_allocation_invariant (s : List Rubrica)
    (m : RubricaMutation) (e : Int) (hwf : WFRubricas s)
    (hok : MutationOK s m) (hinv : yearInvariant s e) :
    yearInvariant (applyRubricaMutation s m) e := by
  cases m with
  | create data =>
    cases hcr : create_rubrica s data with
    | error err =>
      have heq : applyRubricaMutation s (RubricaMutation.create data) = s := by
        simp only [applyRubricaMutation, hcr]
      rw [heq]
      exact hinv
    | ok pr =>
      obtain ⟨s2, nid⟩ := pr
      have heq : applyRubricaMutation s (RubricaMutation.create data) = s2 := by
        simp only [applyRubricaMutation, hcr]
      rw [heq]
      exact (create_rubrica_preserves hwf hok hinv hcr).2.1
  | update rid upd =>
    cases hup : update_rubrica s rid upd with
    | error err =>
      have heq : applyRubricaMutation s (RubricaMutation.update rid upd) = s := by
        simp only [applyRubricaMutation, hup]
      rw [heq]
      exact hinv
    | ok s2 =>
      have heq : applyRubricaMutation s (RubricaMutation.update rid upd) = s2 := by
        simp only [applyRubricaMutation, hup]
      rw [heq]
      exact (update_rubrica_preserves hwf hinv hup).2
  | batchCreate pid ano tipo items =>
    cases hfp : findRubrica s pid with
    | none =>
      have heq : applyRubricaMutation s
          (RubricaMutation.batchCreate pid ano tipo items) = s := by
        simp only [applyRubricaMutation, hfp]
      rw [heq]
      exact hinv
    | some w =>
      have heq : applyRubricaMutation s
          (RubricaMutation.batchCreate pid ano tipo items) =
          batch_create_rubricas s pid ano tipo items := by
        simp only [applyRubricaMutation, hfp]
      rw [heq]
      exact (batch_create_preserves e items s hwf hinv hok).2.1
  | softDelete rid =>
    cases hdel : delete_rubrica s rid with
    | error err =>
      have heq : applyRubricaMutation s (RubricaMutation.softDelete rid) = s := by
        simp only [applyRubricaMutation, hdel]
      rw [heq]
      exact hinv
    | ok s2 =>
      have heq : applyRubricaMutation s (RubricaMutation.softDelete rid) = s2 := by
        simp only [applyRubricaMutation, hdel]
      rw [heq]
      exact (delete_rubrica_preserves hwf hinv hdel).2

/-- Witness for the allocation-invariant theorem at a concrete
well-formed two-node tree (a root and its active leaf child, computed
allocations consistent), soft-deleting the leaf. -/
theorem c1_witness :
    yearInvariant
      (applyRubricaMutation fixC1 (RubricaMutation.softDelete 2)) 2024 :=
  c1_mutation_preserves_allocation_invariant fixC1
    (RubricaMutation.softDelete 2) 2024 (by decide) (by decide) (by decide)

end SistemaContabil

